import Mathlib

/-!
llama_dart WebGPU bridge: session orchestration.

A shallow embedding of `webgpu_bridge/src/llama_webgpu_core.cpp`.

* A `std::string` is the list of its `char` elements (`Str`).
* Index loops of the source carry a fuel argument, and every caller supplies
  more fuel than the loop can use. For `replace_all_inplace` and
  `count_occurrences` the lemmas `replace_all_inplace_eq` and
  `count_occurrences_eq` show that the loop ends before the fuel does: the
  result is the one of a scan that has no fuel.
* `size_t` is 32 bits wide (Emscripten, wasm32); its arithmetic wraps
  modulo `SIZE_MOD`.
* The inference engine is an external collaborator: each of its answers is
  an argument of the operation that asks for it, and the calls made for their
  effect are recorded in the field `trace` of the state.
-/

namespace LlamaWebgpu

/-! ## Strings -/

/-- Model of `std::string`: the sequence of `char` elements. -/
abbrev Str := List Char

/-- The literal `"<__media__>"`, the fallback marker of
`normalize_media_markers` and the value of `mtmd_default_marker()`. -/
def MEDIA_MARKER : Str := ['<', '_', '_', 'm', 'e', 'd', 'i', 'a', '_', '_', '>']

/-- The literal `"<image>"`. -/
def LIT_IMAGE : Str := ['<', 'i', 'm', 'a', 'g', 'e', '>']
/-- The literal `"[IMG]"`. -/
def LIT_IMG_BRACKET : Str := ['[', 'I', 'M', 'G', ']']
/-- The literal `"<|image|>"`. -/
def LIT_IMAGE_BAR : Str := ['<', '|', 'i', 'm', 'a', 'g', 'e', '|', '>']
/-- The literal `"<img>"`. -/
def LIT_IMG : Str := ['<', 'i', 'm', 'g', '>']
/-- The literal `"<|img|>"`. -/
def LIT_IMG_BAR : Str := ['<', '|', 'i', 'm', 'g', '|', '>']
/-- The literal `"<audio>"`. -/
def LIT_AUDIO : Str := ['<', 'a', 'u', 'd', 'i', 'o', '>']
/-- The literal `"<|audio|>"`. -/
def LIT_AUDIO_BAR : Str := ['<', '|', 'a', 'u', 'd', 'i', 'o', '|', '>']
/-- The literal `"User:"`. -/
def LIT_USER_CAP : Str := ['U', 's', 'e', 'r', ':']
/-- The literal `"user:"`. -/
def LIT_USER : Str := ['u', 's', 'e', 'r', ':']
/-- The word `image` of the regex `<\|image_\d+\|>`. -/
def KIND_IMAGE : Str := ['i', 'm', 'a', 'g', 'e']
/-- The word `audio` of the regex `<\|audio_\d+\|>`. -/
def KIND_AUDIO : Str := ['a', 'u', 'd', 'i', 'o']

/-- Search of `std::string::find` in the part `l` of the text that starts at
index `pos`: the lowest index at which `pattern` occurs. -/
def find_from (pattern : Str) : Str → Nat → Option Nat
  | [], pos => if pattern = [] then some pos else none
  | c :: cs, pos =>
    if pattern.isPrefixOf (c :: cs) then some pos else find_from pattern cs (pos + 1)

/-- Model of `text.find(pattern, start)`; `none` is `std::string::npos`. -/
def find (text pattern : Str) (start : Nat) : Option Nat :=
  if start ≤ text.length then find_from pattern (text.drop start) start else none

/-- Model of `text.replace(pos, len, to)`. -/
def replace (text : Str) (pos len : Nat) (dst : Str) : Str :=
  text.take pos ++ dst ++ text.drop (pos + len)

/-- The `while (true)` loop of `replace_all_inplace`, state `(text, start)`. -/
def replace_all_loop (src dst : Str) : Nat → Str → Nat → Str
  | 0, text, _ => text
  | fuel + 1, text, start =>
    match find text src start with
    | none => text
    | some pos => replace_all_loop src dst fuel (replace text pos src.length dst) (pos + dst.length)

/-- Source: `replace_all_inplace(text, from, to)`; returns the new `text`. -/
def replace_all_inplace (text src dst : Str) : Str :=
  if src = [] then text else replace_all_loop src dst (text.length + 1) text 0

/-- The `while (true)` loop of `count_occurrences`, state `(count, start)`. -/
def count_loop (text pattern : Str) : Nat → Nat → Nat → Nat
  | 0, count, _ => count
  | fuel + 1, count, start =>
    match find text pattern start with
    | none => count
    | some pos => count_loop text pattern fuel (count + 1) (pos + pattern.length)

/-- Source: `count_occurrences(text, pattern)`. -/
def count_occurrences (text pattern : Str) : Nat :=
  if pattern = [] then 0 else count_loop text pattern (text.length + 1) 0 0

/-- Match of the regex `<\|KIND_\d+\|>` at the head of `l`: the length of the
match. The digit run is the longest one, which is the only way the regex can
match since the character after the digits must be a bar. -/
def match_indexed (kind : Str) (l : Str) : Option Nat :=
  let pre : Str := '<' :: '|' :: (kind ++ ['_'])
  if pre.isPrefixOf l then
    let rest := l.drop pre.length
    let ds := rest.takeWhile Char.isDigit
    if ds ≠ [] ∧ (['|', '>'] : Str).isPrefixOf (rest.drop ds.length) then
      some (pre.length + ds.length + 2)
    else none
  else none

/-- Left-to-right replacement of every non-overlapping match, as
`std::regex_replace` does it: where `m` matches `k + 1` characters the
replacement `to` is written and the scan resumes after the match (`skip`
counts the characters of that match still to pass over); elsewhere the
character is copied. -/
def scan_replace (m : Str → Option Nat) (dst : Str) : Str → Nat → Str
  | [], _ => []
  | _ :: cs, skip + 1 => scan_replace m dst cs skip
  | c :: cs, 0 =>
    match m (c :: cs) with
    | some (k + 1) => dst ++ scan_replace m dst cs k
    | _ => c :: scan_replace m dst cs 0

/-- Model of `std::regex_replace(text, std::regex("<\\|KIND_\\d+\\|>"), to)`. -/
def regex_replace_indexed (text kind dst : Str) : Str :=
  scan_replace (match_indexed kind) dst text 0

/-- The loop that builds `marker_block`: `missing` markers joined by one space. -/
def marker_block (marker : Str) : Nat → Str
  | 0 => []
  | i + 1 =>
    let block := marker_block marker i
    (if block ≠ [] then block ++ [' '] else block) ++ marker

/-- Source: `normalize_media_markers(prompt, media_count)`; `marker_ptr` is the
answer of `mtmd_default_marker()`. -/
def normalize_media_markers (marker_ptr : Option Str) (prompt : Str) (media_count : Nat) : Str :=
  let marker : Str := match marker_ptr with
    | none => MEDIA_MARKER
    | some p => p
  let normalized := prompt
  let normalized := replace_all_inplace normalized LIT_IMAGE marker
  let normalized := replace_all_inplace normalized LIT_IMG_BRACKET marker
  let normalized := replace_all_inplace normalized LIT_IMAGE_BAR marker
  let normalized := replace_all_inplace normalized LIT_IMG marker
  let normalized := replace_all_inplace normalized LIT_IMG_BAR marker
  let normalized := replace_all_inplace normalized LIT_AUDIO marker
  let normalized := replace_all_inplace normalized LIT_AUDIO_BAR marker
  let normalized := regex_replace_indexed normalized KIND_IMAGE marker
  let normalized := regex_replace_indexed normalized KIND_AUDIO marker
  if media_count = 0 then normalized
  else
    let marker_count := count_occurrences normalized marker
    if marker_count ≥ media_count then normalized
    else
      let missing := media_count - marker_count
      let block := marker_block marker missing
      match find normalized LIT_USER_CAP 0 with
      | some user_cap_pos =>
        replace normalized user_cap_pos 5 (LIT_USER_CAP ++ [' '] ++ block ++ [' '])
      | none =>
        match find normalized LIT_USER 0 with
        | some user_pos =>
          replace normalized user_pos 5 (LIT_USER ++ [' '] ++ block ++ [' '])
        | none => block ++ ['\n'] ++ normalized


/-! ## Auxiliary notions for the normalizer proofs -/

/-- Matcher of a literal pattern: the whole pattern at the head of `l`. -/
def match_literal (pat : Str) (l : Str) : Option Nat :=
  if pat.isPrefixOf l then some pat.length else none

/-- Greedy left-to-right count of the non-overlapping occurrences of `pat`
(`skip` counts the characters of the last occurrence still to pass over). -/
def count_scan (pat : Str) : Str → Nat → Nat
  | [], _ => 0
  | _ :: cs, skip + 1 => count_scan pat cs skip
  | c :: cs, 0 =>
    if pat.isPrefixOf (c :: cs) then 1 + count_scan pat cs (pat.length - 1)
    else count_scan pat cs 0

/-- The nine replacement passes at the start of `normalize_media_markers`. -/
def normalize_replacements (marker prompt : Str) : Str :=
  let normalized := prompt
  let normalized := replace_all_inplace normalized LIT_IMAGE marker
  let normalized := replace_all_inplace normalized LIT_IMG_BRACKET marker
  let normalized := replace_all_inplace normalized LIT_IMAGE_BAR marker
  let normalized := replace_all_inplace normalized LIT_IMG marker
  let normalized := replace_all_inplace normalized LIT_IMG_BAR marker
  let normalized := replace_all_inplace normalized LIT_AUDIO marker
  let normalized := replace_all_inplace normalized LIT_AUDIO_BAR marker
  let normalized := regex_replace_indexed normalized KIND_IMAGE marker
  regex_replace_indexed normalized KIND_AUDIO marker

/-- The part of `normalize_media_markers` after the replacement passes. -/
def fill_missing_markers (marker normalized : Str) (media_count : Nat) : Str :=
  if media_count = 0 then normalized
  else
    let marker_count := count_occurrences normalized marker
    if marker_count ≥ media_count then normalized
    else
      let missing := media_count - marker_count
      let block := marker_block marker missing
      match find normalized LIT_USER_CAP 0 with
      | some user_cap_pos =>
        replace normalized user_cap_pos 5 (LIT_USER_CAP ++ [' '] ++ block ++ [' '])
      | none =>
        match find normalized LIT_USER 0 with
        | some user_pos =>
          replace normalized user_pos 5 (LIT_USER ++ [' '] ++ block ++ [' '])
        | none => block ++ ['\n'] ++ normalized

/-- Shape shared by every alternate placeholder spelling: an opening `<` or `[`,
then at least one more character, none of which is an opening character, a
space or a newline, and the first of which is not an underscore. -/
def AltShape (w : Str) : Prop :=
  ∃ s b0 body, w = s :: b0 :: body ∧ (s = '<' ∨ s = '[') ∧ b0 ≠ '_' ∧
    ∀ c ∈ b0 :: body, c ≠ '<' ∧ c ≠ '[' ∧ c ≠ ' ' ∧ c ≠ '\n'

/-- The words matched by the regex `<\|KIND_\d+\|>`. -/
def IndexedWord (kind : Str) (w : Str) : Prop :=
  ∃ ds : Str, ds ≠ [] ∧ (∀ d ∈ ds, d.isDigit = true) ∧
    w = '<' :: '|' :: (kind ++ ['_']) ++ ds ++ ['|', '>']

/-- A matcher `m` recognises exactly the words of `L` at the head of a text. -/
structure MatcherSpec (m : Str → Option Nat) (L : Str → Prop) : Prop where
  sound : ∀ l k, m l = some k → ∃ w, L w ∧ w <+: l ∧ w.length = k
  complete : ∀ l, m l = none → ∀ w, L w → ¬ w <+: l
  shape : ∀ w, L w → AltShape w

/-- No word of `L` occurs anywhere in `l`. -/
def Clean (L : Str → Prop) (l : Str) : Prop := ∀ w, L w → ¬ w <:+: l

/-- Any of the nine alternate spellings that the replacement passes rewrite. -/
def AltWord (w : Str) : Prop :=
  w = LIT_IMAGE ∨ w = LIT_IMG_BRACKET ∨ w = LIT_IMAGE_BAR ∨ w = LIT_IMG ∨ w = LIT_IMG_BAR ∨
    w = LIT_AUDIO ∨ w = LIT_AUDIO_BAR ∨ IndexedWord KIND_IMAGE w ∨ IndexedWord KIND_AUDIO w

/-! ## Runtime state -/

/-- Address of an engine object; a null pointer is `none` in `Option Handle`. -/
abbrev Handle := Nat

/-- Values of `float` as far as the comparisons of the bridge can see them:
a finite value is `m * 2 ^ e`. -/
inductive F32
  | nan
  | neg_inf
  | fin (m : Int) (e : Int)
  | pos_inf
  deriving DecidableEq, Repr

namespace F32

/-- Comparison key of two finite values brought to a common exponent. -/
def align (m e m' e' : Int) : Int × Int :=
  let k := min e e'
  (m * 2 ^ (e - k).toNat, m' * 2 ^ (e' - k).toNat)

/-- The comparison `a < b` of C++ (false when either side is NaN). -/
def lt : F32 → F32 → Bool
  | nan, _ => false
  | _, nan => false
  | neg_inf, neg_inf => false
  | neg_inf, _ => true
  | _, neg_inf => false
  | pos_inf, _ => false
  | _, pos_inf => true
  | fin m e, fin m' e' => decide ((align m e m' e').1 < (align m e m' e').2)

/-- The comparison `a == b` of C++ (false when either side is NaN). -/
def eq : F32 → F32 → Bool
  | nan, _ => false
  | _, nan => false
  | neg_inf, neg_inf => true
  | pos_inf, pos_inf => true
  | fin m e, fin m' e' => decide ((align m e m' e').1 = (align m e m' e').2)
  | _, _ => false

/-- The comparison `a <= b` of C++. -/
def le (a b : F32) : Bool := lt a b || eq a b

/-- The comparison `a > b` of C++. -/
def gt (a b : F32) : Bool := lt b a

/-- The comparison `a != b` of C++ (true when either side is NaN). -/
def ne (a b : F32) : Bool := !eq a b

/-- The constant `0.0f`. -/
def zero : F32 := fin 0 0

/-- The constant `1.0f`. -/
def one : F32 := fin 1 0

end F32

/-- Size of `size_t` arithmetic on the Emscripten (wasm32) target of the bridge:
values wrap modulo `2 ^ 32`. -/
def SIZE_MOD : Nat := 2 ^ 32

/-- Conversion `static_cast<int32_t>` of an unsigned value. -/
def to_int32 (n : Nat) : Int :=
  let m : Nat := n % 2 ^ 32
  if m < 2 ^ 31 then (m : Int) else (m : Int) - 2 ^ 32

/-- The fields of `llama_context_params` that `llamadart_webgpu_load_model` reads or writes. -/
structure context_params where
  n_ctx : Nat
  n_batch : Nat
  n_ubatch : Nat
  n_threads : Int
  n_threads_batch : Int
  offload_kqv : Bool
  op_offload : Bool
  no_perf : Bool
  deriving DecidableEq, Repr

/-- One stage of a sampler chain, with the arguments of its constructor. -/
inductive SamplerStage
  | penalties (last_n : Int) (repeat_penalty freq present : F32)
  | top_k (k : Int)
  | top_p (p : F32) (min_keep : Nat)
  | grammar (handle : Handle) (text : Str)
  | temp (t : F32)
  | dist (seed : Nat)
  deriving DecidableEq, Repr

/-- A sampler chain: the object returned by `llama_sampler_chain_init` and the
stages added to it, in order. -/
structure Sampler where
  handle : Handle
  stages : List SamplerStage
  deriving DecidableEq, Repr

/-- Engine calls made for their effect; the bridge state records them in order. -/
inductive EngineCall
  | llama_backend_init
  | llama_backend_free
  | ggml_backend_load_all
  | llama_model_load_from_file (path : Str) (n_gpu_layers : Int)
  | llama_model_free (model : Handle)
  | llama_init_from_model (model : Handle) (cparams : context_params)
  | llama_free (ctx : Handle)
  | llama_set_abort_callback (ctx : Handle)
  | mtmd_init_from_file (path : Str) (use_gpu : Bool) (n_threads : Int)
  | mtmd_free (mm_ctx : Handle)
  | mtmd_bitmap_free (bitmap : Handle)
  | llama_sampler_free (sampler : Handle)
  | llama_memory_clear
  | llama_tokenize (text : Str) (capacity : Int) (add_special : Bool)
  | llama_decode (tokens : List Int)
  | mtmd_tokenize (text : Str) (add_special : Bool) (bitmaps : List (Option Handle))
  | mtmd_helper_eval_chunks (n_batch : Int)
  | mtmd_input_chunks_free (chunks : Handle)
  | llama_sampler_sample
  deriving DecidableEq, Repr

/-- Source: `struct runtime_state`. -/
structure runtime_state where
  model : Option Handle := none
  ctx : Option Handle := none
  vocab : Option Handle := none
  mm_ctx : Option Handle := none
  n_ctx : Nat := 0
  deriving DecidableEq, Repr

/-- The globals of the translation unit, and `trace`, the engine calls made so far. -/
structure Globals where
  g_state : runtime_state := {}
  g_backend_initialized : Bool := false
  g_has_webgpu : Bool := false
  g_generation_active : Bool := false
  g_cancel_requested : Bool := false
  g_active_sampler : Option Sampler := none
  g_last_error : Str := []
  g_last_output : Str := []
  g_last_piece : Str := []
  g_last_tokens_json : Str := ['[', ']']
  g_last_detokenized : Str := []
  g_backend_json : Str := ['[', ']']
  g_model_meta_json : Str := ['{', '}']
  g_pending_media : List (Option Handle) := []
  trace : List EngineCall := []
  deriving DecidableEq, Repr

/-- The state at program start: every global at its initializer. -/
def initial_state : Globals := {}

/-- Records an engine call. -/
def emit (c : EngineCall) (g : Globals) : Globals :=
  { g with trace := g.trace ++ [c] }

/-- Source: `to_lower`. -/
def to_lower (value : Str) : Str := value.map Char.toLower

/-- Source: `escape_json`. -/
def escape_json : Str → Str
  | [] => []
  | c :: cs =>
    (if c = '\\' then ['\\', '\\']
     else if c = '"' then ['\\', '"']
     else if c = '\n' then ['\\', 'n']
     else if c = '\r' then ['\\', 'r']
     else if c = '\t' then ['\\', 't']
     else [c]) ++ escape_json cs

/-- Source: `set_error`. -/
def set_error (message : Str) (g : Globals) : Globals :=
  { g with g_last_error := message }

/-- Source: `clear_error`. -/
def clear_error (g : Globals) : Globals :=
  { g with g_last_error := [] }

/-- Source: `clear_pending_media`: frees every non-null bitmap, in order, then
empties the vector. -/
def clear_pending_media (g : Globals) : Globals :=
  { g with
    trace := g.trace ++ g.g_pending_media.filterMap (fun bitmap =>
      match bitmap with
      | some b => some (EngineCall.mtmd_bitmap_free b)
      | none => none)
    g_pending_media := [] }

/-- Source: `ensure_backend_initialized`. -/
def ensure_backend_initialized (g : Globals) : Globals :=
  if !g.g_backend_initialized then
    { emit .llama_backend_init g with g_backend_initialized := true }
  else g

/-- Source: `end_generation_state`. -/
def end_generation_state (g : Globals) : Globals :=
  let g := match g.g_active_sampler with
    | some sampler => { emit (.llama_sampler_free sampler.handle) g with g_active_sampler := none }
    | none => g
  { g with g_generation_active := false, g_last_piece := [], g_cancel_requested := false }

/-- Source: `free_runtime`. -/
def free_runtime (g : Globals) : Globals :=
  let g := end_generation_state g
  let g := clear_pending_media g
  let g := match g.g_state.mm_ctx with
    | some mm => { emit (.mtmd_free mm) g with g_state := { g.g_state with mm_ctx := none } }
    | none => g
  let g := match g.g_state.ctx with
    | some ctx => { emit (.llama_free ctx) g with g_state := { g.g_state with ctx := none } }
    | none => g
  let g := match g.g_state.model with
    | some model =>
      { emit (.llama_model_free model) g with g_state := { g.g_state with model := none } }
    | none => g
  { g with
    g_state := { g.g_state with vocab := none, n_ctx := 0 }
    g_last_output := []
    g_last_piece := []
    g_last_tokens_json := ['[', ']']
    g_last_detokenized := []
    g_model_meta_json := ['{', '}'] }

/-- What the engine reports for one device index: the name of the device and,
when the device has a backend registry, the name of that registry. -/
structure Device where
  name : Option Str
  reg : Option (Option Str)
  deriving DecidableEq, Repr

/-- Source: the body of the loop of `collect_backend_labels` for one device
(`none` when the loop continues without a label). -/
def backend_label (dev : Option Device) : Option Str :=
  match dev with
  | none => none
  | some d =>
    match d.name with
    | none => none
    | some dev_name =>
      match d.reg with
      | some (some reg_name) =>
        if reg_name.length > 0 then
          if to_lower reg_name = to_lower dev_name then some reg_name
          else some (reg_name ++ " (".toList ++ dev_name ++ ")".toList)
        else some dev_name
      | _ => some dev_name

/-- Source: `collect_backend_labels`; `devices` lists the answers of
`ggml_backend_dev_get(i)` for `i` below `ggml_backend_dev_count()`. -/
def collect_backend_labels (devices : List (Option Device)) : List Str :=
  devices.filterMap backend_label

/-- The loop of `refresh_backend_probe` that joins the quoted labels with commas. -/
def join_labels_json : List Str → Nat → Str
  | [], _ => []
  | label :: rest, i =>
    (if i > 0 then [','] else []) ++ ['"'] ++ escape_json label ++ ['"'] ++
      join_labels_json rest (i + 1)

/-- Source: `refresh_backend_probe`. -/
def refresh_backend_probe (devices : List (Option Device)) (g : Globals) : Globals :=
  let g := clear_error g
  let g := ensure_backend_initialized g
  let g := emit .ggml_backend_load_all g
  let labels := collect_backend_labels devices
  let json := ['['] ++ join_labels_json labels 0 ++ [']']
  let g := { g with g_backend_json := json }
  { g with g_has_webgpu := labels.any (fun label =>
      let lowered := to_lower label
      (find lowered "webgpu".toList 0).isSome || (find lowered "wgpu".toList 0).isSome) }

/-- Answers of the engine to the metadata calls: `meta_count` is
`llama_model_meta_count`, and `meta_str index read_key attempt capacity` is the
return code of the key (or value) call together with the C string it leaves in
the buffer. -/
structure MetaEnv where
  meta_count : Int
  meta_str : Int → Bool → Nat → Nat → Int × Str

/-- The `for (attempt < 6)` loop of `read_model_meta_string`: the result and the
number of engine calls made. -/
def read_model_meta_loop (call : Nat → Nat → Int × Str) : Nat → Nat → Nat → Str × Nat
  | 0, _, _ => ([], 0)
  | remaining + 1, attempt, buf_size =>
    let r := call attempt buf_size
    if r.1 < 0 then
      let next := read_model_meta_loop call remaining (attempt + 1) ((buf_size * 2) % SIZE_MOD)
      (next.1, next.2 + 1)
    else if r.1.toNat ≥ buf_size then
      let next := read_model_meta_loop call remaining (attempt + 1) ((r.1.toNat + 1) % SIZE_MOD)
      (next.1, next.2 + 1)
    else (r.2, 1)

/-- Source: `read_model_meta_string(model, index, read_key)`. -/
def read_model_meta_string (env : MetaEnv) (index : Int) (read_key : Bool) : Str :=
  (read_model_meta_loop (env.meta_str index read_key) 6 0 (if read_key then 1024 else 65536)).1

/-- The `for (i < count)` loop of `rebuild_model_metadata_json`, state `(json, wrote_any)`. -/
def metadata_entries (env : MetaEnv) : List Int → Str → Bool → Str
  | [], json, _ => json
  | i :: rest, json, wrote_any =>
    let key := read_model_meta_string env i true
    let value := read_model_meta_string env i false
    if key = [] then metadata_entries env rest json wrote_any
    else
      let json := if wrote_any then json ++ [','] else json
      let json := json ++ ['"'] ++ escape_json key ++ "\":".toList ++ ['"'] ++
        escape_json value ++ ['"']
      metadata_entries env rest json true

/-- Source: `rebuild_model_metadata_json`. -/
def rebuild_model_metadata_json (env : MetaEnv) (g : Globals) : Globals :=
  if g.g_state.model = none then { g with g_model_meta_json := ['{', '}'] }
  else if env.meta_count ≤ 0 then { g with g_model_meta_json := ['{', '}'] }
  else
    let json := metadata_entries env ((List.range env.meta_count.toNat).map Int.ofNat) ['{'] false
    { g with g_model_meta_json := json ++ ['}'] }

/-- Source: `ensure_loaded`. -/
def ensure_loaded (g : Globals) : Bool × Globals :=
  if g.g_state.model = none ∨ g.g_state.ctx = none ∨ g.g_state.vocab = none then
    (false, set_error "Model is not loaded".toList g)
  else (true, g)

/-! ## Tokens and text -/

/-- One answer of `llama_tokenize`: the return code and the tokens written. -/
structure TokenizeResult where
  rc : Int
  written : List Int

/-- Answers of the engine to the two `llama_tokenize` calls of `tokenize_text`. -/
structure TokenizeEnv where
  first : TokenizeResult
  second : TokenizeResult

/-- A vector of `size` tokens, zero-filled, after the engine wrote `written`
at its start. -/
def token_buffer (size : Nat) (written : List Int) : List Int :=
  (written ++ List.replicate size 0).take size

/-- Model of `out.resize(n)`. -/
def resize_tokens (out : List Int) (n : Nat) : List Int :=
  (out ++ List.replicate n 0).take n

/-- Source: `tokenize_text(text, add_special, out)`; returns the flag, the
vector `out` and the new state. -/
def tokenize_text (env : TokenizeEnv) (text : Str) (add_special : Bool) (g : Globals) :
    Bool × List Int × Globals :=
  let loaded := ensure_loaded g
  if !loaded.1 then (false, [], loaded.2)
  else
    let g := loaded.2
    let capacity : Int := if to_int32 text.length + 8 < 32 then 32 else to_int32 text.length + 8
    let out := token_buffer capacity.toNat env.first.written
    let g := emit (.llama_tokenize text capacity add_special) g
    let n_tokens := env.first.rc
    if n_tokens < 0 then
      let required : Int := -n_tokens
      let out := token_buffer required.toNat env.second.written
      let g := emit (.llama_tokenize text required add_special) g
      let n_tokens := env.second.rc
      if n_tokens < 0 then (false, out, set_error "Prompt tokenization failed".toList g)
      else (true, resize_tokens out n_tokens.toNat, g)
    else (true, resize_tokens out n_tokens.toNat, g)

/-- The `for (offset < tokens.size())` loop of `decode_tokens`; `i` counts the
`llama_decode` calls made so far. -/
def decode_loop (decode_rc : Nat → Int) (tokens : List Int) (max_batch : Nat) :
    Nat → Nat → Nat → Globals → Bool × Globals
  | 0, _, _, g => (true, g)
  | fuel + 1, offset, i, g =>
    if offset < tokens.length then
      let count := min (tokens.length - offset) max_batch
      let g := emit (.llama_decode ((tokens.drop offset).take count)) g
      if decode_rc i ≠ 0 then
        (false, set_error "llama_decode failed while processing prompt".toList g)
      else decode_loop decode_rc tokens max_batch fuel (offset + max_batch) (i + 1) g
    else (true, g)

/-- The batch limit used by the bridge: `llama_n_batch` read as `int32_t`, or
512 when that is not positive. -/
def batch_limit (n_batch : Nat) : Int :=
  if to_int32 n_batch ≤ 0 then 512 else to_int32 n_batch

/-- Source: `decode_tokens(tokens)`; `n_batch` is the answer of `llama_n_batch`
and `decode_rc i` the answer of the `i`-th `llama_decode`. -/
def decode_tokens (n_batch : Nat) (decode_rc : Nat → Int) (tokens : List Int) (g : Globals) :
    Bool × Globals :=
  let loaded := ensure_loaded g
  if !loaded.1 then (false, loaded.2)
  else
    let g := loaded.2
    if tokens = [] then (false, set_error "Cannot decode empty token sequence".toList g)
    else
      let max_batch := batch_limit n_batch
      decode_loop decode_rc tokens max_batch.toNat tokens.length 0 0 g

/-- One answer of `llama_token_to_piece`: the return code and the buffer content. -/
structure PieceResult where
  rc : Int
  buf : Str

/-- Answers of the engine to the two `llama_token_to_piece` calls of `token_to_piece`. -/
structure PieceEnv where
  first : PieceResult
  second : PieceResult

/-- Model of `std::string(buf.data(), n)` for a zero-filled buffer of `size`
characters after the engine wrote `written` at its start. -/
def piece_of_buffer (size : Nat) (written : Str) (n : Nat) : Str :=
  ((written ++ List.replicate size (Char.ofNat 0)).take size).take n

/-- Source: `token_to_piece(token, special)`. -/
def token_to_piece (env : PieceEnv) (g : Globals) : Str × Globals :=
  let loaded := ensure_loaded g
  if !loaded.1 then ([], loaded.2)
  else
    let g := loaded.2
    let n := env.first.rc
    if n < 0 then
      let size := ((-n).toNat + 8) % SIZE_MOD
      let n := env.second.rc
      if n < 0 then ([], g)
      else (piece_of_buffer size env.second.buf n.toNat, g)
    else (piece_of_buffer 256 env.first.buf n.toNat, g)

/-- Decimal digits of a natural number, most significant first (the loop of
`std::to_string`). -/
def nat_digits : Nat → Nat → Str → Str
  | 0, _, acc => acc
  | fuel + 1, n, acc =>
    let acc := Char.ofNat (48 + n % 10) :: acc
    if n / 10 = 0 then acc else nat_digits fuel (n / 10) acc

/-- Model of `std::to_string(int)`. -/
def int_to_string (v : Int) : Str :=
  if v < 0 then '-' :: nat_digits (v.natAbs + 1) v.natAbs []
  else nat_digits (v.natAbs + 1) v.natAbs []

/-- The loop of `serialize_tokens_json`. -/
def join_tokens_json : List Int → Nat → Str
  | [], _ => []
  | t :: rest, i =>
    (if i > 0 then [','] else []) ++ int_to_string t ++ join_tokens_json rest (i + 1)

/-- Source: `serialize_tokens_json`. -/
def serialize_tokens_json (tokens : List Int) : Str :=
  ['['] ++ join_tokens_json tokens 0 ++ [']']

/-- Model of `std::strtol(p, &end, 10)` where `*p` is a sign or a digit: the
value (clamped to the range of `long`, 32 bits on the target) and the number of
characters consumed, 0 when no digit follows the sign. -/
def strtol10 (p : Str) : Int × Nat :=
  let signed : Bool := match p with
    | c :: _ => c = '-' ∨ c = '+'
    | [] => false
  let negative : Bool := match p with
    | c :: _ => c = '-'
    | [] => false
  let body := if signed then p.drop 1 else p
  let ds := body.takeWhile Char.isDigit
  if ds = [] then (0, 0)
  else
    let magnitude : Nat := ds.foldl (fun acc d => acc * 10 + (d.toNat - 48)) 0
    let value : Int := if negative then -(magnitude : Int) else (magnitude : Int)
    let clamped : Int :=
      if value < -(2 ^ 31 : Int) then -(2 ^ 31 : Int)
      else if value > 2 ^ 31 - 1 then 2 ^ 31 - 1 else value
    (clamped, (if signed then 1 else 0) + ds.length)

/-- The outer `while (*p != 0)` loop of `parse_token_list` on the text from `p` on. -/
def parse_token_loop : Nat → Str → List Int → List Int
  | 0, _, out => out
  | fuel + 1, p, out =>
    if p = [] then out
    else
      let p := p.dropWhile (fun c => !c.isDigit && c != '-' && c != '+')
      if p = [] then out
      else
        let r := strtol10 p
        if r.2 = 0 then parse_token_loop fuel (p.drop 1) out
        else parse_token_loop fuel (p.drop r.2) (out ++ [r.1])

/-- Source: `parse_token_list(token_text, out_tokens)`. -/
def parse_token_list (token_text : Option Str) : List Int :=
  match token_text with
  | none => []
  | some text => parse_token_loop (text.length + 1) text []

/-! ## Prompt ingestion and sampling -/

/-- Answers of the engine during `decode_multimodal_prompt`. -/
structure MultimodalEnv where
  default_marker : Option Str
  chunks : Option Handle
  bos : Int
  eos : Int
  tokenize_rc : Int
  n_batch : Nat
  eval_rc : Int

/-- Source: `decode_multimodal_prompt(prompt)`. -/
def decode_multimodal_prompt (env : MultimodalEnv) (prompt : Str) (g : Globals) :
    Bool × Globals :=
  if g.g_state.mm_ctx = none then
    let g := set_error
      "Multimodal projector is not loaded. Call loadMultimodalProjector first.".toList g
    (false, clear_pending_media g)
  else
    match env.chunks with
    | none =>
      let g := set_error "Failed to allocate multimodal input chunks".toList g
      (false, clear_pending_media g)
    | some chunks =>
      let normalized_prompt :=
        normalize_media_markers env.default_marker prompt g.g_pending_media.length
      let add_special : Bool := env.bos ≠ env.eos ∧ env.bos ≠ -1
      let g := emit (.mtmd_tokenize normalized_prompt add_special g.g_pending_media) g
      if env.tokenize_rc ≠ 0 then
        let g :=
          if env.tokenize_rc = 1 then
            set_error
              "Multimodal marker count does not match number of provided media parts".toList g
          else if env.tokenize_rc = 2 then
            set_error "Failed to preprocess multimodal media content".toList g
          else set_error "mtmd_tokenize failed while processing multimodal prompt".toList g
        let g := emit (.mtmd_input_chunks_free chunks) g
        (false, clear_pending_media g)
      else
        let n_batch := batch_limit env.n_batch
        let g := emit (.mtmd_helper_eval_chunks n_batch) g
        let g := emit (.mtmd_input_chunks_free chunks) g
        let g := clear_pending_media g
        if env.eval_rc ≠ 0 then
          (false,
            set_error "mtmd_helper_eval_chunks failed while ingesting multimodal prompt".toList g)
        else (true, g)

/-- Answers of the engine during `create_sampler`: the chain object and the
grammar sampler (asked for only when the grammar text is not empty). -/
structure SamplerEnv where
  chain : Option Handle
  grammar_sampler : Option Handle

/-- The test `grammar != nullptr && std::strlen(grammar) > 0`. -/
def grammar_given (grammar : Option Str) : Bool :=
  match grammar with
  | none => false
  | some text => text.length > 0

/-- Source: `create_sampler(temp, top_k, top_p, repeat_penalty, grammar, seed)`. -/
def create_sampler (env : SamplerEnv) (temp : F32) (top_k : Int) (top_p repeat_penalty : F32)
    (grammar : Option Str) (seed : Nat) (g : Globals) : Option Sampler × Globals :=
  match env.chain with
  | none => (none, g)
  | some sampler =>
    let stages : List SamplerStage := []
    let stages :=
      if F32.ne repeat_penalty F32.one then
        stages ++ [.penalties 64 repeat_penalty F32.zero F32.zero]
      else stages
    let stages := if top_k > 0 then stages ++ [.top_k top_k] else stages
    let stages := if F32.lt top_p F32.one then stages ++ [.top_p top_p 1] else stages
    if grammar_given grammar then
      match env.grammar_sampler with
      | none => (none, emit (.llama_sampler_free sampler) g)
      | some grammar_sampler =>
        let stages := stages ++ [.grammar grammar_sampler (grammar.getD [])]
        let stages := stages ++ [.temp temp]
        let stages := stages ++ [.dist seed]
        (some { handle := sampler, stages := stages }, g)
    else
      let stages := stages ++ [.temp temp]
      let stages := stages ++ [.dist seed]
      (some { handle := sampler, stages := stages }, g)

/-- Arguments of `begin_generation_impl`. -/
structure GenArgs where
  prompt : Option Str
  temp : F32
  top_k : Int
  top_p : F32
  repeat_penalty : F32
  grammar : Option Str
  seed : Nat

/-- The effect of a `llamadart_webgpu_request_cancel` that runs while an engine
call is running: the flag is set when a request arrived. -/
def note_cancel (arrived : Bool) (g : Globals) : Globals :=
  { g with g_cancel_requested := g.g_cancel_requested || arrived }

/-- Answers of the engine during `begin_generation_impl`, and whether
`llamadart_webgpu_request_cancel` ran while the prompt was being decoded by
`decode_multimodal_prompt` or `decode_tokens` (after the reset of
`g_cancel_requested`; the abort callback of the context reads the same flag). -/
structure BeginEnv where
  multimodal : MultimodalEnv
  tokenize : TokenizeEnv
  n_batch : Nat
  decode_rc : Nat → Int
  cancel_during_decode : Bool
  sampler : SamplerEnv

/-- The end of `begin_generation_impl`, from the `create_sampler` call on. -/
def begin_generation_sampler (env : BeginEnv) (temp : F32) (top_k : Int)
    (top_p repeat_penalty : F32) (grammar : Option Str) (seed : Nat) (g : Globals) :
    Int × Globals :=
  let created := create_sampler env.sampler temp top_k top_p repeat_penalty grammar seed g
  let g := { created.2 with g_active_sampler := created.1 }
  if g.g_active_sampler = none then
    if grammar_given grammar then
      (-5, set_error "Failed to initialize sampler chain (invalid grammar)".toList g)
    else (-5, set_error "Failed to initialize sampler chain".toList g)
  else (0, { g with g_generation_active := true })

/-- Source: `begin_generation_impl`. -/
def begin_generation_impl (env : BeginEnv) (a : GenArgs) (g : Globals) : Int × Globals :=
  let g := clear_error g
  let g := { g with g_last_output := [], g_last_piece := [] }
  let loaded := ensure_loaded g
  if !loaded.1 then (-1, loaded.2)
  else
    let g := loaded.2
    match a.prompt with
    | none => (-2, set_error "Prompt is null".toList g)
    | some prompt_text =>
      let temp := if F32.lt a.temp F32.zero then F32.zero else a.temp
      let top_k := if a.top_k < 0 then 0 else a.top_k
      let top_p :=
        if F32.le a.top_p F32.zero || F32.gt a.top_p F32.one then F32.one else a.top_p
      let repeat_penalty :=
        if F32.le a.repeat_penalty F32.zero then F32.one else a.repeat_penalty
      let g := end_generation_state g
      let g := { g with g_cancel_requested := false }
      let g := emit .llama_memory_clear g
      if g.g_pending_media ≠ [] then
        let decoded := decode_multimodal_prompt env.multimodal prompt_text g
        let g := note_cancel env.cancel_during_decode decoded.2
        if !decoded.1 then (-3, g)
        else
          begin_generation_sampler env temp top_k top_p repeat_penalty a.grammar a.seed g
      else
        let tokenized := tokenize_text env.tokenize prompt_text true g
        if !tokenized.1 then (-3, tokenized.2.2)
        else
          let decoded := decode_tokens env.n_batch env.decode_rc tokenized.2.1 tokenized.2.2
          let g := note_cancel env.cancel_during_decode decoded.2
          if !decoded.1 then (-4, g)
          else
            begin_generation_sampler env temp top_k top_p repeat_penalty a.grammar a.seed g

/-- Answers of the engine during one `next_token_impl` call: the sampled token
(`none` is `LLAMA_TOKEN_NULL`), whether it ends generation, the text
conversion, the return code of `llama_decode`, and whether
`llamadart_webgpu_request_cancel` ran while `llama_decode` was running (the
abort callback of the context reads the same flag). -/
structure StepEnv where
  sampled : Option Int
  is_eog : Bool
  piece : PieceEnv
  decode_rc : Int
  cancel_during_decode : Bool

/-- Source: `next_token_impl`. -/
def next_token_impl (env : StepEnv) (g : Globals) : Int × Globals :=
  let g := clear_error g
  let loaded := ensure_loaded g
  if !loaded.1 then (-1, loaded.2)
  else
    let g := loaded.2
    if !g.g_generation_active || g.g_active_sampler.isNone then
      (-2, set_error "Generation is not active".toList g)
    else if g.g_cancel_requested then (0, end_generation_state g)
    else
      let g := emit .llama_sampler_sample g
      match env.sampled with
      | none =>
        let g := set_error "Sampler returned LLAMA_TOKEN_NULL".toList g
        (-3, end_generation_state g)
      | some token =>
        if env.is_eog then (0, end_generation_state g)
        else
          let piece := token_to_piece env.piece g
          let g := { piece.2 with g_last_piece := piece.1 }
          let g := { g with g_last_output := g.g_last_output ++ g.g_last_piece }
          let g := emit (.llama_decode [token]) g
          let g := { g with
            g_cancel_requested := g.g_cancel_requested || env.cancel_during_decode }
          if env.decode_rc ≠ 0 then
            if g.g_cancel_requested then (0, end_generation_state g)
            else
              let g := set_error "llama_decode failed while generating tokens".toList g
              (-4, end_generation_state g)
          else (1, g)

/-! ## Boundary operations (`extern "C"`) -/

/-- Source: `llamadart_webgpu_probe`. -/
def llamadart_webgpu_probe (devices : List (Option Device)) (g : Globals) : Int × Globals :=
  let g := refresh_backend_probe devices g
  (if g.g_has_webgpu then 1 else 0, g)

/-- Source: `llamadart_webgpu_backends_json`. -/
def llamadart_webgpu_backends_json (devices : List (Option Device)) (g : Globals) :
    Str × Globals :=
  let g := refresh_backend_probe devices g
  (g.g_backend_json, g)

/-- Source: `llamadart_webgpu_last_error`. -/
def llamadart_webgpu_last_error (g : Globals) : Str := g.g_last_error

/-- Answers of the engine during `llamadart_webgpu_load_model`. -/
structure LoadEnv where
  model : Option Handle
  default_cparams : context_params
  ctx : Option Handle
  vocab : Option Handle
  n_ctx : Nat
  metadata : MetaEnv

/-- The context parameters that `llamadart_webgpu_load_model` passes to
`llama_init_from_model`. -/
def load_context_params (defaults : context_params) (n_ctx n_threads n_gpu_layers : Int) :
    context_params :=
  let cparams := defaults
  let cparams := if n_ctx > 0 then { cparams with n_ctx := n_ctx.toNat } else cparams
  let cparams :=
    if n_threads > 0 then { cparams with n_threads := n_threads, n_threads_batch := n_threads }
    else cparams
  let cparams :=
    if cparams.n_batch = 0 ∨ cparams.n_batch > cparams.n_ctx then
      { cparams with n_batch := min cparams.n_ctx 1024 }
    else cparams
  let cparams :=
    if cparams.n_ubatch = 0 ∨ cparams.n_ubatch > cparams.n_batch then
      { cparams with n_ubatch := min cparams.n_batch 512 }
    else cparams
  let enable_gpu_ops : Bool := n_gpu_layers > 0
  { cparams with offload_kqv := enable_gpu_ops, op_offload := enable_gpu_ops, no_perf := true }

/-- Source: `llamadart_webgpu_load_model`. -/
def llamadart_webgpu_load_model (env : LoadEnv) (model_path : Option Str)
    (n_ctx n_threads n_gpu_layers : Int) (g : Globals) : Int × Globals :=
  let g := clear_error g
  let g := { g with g_last_output := [], g_cancel_requested := false }
  match model_path with
  | none => (-1, set_error "Model path is empty".toList g)
  | some path =>
    if path.length = 0 then (-1, set_error "Model path is empty".toList g)
    else
      let g := free_runtime g
      let g := emit (.llama_model_load_from_file path n_gpu_layers) g
      let g := { g with g_state := { g.g_state with model := env.model } }
      match env.model with
      | none => (-2, set_error "llama_model_load_from_file failed".toList g)
      | some model =>
        let cparams := load_context_params env.default_cparams n_ctx n_threads n_gpu_layers
        let g := emit (.llama_init_from_model model cparams) g
        let g := { g with g_state := { g.g_state with ctx := env.ctx } }
        match env.ctx with
        | none =>
          let g := set_error "llama_init_from_model failed".toList g
          (-3, free_runtime g)
        | some ctx =>
          let g := { g with g_state := { g.g_state with vocab := env.vocab } }
          let g := { g with g_state := { g.g_state with n_ctx := env.n_ctx } }
          let g := emit (.llama_set_abort_callback ctx) g
          (0, rebuild_model_metadata_json env.metadata g)

/-- Answers of the engine during `llamadart_webgpu_mmproj_load`. -/
structure MmprojEnv where
  n_threads : Int
  mm_ctx : Option Handle

/-- The statements `clear_pending_media(); if (g_state.mm_ctx != nullptr) ...`
shared by `llamadart_webgpu_mmproj_load` and `llamadart_webgpu_mmproj_free`. -/
def release_projector (g : Globals) : Globals :=
  let g := clear_pending_media g
  match g.g_state.mm_ctx with
  | some mm => { emit (.mtmd_free mm) g with g_state := { g.g_state with mm_ctx := none } }
  | none => g

/-- Source: `llamadart_webgpu_mmproj_load`. -/
def llamadart_webgpu_mmproj_load (env : MmprojEnv) (mmproj_path : Option Str) (g : Globals) :
    Int × Globals :=
  let g := clear_error g
  let loaded := ensure_loaded g
  if !loaded.1 then (-1, loaded.2)
  else
    let g := loaded.2
    match mmproj_path with
    | none => (-2, set_error "Multimodal projector path is empty".toList g)
    | some path =>
      if path.length = 0 then (-2, set_error "Multimodal projector path is empty".toList g)
      else
        let g := release_projector g
        let n_threads : Int := if env.n_threads ≤ 0 then 1 else env.n_threads
        let g := emit (.mtmd_init_from_file path g.g_has_webgpu n_threads) g
        let g := { g with g_state := { g.g_state with mm_ctx := env.mm_ctx } }
        if g.g_state.mm_ctx = none then
          (-3, set_error "Failed to load multimodal projector".toList g)
        else (0, g)

/-- Source: `llamadart_webgpu_mmproj_free`. -/
def llamadart_webgpu_mmproj_free (g : Globals) : Globals := release_projector g

/-- Source: `llamadart_webgpu_mmproj_supports_vision`; `answer` is `mtmd_support_vision`. -/
def llamadart_webgpu_mmproj_supports_vision (answer : Bool) (g : Globals) : Int :=
  if g.g_state.mm_ctx = none then 0 else if answer then 1 else 0

/-- Source: `llamadart_webgpu_mmproj_supports_audio`; `answer` is `mtmd_support_audio`. -/
def llamadart_webgpu_mmproj_supports_audio (answer : Bool) (g : Globals) : Int :=
  if g.g_state.mm_ctx = none then 0 else if answer then 1 else 0

/-- Source: `llamadart_webgpu_media_clear_pending`. -/
def llamadart_webgpu_media_clear_pending (g : Globals) : Globals :=
  clear_pending_media (clear_error g)

/-- The common start of the four media-add operations: `clear_error`, then the
loaded check (-1) and the projector check (-2); `none` when both pass. -/
def media_add_guard (g : Globals) : Option Int × Globals :=
  let g := clear_error g
  let loaded := ensure_loaded g
  if !loaded.1 then (some (-1), loaded.2)
  else
    let g := loaded.2
    if g.g_state.mm_ctx = none then
      (some (-2), set_error "Multimodal projector is not loaded".toList g)
    else (none, g)

/-- Source: `llamadart_webgpu_media_add_file`; `bitmap` is the answer of
`mtmd_helper_bitmap_init_from_file`. -/
def llamadart_webgpu_media_add_file (bitmap : Option Handle) (media_path : Option Str)
    (g : Globals) : Int × Globals :=
  let guard := media_add_guard g
  match guard.1 with
  | some rc => (rc, guard.2)
  | none =>
    let g := guard.2
    if media_path = none ∨ (media_path.getD []).length = 0 then
      (-3, set_error "Media file path is empty".toList g)
    else if bitmap = none then (-4, set_error "Failed to decode media file content".toList g)
    else (0, { g with g_pending_media := g.g_pending_media ++ [bitmap] })

/-- Source: `llamadart_webgpu_media_add_encoded`; `bytes` is the pointer
argument and `bitmap` the answer of `mtmd_helper_bitmap_init_from_buf`. -/
def llamadart_webgpu_media_add_encoded (bitmap : Option Handle) (bytes : Option Handle)
    (length : Int) (g : Globals) : Int × Globals :=
  let guard := media_add_guard g
  match guard.1 with
  | some rc => (rc, guard.2)
  | none =>
    let g := guard.2
    if bytes = none ∨ length ≤ 0 then (-3, set_error "Encoded media bytes are empty".toList g)
    else if bitmap = none then (-4, set_error "Failed to decode encoded media bytes".toList g)
    else (0, { g with g_pending_media := g.g_pending_media ++ [bitmap] })

/-- Source: `llamadart_webgpu_media_add_rgb`; `width` and `height` are
`uint32_t`, `length` is `int32_t`, `bitmap` is the answer of `mtmd_bitmap_init`. -/
def llamadart_webgpu_media_add_rgb (bitmap : Option Handle) (width height : Nat)
    (bytes : Option Handle) (length : Int) (g : Globals) : Int × Globals :=
  let guard := media_add_guard g
  match guard.1 with
  | some rc => (rc, guard.2)
  | none =>
    let g := guard.2
    if width = 0 ∨ height = 0 ∨ bytes = none ∨ length ≤ 0 then
      (-3, set_error "Invalid raw RGB media payload".toList g)
    else
      let expected : Nat := (((width % SIZE_MOD) * (height % SIZE_MOD)) % SIZE_MOD * 3) % SIZE_MOD
      if expected ≠ length.toNat % SIZE_MOD then
        (-4, set_error "Raw RGB bytes do not match width*height*3".toList g)
      else if bitmap = none then
        (-5, set_error "Failed to initialize RGB media bitmap".toList g)
      else (0, { g with g_pending_media := g.g_pending_media ++ [bitmap] })

/-- Source: `llamadart_webgpu_media_add_audio_f32`; `bitmap` is the answer of
`mtmd_bitmap_init_from_audio`. -/
def llamadart_webgpu_media_add_audio_f32 (bitmap : Option Handle) (samples : Option Handle)
    (sample_count : Int) (g : Globals) : Int × Globals :=
  let guard := media_add_guard g
  match guard.1 with
  | some rc => (rc, guard.2)
  | none =>
    let g := guard.2
    if samples = none ∨ sample_count ≤ 0 then
      (-3, set_error "Audio samples are empty".toList g)
    else if bitmap = none then (-4, set_error "Failed to initialize audio bitmap".toList g)
    else (0, { g with g_pending_media := g.g_pending_media ++ [bitmap] })

/-- Source: `llamadart_webgpu_tokenize_to_json`. -/
def llamadart_webgpu_tokenize_to_json (env : TokenizeEnv) (text : Option Str)
    (add_special : Int) (g : Globals) : Int × Globals :=
  let g := clear_error g
  let g := { g with g_last_tokens_json := ['[', ']'] }
  match text with
  | none => (-1, set_error "Text is null".toList g)
  | some text =>
    let tokenized := tokenize_text env text (add_special ≠ 0) g
    if !tokenized.1 then (-2, tokenized.2.2)
    else
      let g := tokenized.2.2
      let g := { g with g_last_tokens_json := serialize_tokens_json tokenized.2.1 }
      (to_int32 tokenized.2.1.length, g)

/-- Source: `llamadart_webgpu_last_tokens_json`. -/
def llamadart_webgpu_last_tokens_json (g : Globals) : Str := g.g_last_tokens_json

/-- The `for (token : tokens)` loop of `llamadart_webgpu_detokenize_from_json`;
`pieces i` holds the answers of the engine for the `i`-th token. -/
def detokenize_loop (pieces : Nat → PieceEnv) : List Int → Nat → Globals → Globals
  | [], _, g => g
  | _ :: rest, i, g =>
    let piece := token_to_piece (pieces i) g
    let g := { piece.2 with g_last_detokenized := piece.2.g_last_detokenized ++ piece.1 }
    detokenize_loop pieces rest (i + 1) g

/-- Source: `llamadart_webgpu_detokenize_from_json`. -/
def llamadart_webgpu_detokenize_from_json (pieces : Nat → PieceEnv) (token_text : Option Str)
    (_special : Int) (g : Globals) : Int × Globals :=
  let g := clear_error g
  let g := { g with g_last_detokenized := [] }
  let loaded := ensure_loaded g
  if !loaded.1 then (-1, loaded.2)
  else
    let g := loaded.2
    let tokens := parse_token_list token_text
    if tokens = [] then (0, g)
    else
      let g := detokenize_loop pieces tokens 0 g
      (to_int32 g.g_last_detokenized.length, g)

/-- Source: `llamadart_webgpu_last_detokenized`. -/
def llamadart_webgpu_last_detokenized (g : Globals) : Str := g.g_last_detokenized

/-- The `for (i < n_predict)` loop of `llamadart_webgpu_generate` with the
statements after it; `remaining` is `n_predict - i`. -/
def generate_loop (steps : Nat → StepEnv) : Nat → Nat → Globals → Int × Globals
  | 0, _, g => (0, end_generation_state g)
  | remaining + 1, i, g =>
    let step := next_token_impl (steps i) g
    if step.1 = 0 then (0, end_generation_state step.2)
    else if step.1 < 0 then (step.1, end_generation_state step.2)
    else generate_loop steps remaining (i + 1) step.2

/-- Source: `llamadart_webgpu_generate`. -/
def llamadart_webgpu_generate (env : BeginEnv) (steps : Nat → StepEnv) (a : GenArgs)
    (n_predict : Int) (g : Globals) : Int × Globals :=
  let n_predict : Int := if n_predict ≤ 0 then 128 else n_predict
  let begun := begin_generation_impl env a g
  if begun.1 ≠ 0 then (begun.1, begun.2)
  else generate_loop steps n_predict.toNat 0 begun.2

/-- Source: `llamadart_webgpu_begin_generation`. -/
def llamadart_webgpu_begin_generation (env : BeginEnv) (a : GenArgs) (g : Globals) :
    Int × Globals :=
  begin_generation_impl env a g

/-- Source: `llamadart_webgpu_next_token`. -/
def llamadart_webgpu_next_token (env : StepEnv) (g : Globals) : Int × Globals :=
  next_token_impl env g

/-- Source: `llamadart_webgpu_last_piece`. -/
def llamadart_webgpu_last_piece (g : Globals) : Str := g.g_last_piece

/-- Source: `llamadart_webgpu_end_generation`. -/
def llamadart_webgpu_end_generation (g : Globals) : Globals := end_generation_state g

/-- Source: `llamadart_webgpu_request_cancel`. -/
def llamadart_webgpu_request_cancel (g : Globals) : Globals :=
  { g with g_cancel_requested := true }

/-- Source: `llamadart_webgpu_last_output`. -/
def llamadart_webgpu_last_output (g : Globals) : Str := g.g_last_output

/-- Source: `llamadart_webgpu_get_context_size`; `n_ctx` is the answer of `llama_n_ctx`. -/
def llamadart_webgpu_get_context_size (n_ctx : Nat) (g : Globals) : Int :=
  if g.g_state.ctx = none then 0 else to_int32 n_ctx

/-- Source: `llamadart_webgpu_model_meta_json`. -/
def llamadart_webgpu_model_meta_json (g : Globals) : Str := g.g_model_meta_json

/-- Source: `llamadart_webgpu_shutdown`. -/
def llamadart_webgpu_shutdown (g : Globals) : Globals :=
  let g := free_runtime g
  let g :=
    if g.g_backend_initialized then
      { emit .llama_backend_free g with g_backend_initialized := false }
    else g
  { g with g_has_webgpu := false, g_backend_json := ['[', ']'] }

/-! ## Reachable states -/

/-- A call of a boundary operation that can change the state, with its
arguments and the answers of the engine during the call. -/
inductive Op
  | probe (devices : List (Option Device))
  | backends_json (devices : List (Option Device))
  | load_model (env : LoadEnv) (model_path : Option Str) (n_ctx n_threads n_gpu_layers : Int)
  | mmproj_load (env : MmprojEnv) (mmproj_path : Option Str)
  | mmproj_free
  | media_clear_pending
  | media_add_file (bitmap : Option Handle) (media_path : Option Str)
  | media_add_encoded (bitmap : Option Handle) (bytes : Option Handle) (length : Int)
  | media_add_rgb (bitmap : Option Handle) (width height : Nat) (bytes : Option Handle)
      (length : Int)
  | media_add_audio_f32 (bitmap : Option Handle) (samples : Option Handle) (sample_count : Int)
  | tokenize_to_json (env : TokenizeEnv) (text : Option Str) (add_special : Int)
  | detokenize_from_json (pieces : Nat → PieceEnv) (token_text : Option Str) (special : Int)
  | generate (env : BeginEnv) (steps : Nat → StepEnv) (a : GenArgs) (n_predict : Int)
  | begin_generation (env : BeginEnv) (a : GenArgs)
  | next_token (env : StepEnv)
  | end_generation
  | request_cancel
  | shutdown

/-- The state after a boundary call. -/
def Op.exec : Op → Globals → Globals
  | .probe devices, g => (llamadart_webgpu_probe devices g).2
  | .backends_json devices, g => (llamadart_webgpu_backends_json devices g).2
  | .load_model env model_path n_ctx n_threads n_gpu_layers, g =>
    (llamadart_webgpu_load_model env model_path n_ctx n_threads n_gpu_layers g).2
  | .mmproj_load env mmproj_path, g => (llamadart_webgpu_mmproj_load env mmproj_path g).2
  | .mmproj_free, g => llamadart_webgpu_mmproj_free g
  | .media_clear_pending, g => llamadart_webgpu_media_clear_pending g
  | .media_add_file bitmap media_path, g =>
    (llamadart_webgpu_media_add_file bitmap media_path g).2
  | .media_add_encoded bitmap bytes length, g =>
    (llamadart_webgpu_media_add_encoded bitmap bytes length g).2
  | .media_add_rgb bitmap width height bytes length, g =>
    (llamadart_webgpu_media_add_rgb bitmap width height bytes length g).2
  | .media_add_audio_f32 bitmap samples sample_count, g =>
    (llamadart_webgpu_media_add_audio_f32 bitmap samples sample_count g).2
  | .tokenize_to_json env text add_special, g =>
    (llamadart_webgpu_tokenize_to_json env text add_special g).2
  | .detokenize_from_json pieces token_text special, g =>
    (llamadart_webgpu_detokenize_from_json pieces token_text special g).2
  | .generate env steps a n_predict, g => (llamadart_webgpu_generate env steps a n_predict g).2
  | .begin_generation env a, g => (llamadart_webgpu_begin_generation env a g).2
  | .next_token env, g => (llamadart_webgpu_next_token env g).2
  | .end_generation, g => llamadart_webgpu_end_generation g
  | .request_cancel, g => llamadart_webgpu_request_cancel g
  | .shutdown, g => llamadart_webgpu_shutdown g

/-- The states the bridge can be in: the initial state and every state that a
boundary call produces from one of them, whatever the engine answers. -/
inductive Reachable : Globals → Prop
  | init : Reachable initial_state
  | step (op : Op) {g : Globals} (h : Reachable g) : Reachable (op.exec g)

/-- The test of `ensure_loaded`: model, context and vocabulary are non-null. -/
def Loaded (g : Globals) : Prop :=
  g.g_state.model ≠ none ∧ g.g_state.ctx ≠ none ∧ g.g_state.vocab ≠ none

/-- The session is Active: the test of `next_token_impl` passes, that is
`g_generation_active` is set and a sampler chain is held. -/
def SessionActive (g : Globals) : Prop :=
  g.g_generation_active = true ∧ g.g_active_sampler ≠ none

/-- The session is Idle: no generation is active and no sampler chain is held. -/
def SessionIdle (g : Globals) : Prop :=
  g.g_generation_active = false ∧ g.g_active_sampler = none

/-- The relation between session and runtime that every boundary operation keeps. -/
def SessionInv (g : Globals) : Prop :=
  (g.g_generation_active = true ↔ g.g_active_sampler ≠ none) ∧
    (g.g_generation_active = true → Loaded g)

/-- The second state has the session flag, the sampler chain, the runtime
handles, the cancellation flag and the accumulated output of the first. -/
def Frame (g g' : Globals) : Prop :=
  g'.g_generation_active = g.g_generation_active ∧
    g'.g_active_sampler = g.g_active_sampler ∧
    g'.g_state = g.g_state ∧
    g'.g_cancel_requested = g.g_cancel_requested ∧
    g'.g_last_output = g.g_last_output

/-! ## Concrete runs -/

/-- Engine answers for a model load that succeeds. -/
def demo_load_env : LoadEnv where
  model := some 1
  default_cparams :=
    { n_ctx := 512, n_batch := 512, n_ubatch := 512, n_threads := 4, n_threads_batch := 4,
      offload_kqv := false, op_offload := false, no_perf := false }
  ctx := some 2
  vocab := some 3
  n_ctx := 512
  metadata := { meta_count := 0, meta_str := fun _ _ _ _ => (0, []) }

/-- Engine answers for a text prompt that is tokenized to one token and decoded. -/
def demo_begin_env : BeginEnv where
  multimodal :=
    { default_marker := some MEDIA_MARKER, chunks := some 5, bos := 1, eos := 2,
      tokenize_rc := 0, n_batch := 512, eval_rc := 0 }
  tokenize := { first := { rc := 1, written := [7] }, second := { rc := 0, written := [] } }
  n_batch := 512
  decode_rc := fun _ => 0
  cancel_during_decode := false
  sampler := { chain := some 4, grammar_sampler := none }

/-- Arguments of a generation request with the given prompt pointer. -/
def demo_args (prompt : Option Str) : GenArgs where
  prompt := prompt
  temp := F32.fin 1 0
  top_k := 40
  top_p := F32.fin 1 0
  repeat_penalty := F32.fin 1 0
  grammar := none
  seed := 42

/-- Engine answers for a step that samples token 11 with text `Hi` and decodes it. -/
def demo_step_env : StepEnv where
  sampled := some 11
  is_eog := false
  piece := { first := { rc := 2, buf := ['H', 'i'] }, second := { rc := 0, buf := [] } }
  decode_rc := 0
  cancel_during_decode := false

/-- The state after `load_model("m", 0, 0, 0)` from the initial state. -/
def demo_loaded : Globals :=
  (Op.load_model demo_load_env (some ['m']) 0 0 0).exec initial_state

/-- The state after `begin_generation("Hello", ...)` on `demo_loaded`. -/
def demo_active : Globals :=
  (Op.begin_generation demo_begin_env (demo_args (some "Hello".toList))).exec demo_loaded

/-- The state after one `next_token()` on `demo_active`. -/
def demo_produced : Globals := (Op.next_token demo_step_env).exec demo_active

/-- The state after `request_cancel()` on `demo_produced`. -/
def demo_cancelled : Globals := Op.request_cancel.exec demo_produced

/-- The state after `mmproj_load("p")` on `demo_loaded`. -/
def demo_projector : Globals :=
  (Op.mmproj_load { n_threads := 4, mm_ctx := some 6 } (some ['p'])).exec demo_loaded

/-! ## Notions used by the claims on teardown, handles and status codes -/

/-- The release calls for the resources a state holds, in the order sampler
chain, pending media, multimodal context, context, model. -/
def held_resources (g : Globals) : List EngineCall :=
  (match g.g_active_sampler with
    | some sampler => [EngineCall.llama_sampler_free sampler.handle]
    | none => []) ++
  g.g_pending_media.filterMap (fun bitmap =>
    match bitmap with
    | some b => some (EngineCall.mtmd_bitmap_free b)
    | none => none) ++
  (match g.g_state.mm_ctx with
    | some mm => [EngineCall.mtmd_free mm]
    | none => []) ++
  (match g.g_state.ctx with
    | some ctx => [EngineCall.llama_free ctx]
    | none => []) ++
  (match g.g_state.model with
    | some model => [EngineCall.llama_model_free model]
    | none => [])

/-- The pattern occurs in the text at index `i` and at no lower index. -/
def FirstOccurrence (text pattern : Str) (i : Nat) : Prop :=
  pattern <+: text.drop i ∧ ∀ j, j < i → ¬ pattern <+: text.drop j

/-- The pattern occurs nowhere in the text. -/
def NoOccurrence (text pattern : Str) : Prop := ∀ j, ¬ pattern <+: text.drop j

/-- The invariant of the runtime handles: context and vocabulary are non-null
exactly when the model is, and the multimodal context only when the model is. -/
def HandlesInv (g : Globals) : Prop :=
  (g.g_state.ctx ≠ none ↔ g.g_state.model ≠ none) ∧
    (g.g_state.vocab ≠ none ↔ g.g_state.model ≠ none) ∧
    (g.g_state.mm_ctx ≠ none → g.g_state.model ≠ none)

/-- The engine answers of the call give a non-null vocabulary for a non-null model. -/
def Op.vocab_ok : Op → Prop
  | .load_model env _ _ _ _ => env.model ≠ none → env.vocab ≠ none
  | _ => True

/-- The states reachable when the engine gives a non-null vocabulary for every
non-null model. -/
inductive ReachableVocab : Globals → Prop
  | init : ReachableVocab initial_state
  | step (op : Op) (hop : op.vocab_ok) {g : Globals} (h : ReachableVocab g) :
      ReachableVocab (op.exec g)

/-- A device list with one device, named `CPU`, that has no backend registry. -/
def demo_devices : List (Option Device) := [some { name := some "CPU".toList, reg := none }]

/-- The text that `token_to_piece` returns when the model is loaded. -/
def piece_text (env : PieceEnv) : Str :=
  if env.first.rc < 0 then
    if env.second.rc < 0 then []
    else piece_of_buffer (((-env.first.rc).toNat + 8) % SIZE_MOD) env.second.buf
      env.second.rc.toNat
  else piece_of_buffer 256 env.first.buf env.first.rc.toNat

/-- Engine answers for a step in which `llama_decode` fails while a
cancellation request arrives. -/
def demo_race_env : StepEnv where
  sampled := some 11
  is_eog := false
  piece := { first := { rc := 2, buf := ['H', 'i'] }, second := { rc := 0, buf := [] } }
  decode_rc := 1
  cancel_during_decode := true

/-- Metadata answers of an engine whose every call reports failure. -/
def demo_meta_fail : MetaEnv where
  meta_count := 1
  meta_str := fun _ _ _ _ => (-1, [])

/-- Metadata answers of an engine whose every call succeeds with the empty text. -/
def demo_meta_empty : MetaEnv where
  meta_count := 1
  meta_str := fun _ _ _ _ => (0, [])

/-- Conversion answers of an engine whose two calls report failure. -/
def demo_piece_fail : PieceEnv where
  first := { rc := -1, buf := [] }
  second := { rc := -1, buf := [] }

/-- Conversion answers of an engine whose first call succeeds with the empty text. -/
def demo_piece_empty : PieceEnv where
  first := { rc := 0, buf := [] }
  second := { rc := 0, buf := [] }

/-- Engine defaults with a batch size of 2048. -/
def demo_cparams_large : context_params where
  n_ctx := 512
  n_batch := 2048
  n_ubatch := 512
  n_threads := 4
  n_threads_batch := 4
  offload_kqv := false
  op_offload := false
  no_perf := false

/-- The meaning of the results shared by the four media-add operations: -1
exactly when no model is loaded, -2 exactly when a model is loaded without a
projector, and an error text exactly when the code is negative. -/
def MediaAddResult (g : Globals) (r : Int × Globals) : Prop :=
  (r.1 = -1 ↔ ¬ Loaded g) ∧ (r.1 = -2 ↔ Loaded g ∧ g.g_state.mm_ctx = none) ∧
    (r.2.g_last_error ≠ [] ↔ r.1 < 0)

/-- The status code that a fallible boundary operation returns; `none` for the
operations that return no status. -/
def Op.status : Op → Globals → Option Int
  | .load_model env model_path n_ctx n_threads n_gpu_layers, g =>
    some (llamadart_webgpu_load_model env model_path n_ctx n_threads n_gpu_layers g).1
  | .mmproj_load env mmproj_path, g => some (llamadart_webgpu_mmproj_load env mmproj_path g).1
  | .media_add_file bitmap media_path, g =>
    some (llamadart_webgpu_media_add_file bitmap media_path g).1
  | .media_add_encoded bitmap bytes length, g =>
    some (llamadart_webgpu_media_add_encoded bitmap bytes length g).1
  | .media_add_rgb bitmap width height bytes length, g =>
    some (llamadart_webgpu_media_add_rgb bitmap width height bytes length g).1
  | .media_add_audio_f32 bitmap samples sample_count, g =>
    some (llamadart_webgpu_media_add_audio_f32 bitmap samples sample_count g).1
  | .tokenize_to_json env text add_special, g =>
    some (llamadart_webgpu_tokenize_to_json env text add_special g).1
  | .detokenize_from_json pieces token_text special, g =>
    some (llamadart_webgpu_detokenize_from_json pieces token_text special g).1
  | .generate env steps a n_predict, g =>
    some (llamadart_webgpu_generate env steps a n_predict g).1
  | .begin_generation env a, g => some (llamadart_webgpu_begin_generation env a g).1
  | .next_token env, g => some (llamadart_webgpu_next_token env g).1
  | _, _ => none

/-- The count that the call returns fits `int32_t`: the return codes of
`llama_tokenize` are 32-bit, and the detokenized text is shorter than `2 ^ 31`
bytes. -/
def Op.count_fits : Op → Globals → Prop
  | .tokenize_to_json env _ _, _ => env.first.rc < 2 ^ 31 ∧ env.second.rc < 2 ^ 31
  | .detokenize_from_json pieces token_text special, g =>
    (llamadart_webgpu_detokenize_from_json pieces token_text special
      g).2.g_last_detokenized.length < 2 ^ 31
  | _, _ => True

/-- The C string held by a buffer: the characters before the first NUL. -/
def c_str (buf : Str) : Str := buf.takeWhile (fun c => c ≠ Char.ofNat 0)

/-- The length-reporting convention of the engine for a stored string `s`:
called with capacity `cap`, it returns the full length of `s` and leaves the
first `min(length, cap - 1)` characters of `s` followed by a NUL in the buffer. -/
def LengthReporting (call : Nat → Nat → Int × Str) (s : Str) : Prop :=
  ∀ attempt cap,
    call attempt cap = ((s.length : Int), c_str (s.take (min s.length (cap - 1)) ++ [Char.ofNat 0]))

/-- A stored metadata key of 2000 characters, longer than the first buffer. -/
def demo_long_key : Str := List.replicate 2000 'k'

/-- Metadata answers of an engine that follows the length-reporting convention
for the stored string `demo_long_key`. -/
def demo_meta_long : MetaEnv where
  meta_count := 1
  meta_str := fun _ _ _ cap =>
    ((demo_long_key.length : Int),
      c_str (demo_long_key.take (min demo_long_key.length (cap - 1)) ++ [Char.ofNat 0]))

/-- The clamp of the temperature as the specification states it: a value
below 0 becomes 0. -/
def stated_temp (t : F32) : F32 := if F32.lt t F32.zero then F32.zero else t

/-- The clamp of `top_k` as the specification states it: a value below 0 becomes 0. -/
def stated_top_k (k : Int) : Int := if k < 0 then 0 else k

/-- The clamp of `top_p` as the specification states it: a value outside
`(0, 1]` becomes 1. -/
def stated_top_p (p : F32) : F32 :=
  if F32.lt F32.zero p && F32.le p F32.one then p else F32.one

/-- The clamp of the repeat penalty as the specification states it: a value
at most 0 becomes 1. -/
def stated_repeat_penalty (r : F32) : F32 := if F32.le r F32.zero then F32.one else r

/-- The stage sequence as the specification states it, for parameters already
clamped: penalties if the repeat penalty is not 1, top-k if `top_k > 0`, top-p
if `top_p < 1`, the grammar stage if the grammar text is non-empty, then
temperature and the final distribution sample. -/
def stated_stages (temp : F32) (top_k : Int) (top_p repeat_penalty : F32) (grammar : Option Str)
    (grammar_sampler : Option Handle) (seed : Nat) : List SamplerStage :=
  (if F32.ne repeat_penalty F32.one then
      [SamplerStage.penalties 64 repeat_penalty F32.zero F32.zero] else []) ++
    (if top_k > 0 then [SamplerStage.top_k top_k] else []) ++
    (if F32.lt top_p F32.one then [SamplerStage.top_p top_p 1] else []) ++
    (match grammar_sampler with
      | some h => if grammar_given grammar then [SamplerStage.grammar h (grammar.getD [])] else []
      | none => []) ++
    [SamplerStage.temp temp, SamplerStage.dist seed]

/-- One pass of the outer loop of `parse_token_list` at read position `p`:
`none` when the loop exits, otherwise the read position after the pass and the
token appended by it, if any. -/
def parse_token_step (p : Str) : Option (Str × Option Int) :=
  if p = [] then none
  else
    let q := p.dropWhile (fun c => !c.isDigit && c != '-' && c != '+')
    if q = [] then none
    else
      let r := strtol10 q
      if r.2 = 0 then some (q.drop 1, none) else some (q.drop r.2, some r.1)

/-- The text that `serialize_tokens_json` writes from token number `i` on. -/
def tail_text (tokens : List Int) (i : Nat) : Str := join_tokens_json tokens i ++ [']']

/-- Engine answers for a prompt that is decoded with success while a
cancellation request arrives. -/
def demo_begin_race_env : BeginEnv := { demo_begin_env with cancel_during_decode := true }

/-! ## Lemmas on the string routines -/

theorem scan_replace_skip (m : Str → Option Nat) (dst : Str) :
    ∀ (l : Str) (k : Nat), scan_replace m dst l k = scan_replace m dst (l.drop k) 0
  | [], k => by simp [scan_replace]
  | _ :: _, 0 => by simp
  | _ :: cs, k + 1 => by simp [scan_replace, scan_replace_skip m dst cs k]

theorem count_scan_skip (pat : Str) :
    ∀ (l : Str) (k : Nat), count_scan pat l k = count_scan pat (l.drop k) 0
  | [], k => by simp [count_scan]
  | _ :: _, 0 => by simp
  | _ :: cs, k + 1 => by simp [count_scan, count_scan_skip pat cs k]

theorem find_from_none_iff (pat : Str) (hp : pat ≠ []) :
    ∀ (l : Str) (p : Nat), find_from pat l p = none → ∀ i, ¬ pat <+: l.drop i
  | [], p, _, i => by
    simp only [List.drop_nil, List.prefix_nil]; exact hp
  | c :: cs, p, h, i => by
    unfold find_from at h
    split at h
    · simp at h
    · rename_i hpre
      cases i with
      | zero => simpa [List.isPrefixOf_iff_prefix] using hpre
      | succ j => simpa using find_from_none_iff pat hp cs (p + 1) h j

theorem find_from_some (pat : Str) :
    ∀ (l : Str) (p q : Nat), find_from pat l p = some q →
      ∃ i, q = p + i ∧ pat <+: l.drop i ∧ ∀ j, j < i → ¬ pat <+: l.drop j
  | [], p, q, h => by
    unfold find_from at h
    split at h
    · rename_i hp
      refine ⟨0, ?_, ?_, ?_⟩
      · simpa using (Option.some.inj h).symm
      · simp [hp]
      · intro j hj; omega
    · simp at h
  | c :: cs, p, q, h => by
    unfold find_from at h
    split at h
    · rename_i hpre
      refine ⟨0, ?_, ?_, ?_⟩
      · simpa using (Option.some.inj h).symm
      · simpa [List.isPrefixOf_iff_prefix] using hpre
      · intro j hj; omega
    · rename_i hpre
      obtain ⟨i, hq, hpi, hmin⟩ := find_from_some pat cs (p + 1) q h
      refine ⟨i + 1, by omega, by simpa using hpi, ?_⟩
      intro j hj
      cases j with
      | zero => simpa [List.isPrefixOf_iff_prefix] using hpre
      | succ j => simpa using hmin j (by omega)

theorem match_literal_none {pat l : Str} (h : ¬ pat <+: l) : match_literal pat l = none := by
  simp [match_literal, List.isPrefixOf_iff_prefix, h]

theorem match_literal_some {pat l : Str} (h : pat <+: l) :
    match_literal pat l = some pat.length := by
  simp [match_literal, List.isPrefixOf_iff_prefix, h]

theorem scan_literal_no_occ (pat dst : Str) :
    ∀ l : Str, (∀ i, ¬ pat <+: l.drop i) → scan_replace (match_literal pat) dst l 0 = l
  | [], _ => by simp [scan_replace]
  | c :: cs, h => by
    have h0 : ¬ pat <+: c :: cs := by simpa using h 0
    have ht : ∀ i, ¬ pat <+: cs.drop i := fun i => by simpa using h (i + 1)
    simp [scan_replace, match_literal_none h0, scan_literal_no_occ pat dst cs ht]

theorem scan_literal_first_occ (pat dst : Str) (hp : pat ≠ []) :
    ∀ (l : Str) (i : Nat), pat <+: l.drop i → (∀ j, j < i → ¬ pat <+: l.drop j) →
      scan_replace (match_literal pat) dst l 0 =
        l.take i ++ dst ++ scan_replace (match_literal pat) dst (l.drop (i + pat.length)) 0
  | [], i, h, _ => by
    simp only [List.drop_nil, List.prefix_nil] at h
    exact absurd h hp
  | c :: cs, 0, h, _ => by
    have h0 : pat <+: c :: cs := by simpa using h
    obtain ⟨n, hn⟩ : ∃ n, pat.length = n + 1 :=
      ⟨pat.length - 1, by have := List.length_pos.mpr hp; omega⟩
    simp only [scan_replace, match_literal_some h0, hn, List.take_zero, List.nil_append,
      Nat.zero_add, List.drop_succ_cons]
    rw [scan_replace_skip]
  | c :: cs, i + 1, h, hmin => by
    have h0 : ¬ pat <+: c :: cs := by simpa using hmin 0 (by omega)
    have hi : pat <+: cs.drop i := by simpa using h
    have hm : ∀ j, j < i → ¬ pat <+: cs.drop j := fun j hj => by
      simpa using hmin (j + 1) (by omega)
    have ih := scan_literal_first_occ pat dst hp cs i hi hm
    have e : i + 1 + pat.length = (i + pat.length) + 1 := by omega
    simp [scan_replace, match_literal_none h0, ih, e]

theorem count_scan_no_occ (pat : Str) :
    ∀ l : Str, (∀ i, ¬ pat <+: l.drop i) → count_scan pat l 0 = 0
  | [], _ => by simp [count_scan]
  | c :: cs, h => by
    have h0 : ¬ pat <+: c :: cs := by simpa using h 0
    have ht : ∀ i, ¬ pat <+: cs.drop i := fun i => by simpa using h (i + 1)
    simp [count_scan, List.isPrefixOf_iff_prefix, h0, count_scan_no_occ pat cs ht]

theorem count_scan_first_occ (pat : Str) (hp : pat ≠ []) :
    ∀ (l : Str) (i : Nat), pat <+: l.drop i → (∀ j, j < i → ¬ pat <+: l.drop j) →
      count_scan pat l 0 = 1 + count_scan pat (l.drop (i + pat.length)) 0
  | [], i, h, _ => by
    simp only [List.drop_nil, List.prefix_nil] at h
    exact absurd h hp
  | c :: cs, 0, h, _ => by
    have h0 : pat <+: c :: cs := by simpa using h
    obtain ⟨n, hn⟩ : ∃ n, pat.length = n + 1 :=
      ⟨pat.length - 1, by have := List.length_pos.mpr hp; omega⟩
    simp only [count_scan, List.isPrefixOf_iff_prefix, h0, if_true, hn, Nat.zero_add,
      List.drop_succ_cons, Nat.add_sub_cancel]
    rw [count_scan_skip]
  | c :: cs, i + 1, h, hmin => by
    have h0 : ¬ pat <+: c :: cs := by simpa using hmin 0 (by omega)
    have hi : pat <+: cs.drop i := by simpa using h
    have hm : ∀ j, j < i → ¬ pat <+: cs.drop j := fun j hj => by
      simpa using hmin (j + 1) (by omega)
    have ih := count_scan_first_occ pat hp cs i hi hm
    have e : i + 1 + pat.length = (i + pat.length) + 1 := by omega
    simp [count_scan, List.isPrefixOf_iff_prefix, h0, ih, e]

theorem find_none_spec (text pat : Str) (hp : pat ≠ []) (start : Nat) (hs : start ≤ text.length)
    (h : find text pat start = none) : ∀ i, ¬ pat <+: (text.drop start).drop i := by
  unfold find at h
  rw [if_pos hs] at h
  exact find_from_none_iff pat hp _ _ h

theorem find_some_spec (text pat : Str) (start pos : Nat)
    (h : find text pat start = some pos) :
    ∃ i, pos = start + i ∧ pat <+: (text.drop start).drop i ∧
      ∀ j, j < i → ¬ pat <+: (text.drop start).drop j := by
  unfold find at h
  split at h
  · exact find_from_some pat _ _ _ h
  · simp at h

/-- The index loop of `replace_all_inplace` computes the left-to-right scan. -/
theorem replace_all_loop_eq (pat dst : Str) (hp : pat ≠ []) :
    ∀ (fuel : Nat) (text : Str) (start : Nat), start ≤ text.length →
      text.length < fuel + start →
      replace_all_loop pat dst fuel text start =
        text.take start ++ scan_replace (match_literal pat) dst (text.drop start) 0
  | 0, text, start, hs, hf => by omega
  | fuel + 1, text, start, hs, hf => by
    unfold replace_all_loop
    cases hfind : find text pat start with
    | none =>
      have := find_none_spec text pat hp start hs hfind
      simp [scan_literal_no_occ pat dst _ this]
    | some pos =>
      obtain ⟨i, hpos, hpre, hmin⟩ := find_some_spec text pat start pos hfind
      have hlen : i + pat.length ≤ (text.drop start).length := by
        have := hpre.length_le
        simp only [List.length_drop] at this ⊢
        have hpl := List.length_pos.mpr hp
        omega
      simp only [List.length_drop] at hlen
      have hpl := List.length_pos.mpr hp
      simp only []
      have htake : (replace text pos pat.length dst).take (pos + dst.length) = text.take pos ++ dst := by
        unfold replace
        rw [List.append_assoc, List.take_append_eq_append_take, List.take_append_eq_append_take]
        simp [List.length_take, Nat.min_eq_left (by omega : pos ≤ text.length)]
      have hdrop : (replace text pos pat.length dst).drop (pos + dst.length) =
          text.drop (pos + pat.length) := by
        unfold replace
        rw [List.append_assoc, List.drop_append_eq_append_drop, List.drop_append_eq_append_drop]
        simp [List.length_take, Nat.min_eq_left (by omega : pos ≤ text.length)]
      have hlen2 : (replace text pos pat.length dst).length =
          pos + dst.length + (text.length - (pos + pat.length)) := by
        unfold replace
        simp [List.length_take, Nat.min_eq_left (by omega : pos ≤ text.length)]
        omega
      rw [replace_all_loop_eq pat dst hp fuel _ _ (by rw [hlen2]; omega) (by rw [hlen2]; omega),
        htake, hdrop, scan_literal_first_occ pat dst hp _ i hpre hmin]
      subst hpos
      simp [List.take_add, List.drop_drop, Nat.add_assoc, List.append_assoc]

/-- The index loop of `count_occurrences` computes the greedy count. -/
theorem count_loop_eq (text pat : Str) (hp : pat ≠ []) :
    ∀ (fuel count start : Nat), start ≤ text.length → text.length < fuel + start →
      count_loop text pat fuel count start = count + count_scan pat (text.drop start) 0
  | 0, count, start, hs, hf => by omega
  | fuel + 1, count, start, hs, hf => by
    unfold count_loop
    cases hfind : find text pat start with
    | none =>
      have := find_none_spec text pat hp start hs hfind
      simp [count_scan_no_occ pat _ this]
    | some pos =>
      obtain ⟨i, hpos, hpre, hmin⟩ := find_some_spec text pat start pos hfind
      have hpl := List.length_pos.mpr hp
      have hlen : i + pat.length ≤ (text.drop start).length := by
        have := hpre.length_le
        simp only [List.length_drop] at this ⊢
        omega
      simp only [List.length_drop] at hlen
      simp only []
      rw [count_loop_eq text pat hp fuel _ _ (by omega) (by omega),
        count_scan_first_occ pat hp _ i hpre hmin]
      subst hpos
      simp [List.drop_drop, Nat.add_assoc]

theorem replace_all_inplace_eq (text pat dst : Str) (hp : pat ≠ []) :
    replace_all_inplace text pat dst = scan_replace (match_literal pat) dst text 0 := by
  unfold replace_all_inplace
  rw [if_neg hp, replace_all_loop_eq pat dst hp _ _ _ (Nat.zero_le _) (by omega)]
  simp

theorem count_occurrences_eq (text pat : Str) (hp : pat ≠ []) :
    count_occurrences text pat = count_scan pat text 0 := by
  unfold count_occurrences
  rw [if_neg hp, count_loop_eq text pat hp _ _ _ (Nat.zero_le _) (by omega)]
  simp

/-! ### Counting across a separator -/

theorem prefix_of_prefix_append_cons {w x v : Str} {c : Char} (hc : c ∉ w)
    (h : w <+: x ++ c :: v) : w <+: x := by
  rcases List.prefix_or_prefix_of_prefix h (List.prefix_append x (c :: v)) with h1 | h1
  · exact h1
  · obtain ⟨t, rfl⟩ := h1
    rw [List.prefix_append_right_inj] at h
    cases t with
    | nil => simp
    | cons d t =>
      rw [List.cons_prefix_cons] at h
      exact absurd (by simp [h.1]) hc

theorem count_scan_split (pat : Str) (hp : pat ≠ []) (c : Char) (hc : c ∉ pat) (v : Str) :
    ∀ (u : Str) (k : Nat), k ≤ u.length →
      count_scan pat (u ++ c :: v) k = count_scan pat u k + count_scan pat v 0
  | [], k, hk => by
    have hk0 : k = 0 := by simpa using hk
    subst hk0
    have : ¬ pat <+: c :: v := by
      intro h
      cases pat with
      | nil => exact hp rfl
      | cons d t =>
        rw [List.cons_prefix_cons] at h
        exact hc (by simp [h.1])
    simp [count_scan, List.isPrefixOf_iff_prefix, this]
  | d :: u, k + 1, hk => by
    have := count_scan_split pat hp c hc v u k (by simpa using hk)
    simpa [count_scan] using this
  | d :: u, 0, _ => by
    by_cases h : pat <+: d :: u
    · have h' : pat <+: d :: u ++ c :: v := h.trans (List.prefix_append _ _)
      have hl : pat.length - 1 ≤ u.length := by
        have := h.length_le
        simp at this
        omega
      have ih := count_scan_split pat hp c hc v u (pat.length - 1) hl
      have h'' : pat <+: d :: (u ++ c :: v) := by simpa using h'
      rw [List.cons_append]
      simp only [count_scan, List.isPrefixOf_iff_prefix, h, h'', if_true, ih]
      omega
    · have h' : ¬ pat <+: d :: (u ++ c :: v) := fun hh =>
        h (prefix_of_prefix_append_cons (x := d :: u) hc (by simpa using hh))
      have ih := count_scan_split pat hp c hc v u 0 (Nat.zero_le _)
      rw [List.cons_append]
      simp only [count_scan, List.isPrefixOf_iff_prefix, h, h', if_false, ih]

theorem normalize_media_markers_eq (marker_ptr : Option Str) (prompt : Str) (n : Nat) :
    normalize_media_markers marker_ptr prompt n =
      fill_missing_markers (marker_ptr.getD MEDIA_MARKER)
        (normalize_replacements (marker_ptr.getD MEDIA_MARKER) prompt) n := by
  cases marker_ptr <;>
    · unfold normalize_media_markers fill_missing_markers normalize_replacements
      dsimp only [Option.getD]

theorem find_zero_split (text pat : Str) (pos : Nat) (h : find text pat 0 = some pos) :
    text = text.take pos ++ pat ++ text.drop (pos + pat.length) := by
  obtain ⟨i, hpos, hpre, -⟩ := find_some_spec text pat 0 pos h
  simp only [Nat.zero_add, List.drop_zero] at hpos hpre
  subst hpos
  have h1 := List.prefix_iff_eq_append.mp hpre
  rw [List.drop_drop] at h1
  rw [List.append_assoc, h1, List.take_append_drop]

theorem count_marker_block :
    ∀ k, count_scan MEDIA_MARKER (marker_block MEDIA_MARKER k) 0 = k
  | 0 => by simp [marker_block, count_scan]
  | k + 1 => by
    have ih := count_marker_block k
    unfold marker_block
    by_cases hb : marker_block MEDIA_MARKER k = []
    · rw [hb] at ih
      have hk : k = 0 := by simpa [count_scan] using ih.symm
      subst hk
      simp only [hb]
      decide
    · simp only [hb, ne_eq, not_false_eq_true, if_true]
      rw [List.append_assoc, List.singleton_append,
        count_scan_split MEDIA_MARKER (by decide) ' ' (by decide) _ _ 0 (Nat.zero_le _), ih]
      have : count_scan MEDIA_MARKER MEDIA_MARKER 0 = 1 := by decide
      omega

theorem count_replace_after (text pre B : Str) (pos : Nat)
    (h : find text (pre ++ [':']) 0 = some pos) :
    count_scan MEDIA_MARKER
        (replace text pos (pre ++ [':']).length ((pre ++ [':']) ++ [' '] ++ B ++ [' '])) 0 =
      count_scan MEDIA_MARKER text 0 + count_scan MEDIA_MARKER B 0 := by
  have hs := find_zero_split text _ pos h
  have hc : (':' : Char) ∉ MEDIA_MARKER := by decide
  have hsp : (' ' : Char) ∉ MEDIA_MARKER := by decide
  have hm : MEDIA_MARKER ≠ [] := by decide
  have e1 : replace text pos (pre ++ [':']).length ((pre ++ [':']) ++ [' '] ++ B ++ [' ']) =
      ((text.take pos ++ pre) ++ ':' :: []) ++ ' ' :: (B ++ ' ' :: text.drop (pos + (pre ++ [':']).length)) := by
    simp [replace]
  have e2 : text = (text.take pos ++ pre) ++ ':' :: text.drop (pos + (pre ++ [':']).length) := by
    conv_lhs => rw [hs]
    simp
  rw [e1]
  conv_rhs => rw [e2]
  rw [count_scan_split _ hm _ hsp _ _ 0 (Nat.zero_le _),
    count_scan_split _ hm _ hsp _ _ 0 (Nat.zero_le _),
    count_scan_split _ hm _ hc _ _ 0 (Nat.zero_le _),
    count_scan_split _ hm _ hc _ _ 0 (Nat.zero_le _)]
  simp [count_scan]
  omega

/-- After `fill_missing_markers` the text holds at least `n` markers, and exactly
`n` when markers were missing. -/
theorem count_fill_missing_markers (text : Str) (n : Nat) :
    count_scan MEDIA_MARKER (fill_missing_markers MEDIA_MARKER text n) 0 =
      max n (count_scan MEDIA_MARKER text 0) ∨
    (n = 0 ∧ fill_missing_markers MEDIA_MARKER text n = text) := by
  unfold fill_missing_markers
  by_cases hn : n = 0
  · right; simp [hn]
  · left
    simp only [hn, if_false, count_occurrences_eq _ MEDIA_MARKER (by decide)]
    by_cases hge : count_scan MEDIA_MARKER text 0 ≥ n
    · simp only [hge, if_true]; omega
    · simp only [hge, if_false]
      have hmax : max n (count_scan MEDIA_MARKER text 0) =
          count_scan MEDIA_MARKER text 0 + (n - count_scan MEDIA_MARKER text 0) := by omega
      cases h1 : find text LIT_USER_CAP 0 with
      | some pos =>
        have := count_replace_after text ['U', 's', 'e', 'r']
          (marker_block MEDIA_MARKER (n - count_scan MEDIA_MARKER text 0)) pos h1
        rw [count_marker_block] at this
        simp only []
        rw [hmax]
        exact this
      | none =>
        cases h2 : find text LIT_USER 0 with
        | some pos =>
          have := count_replace_after text ['u', 's', 'e', 'r']
            (marker_block MEDIA_MARKER (n - count_scan MEDIA_MARKER text 0)) pos h2
          rw [count_marker_block] at this
          simp only []
          rw [hmax]
          exact this
        | none =>
          simp only []
          rw [List.append_assoc, List.singleton_append,
            count_scan_split MEDIA_MARKER (by decide) '\n' (by decide) _ _ 0 (Nat.zero_le _),
            count_marker_block]
          omega

/-! ### Alternate spellings never overlap the marker -/

theorem AltShape.ne_nil {w : Str} (h : AltShape w) : w ≠ [] := by
  obtain ⟨s, b0, body, rfl, -⟩ := h
  simp

theorem AltShape.not_prefix_cons {w : Str} (h : AltShape w) {c : Char} (t : Str)
    (h1 : c ≠ '<') (h2 : c ≠ '[') : ¬ w <+: c :: t := by
  obtain ⟨s, b0, body, rfl, hs, -⟩ := h
  intro hp
  rw [List.cons_prefix_cons] at hp
  rcases hs with hs | hs
  · exact h1 (hp.1.symm.trans hs)
  · exact h2 (hp.1.symm.trans hs)

theorem AltShape.not_prefix_open_underscore {w : Str} (h : AltShape w) (s : Char) (t : Str) :
    ¬ w <+: s :: '_' :: t := by
  obtain ⟨s, b0, body, rfl, -, hb, -⟩ := h
  intro hp
  rw [List.cons_prefix_cons, List.cons_prefix_cons] at hp
  exact hb hp.2.1

theorem AltShape.not_mem_space {w : Str} (h : AltShape w) : ' ' ∉ w := by
  obtain ⟨s, b0, body, rfl, hs, -, hall⟩ := h
  intro hm
  rw [List.mem_cons] at hm
  rcases hm with hm | hm
  · rcases hs with hs | hs <;> (rw [hs] at hm; revert hm; decide)
  · exact (hall _ hm).2.2.1 rfl

theorem AltShape.not_mem_newline {w : Str} (h : AltShape w) : '\n' ∉ w := by
  obtain ⟨s, b0, body, rfl, hs, -, hall⟩ := h
  intro hm
  rw [List.mem_cons] at hm
  rcases hm with hm | hm
  · rcases hs with hs | hs <;> (rw [hs] at hm; revert hm; decide)
  · exact (hall _ hm).2.2.2 rfl

theorem clean_nil {L : Str → Prop} (hL : ∀ w, L w → AltShape w) : Clean L [] := by
  intro w hw hin
  exact (hL w hw).ne_nil (List.infix_nil.mp hin)

theorem clean_cons {L : Str → Prop} {c : Char} {t : Str}
    (hh : ∀ w, L w → ¬ w <+: c :: t) (ht : Clean L t) : Clean L (c :: t) := by
  intro w hw hin
  rcases List.infix_cons_iff.mp hin with h | h
  · exact hh w hw h
  · exact ht w hw h

theorem Clean.of_append_left {L : Str → Prop} {a b : Str} (h : Clean L (a ++ b)) : Clean L a :=
  fun w hw hin => h w hw (hin.trans (List.infix_append' [] a b |>.trans (by simp)))

theorem Clean.of_append_right {L : Str → Prop} {a b : Str} (h : Clean L (a ++ b)) : Clean L b :=
  fun w hw hin => h w hw (hin.trans (List.suffix_append a b).isInfix)

theorem clean_marker_append {L : Str → Prop} (hL : ∀ w, L w → AltShape w) {t : Str}
    (ht : Clean L t) : Clean L (MEDIA_MARKER ++ t) := by
  unfold MEDIA_MARKER
  simp only [List.cons_append, List.nil_append]
  refine clean_cons (fun w hw => (hL w hw).not_prefix_open_underscore _ _) ?_
  iterate 10
    refine clean_cons (fun w hw => (hL w hw).not_prefix_cons _ (by decide) (by decide)) ?_
  exact ht

theorem infix_append_cons_split {w u v : Str} {c : Char} (hc : c ∉ w) :
    w <:+: u ++ c :: v → w <:+: u ∨ w <:+: v := by
  induction u with
  | nil =>
    intro h
    rcases List.infix_cons_iff.mp h with h | h
    · left
      have := prefix_of_prefix_append_cons (x := []) hc (by simpa using h)
      exact this.isInfix
    · exact Or.inr h
  | cons d u ih =>
    intro h
    rw [List.cons_append] at h
    rcases List.infix_cons_iff.mp h with h | h
    · left
      exact (prefix_of_prefix_append_cons (x := d :: u) hc (by simpa using h)).isInfix
    · rcases ih h with h | h
      · exact Or.inl (List.infix_cons h)
      · exact Or.inr h

theorem clean_append_cons {L : Str → Prop} {u v : Str} {c : Char} (hc : ∀ w, L w → c ∉ w)
    (hu : Clean L u) (hv : Clean L v) : Clean L (u ++ c :: v) := by
  intro w hw hin
  rcases infix_append_cons_split (hc w hw) hin with h | h
  · exact hu w hw h
  · exact hv w hw h

theorem MatcherSpec.head_open {m : Str → Option Nat} {L : Str → Prop} (hm : MatcherSpec m L)
    {d : Char} {ds : Str} {k : Nat} (h : m (d :: ds) = some k) : d = '<' ∨ d = '[' := by
  obtain ⟨w, hw, hpre, -⟩ := hm.sound _ _ h
  obtain ⟨s, b0, body, rfl, hs, -⟩ := hm.shape w hw
  rw [List.cons_prefix_cons] at hpre
  rw [← hpre.1]; exact hs

theorem MatcherSpec.ne_zero {m : Str → Option Nat} {L : Str → Prop} (hm : MatcherSpec m L)
    {l : Str} : m l ≠ some 0 := by
  intro h
  obtain ⟨w, hw, -, hlen⟩ := hm.sound _ _ h
  exact (hm.shape w hw).ne_nil (List.length_eq_zero.mp hlen)

/-- A run of characters that are not opening characters is a prefix of the
scanned text exactly when it is a prefix of the original. -/
theorem scan_prefix_iff {m : Str → Option Nat} {L : Str → Prop} (hm : MatcherSpec m L) :
    ∀ (body cs : Str), (∀ c ∈ body, c ≠ '<' ∧ c ≠ '[') →
      (body <+: scan_replace m MEDIA_MARKER cs 0 ↔ body <+: cs)
  | [], cs, _ => by simp
  | b :: bs, [], _ => by simp [scan_replace]
  | b :: bs, d :: ds, hb => by
    have hb0 := hb b (List.mem_cons_self _ _)
    have hbs : ∀ c ∈ bs, c ≠ '<' ∧ c ≠ '[' := fun c hc => hb c (List.mem_cons_of_mem _ hc)
    cases hmd : m (d :: ds) with
    | none =>
      simp only [scan_replace, hmd, List.cons_prefix_cons, scan_prefix_iff hm bs ds hbs]
    | some k =>
      cases k with
      | zero => exact absurd hmd hm.ne_zero
      | succ k =>
        have hd := hm.head_open hmd
        simp only [scan_replace, hmd, MEDIA_MARKER, List.cons_append, List.cons_prefix_cons]
        constructor
        · intro h; exact absurd h.1 hb0.1
        · intro h
          rcases hd with hd | hd
          · exact absurd (h.1.trans hd) hb0.1
          · exact absurd (h.1.trans hd) hb0.2

/-- Scanning with the marker as replacement leaves no word of `L'` behind,
provided none starts at a position of the original where `m` does not match. -/
theorem scan_clean {m : Str → Option Nat} {L L' : Str → Prop} (hm : MatcherSpec m L)
    (hL' : ∀ w, L' w → AltShape w) :
    ∀ (l : Str) (skip : Nat),
      (∀ t, t <:+ l → m t = none → ∀ w, L' w → ¬ w <+: t) →
      Clean L' (scan_replace m MEDIA_MARKER l skip)
  | [], _, _ => by simpa [scan_replace] using clean_nil hL'
  | c :: cs, skip + 1, h => by
    simp only [scan_replace]
    exact scan_clean hm hL' cs skip (fun t ht => h t (ht.trans (List.suffix_cons c cs)))
  | c :: cs, 0, h => by
    have htail : ∀ t, t <:+ cs → m t = none → ∀ w, L' w → ¬ w <+: t :=
      fun t ht => h t (ht.trans (List.suffix_cons c cs))
    cases hmd : m (c :: cs) with
    | none =>
      simp only [scan_replace, hmd]
      refine clean_cons ?_ (scan_clean hm hL' cs 0 htail)
      intro w hw hpre
      obtain ⟨s, b0, body, rfl, -, -, hall⟩ := hL' w hw
      rw [List.cons_prefix_cons,
        scan_prefix_iff hm _ _ (fun c hc => ⟨(hall c hc).1, (hall c hc).2.1⟩)] at hpre
      exact h (c :: cs) (List.suffix_refl _) hmd _ hw (List.cons_prefix_cons.mpr hpre)
    | some k =>
      cases k with
      | zero => exact absurd hmd hm.ne_zero
      | succ k =>
        simp only [scan_replace, hmd]
        exact clean_marker_append hL' (scan_clean hm hL' cs k htail)

theorem scan_clean_self {m : Str → Option Nat} {L : Str → Prop} (hm : MatcherSpec m L)
    (l : Str) : Clean L (scan_replace m MEDIA_MARKER l 0) :=
  scan_clean hm hm.shape l 0 (fun t _ hmt => hm.complete t hmt)

theorem scan_clean_other {m : Str → Option Nat} {L L' : Str → Prop} (hm : MatcherSpec m L)
    (hL' : ∀ w, L' w → AltShape w) {l : Str} (hl : Clean L' l) :
    Clean L' (scan_replace m MEDIA_MARKER l 0) :=
  scan_clean hm hL' l 0 (fun _ ht _ w hw hpre => hl w hw (hpre.isInfix.trans ht.isInfix))

/-- A text without any word of `L` is left unchanged by the scan. -/
theorem scan_eq_self_of_clean {m : Str → Option Nat} {L : Str → Prop} (hm : MatcherSpec m L)
    (dst : Str) : ∀ l : Str, Clean L l → scan_replace m dst l 0 = l
  | [], _ => by simp [scan_replace]
  | c :: cs, h => by
    have ht : Clean L cs := Clean.of_append_right (a := [c]) (by simpa using h)
    cases hmd : m (c :: cs) with
    | none => simp [scan_replace, hmd, scan_eq_self_of_clean hm dst cs ht]
    | some k =>
      obtain ⟨w, hw, hpre, -⟩ := hm.sound _ _ hmd
      exact absurd hpre.isInfix (h w hw)

theorem matcherSpec_literal (pat : Str) (hp : AltShape pat) :
    MatcherSpec (match_literal pat) (fun w => w = pat) where
  sound := by
    intro l k h
    unfold match_literal at h
    split at h
    · rename_i hpre
      exact ⟨pat, rfl, List.isPrefixOf_iff_prefix.mp hpre, Option.some.inj h⟩
    · simp at h
  complete := by
    intro l h w hw hpre
    subst hw
    rw [match_literal_some hpre] at h
    simp at h
  shape := by
    intro w hw; subst hw; exact hp

theorem takeWhile_append_cons_of_all {p : Char → Bool} :
    ∀ (ds : Str) (c : Char) (t : Str), (∀ d ∈ ds, p d = true) → p c = false →
      (ds ++ c :: t).takeWhile p = ds
  | [], c, t, _, hc => by simp [List.takeWhile, hc]
  | d :: ds, c, t, hd, hc => by
    have h1 : p d = true := hd d (List.mem_cons_self _ _)
    have h2 := takeWhile_append_cons_of_all ds c t
      (fun x hx => hd x (List.mem_cons_of_mem _ hx)) hc
    simp [List.takeWhile, h1, h2]

theorem isDigit_ne {d : Char} (h : d.isDigit = true) :
    d ≠ '<' ∧ d ≠ '[' ∧ d ≠ ' ' ∧ d ≠ '\n' := by
  refine ⟨?_, ?_, ?_, ?_⟩ <;> (rintro rfl; revert h; decide)

theorem matcherSpec_indexed (kind : Str)
    (hk : ∀ c ∈ kind, c ≠ '<' ∧ c ≠ '[' ∧ c ≠ ' ' ∧ c ≠ '\n') :
    MatcherSpec (match_indexed kind) (IndexedWord kind) where
  sound := by
    intro l k h
    unfold match_indexed at h
    simp only [] at h
    split at h
    · rename_i hpre
      split at h
      · rename_i hds
        obtain ⟨hne, htail⟩ := hds
        rw [List.isPrefixOf_iff_prefix] at hpre htail
        obtain ⟨rest, rfl⟩ := hpre
        rw [List.drop_left] at h hne htail
        obtain ⟨r2, hr2⟩ := List.takeWhile_prefix (l := rest) Char.isDigit
        have hd : rest.drop (rest.takeWhile Char.isDigit).length = r2 := by
          conv_lhs => arg 2; rw [← hr2]
          rw [List.drop_left]
        rw [hd] at htail
        obtain ⟨r3, rfl⟩ := htail
        refine ⟨'<' :: '|' :: (kind ++ ['_']) ++ rest.takeWhile Char.isDigit ++ ['|', '>'],
          ⟨_, hne, ?_, rfl⟩, ?_, ?_⟩
        · intro d hdm
          exact (List.mem_takeWhile_imp hdm)
        · refine ⟨r3, ?_⟩
          conv_rhs => rw [← hr2]
          simp
        · rw [← Option.some.inj h]; simp; omega
      · simp at h
    · simp at h
  complete := by
    intro l h w hw hpre
    obtain ⟨ds, hne, hdig, rfl⟩ := hw
    obtain ⟨t, rfl⟩ := hpre
    have hp : ('<' :: '|' :: (kind ++ ['_'])) <+:
        '<' :: '|' :: (kind ++ ['_']) ++ ds ++ ['|', '>'] ++ t := by
      rw [List.append_assoc, List.append_assoc]; exact List.prefix_append _ _
    have hrest : ('<' :: '|' :: (kind ++ ['_']) ++ ds ++ ['|', '>'] ++ t).drop
        ('<' :: '|' :: (kind ++ ['_'])).length = ds ++ '|' :: '>' :: t := by
      rw [List.append_assoc, List.append_assoc, List.drop_left]; simp
    have htw : (ds ++ '|' :: '>' :: t).takeWhile Char.isDigit = ds :=
      takeWhile_append_cons_of_all ds '|' _ hdig (by decide)
    unfold match_indexed at h
    simp only [] at h
    rw [if_pos (List.isPrefixOf_iff_prefix.mpr hp), hrest, htw] at h
    simp [hne] at h
  shape := by
    rintro w ⟨ds, -, hdig, rfl⟩
    refine ⟨'<', '|', kind ++ ['_'] ++ ds ++ ['|', '>'], by simp, Or.inl rfl, by decide, ?_⟩
    intro c hc
    simp only [List.mem_cons, List.mem_append, List.mem_singleton, List.not_mem_nil,
      or_false] at hc
    rcases hc with rfl | ((h | rfl) | h) | rfl | rfl
    · decide
    · exact hk c h
    · decide
    · exact isDigit_ne (hdig c h)
    · decide
    · decide

theorem altShape_of_literal (s b0 : Char) (body : Str) (hs : s = '<' ∨ s = '[') (hb : b0 ≠ '_')
    (hall : ∀ c ∈ b0 :: body, c ≠ '<' ∧ c ≠ '[' ∧ c ≠ ' ' ∧ c ≠ '\n') :
    AltShape (s :: b0 :: body) :=
  ⟨s, b0, body, rfl, hs, hb, hall⟩

theorem spec_image : MatcherSpec (match_literal LIT_IMAGE) (fun w => w = LIT_IMAGE) :=
  matcherSpec_literal _ (altShape_of_literal _ _ _ (by decide) (by decide) (by decide))
theorem spec_img_bracket :
    MatcherSpec (match_literal LIT_IMG_BRACKET) (fun w => w = LIT_IMG_BRACKET) :=
  matcherSpec_literal _ (altShape_of_literal _ _ _ (by decide) (by decide) (by decide))
theorem spec_image_bar :
    MatcherSpec (match_literal LIT_IMAGE_BAR) (fun w => w = LIT_IMAGE_BAR) :=
  matcherSpec_literal _ (altShape_of_literal _ _ _ (by decide) (by decide) (by decide))
theorem spec_img : MatcherSpec (match_literal LIT_IMG) (fun w => w = LIT_IMG) :=
  matcherSpec_literal _ (altShape_of_literal _ _ _ (by decide) (by decide) (by decide))
theorem spec_img_bar : MatcherSpec (match_literal LIT_IMG_BAR) (fun w => w = LIT_IMG_BAR) :=
  matcherSpec_literal _ (altShape_of_literal _ _ _ (by decide) (by decide) (by decide))
theorem spec_audio : MatcherSpec (match_literal LIT_AUDIO) (fun w => w = LIT_AUDIO) :=
  matcherSpec_literal _ (altShape_of_literal _ _ _ (by decide) (by decide) (by decide))
theorem spec_audio_bar :
    MatcherSpec (match_literal LIT_AUDIO_BAR) (fun w => w = LIT_AUDIO_BAR) :=
  matcherSpec_literal _ (altShape_of_literal _ _ _ (by decide) (by decide) (by decide))
theorem spec_indexed_image : MatcherSpec (match_indexed KIND_IMAGE) (IndexedWord KIND_IMAGE) :=
  matcherSpec_indexed _ (by decide)
theorem spec_indexed_audio : MatcherSpec (match_indexed KIND_AUDIO) (IndexedWord KIND_AUDIO) :=
  matcherSpec_indexed _ (by decide)

theorem AltWord.shape {w : Str} (h : AltWord w) : AltShape w := by
  rcases h with h | h | h | h | h | h | h | h | h
  · exact spec_image.shape w h
  · exact spec_img_bracket.shape w h
  · exact spec_image_bar.shape w h
  · exact spec_img.shape w h
  · exact spec_img_bar.shape w h
  · exact spec_audio.shape w h
  · exact spec_audio_bar.shape w h
  · exact spec_indexed_image.shape w h
  · exact spec_indexed_audio.shape w h

theorem normalize_replacements_eq_scan (p : Str) :
    normalize_replacements MEDIA_MARKER p =
      scan_replace (match_indexed KIND_AUDIO) MEDIA_MARKER
      (scan_replace (match_indexed KIND_IMAGE) MEDIA_MARKER
      (scan_replace (match_literal LIT_AUDIO_BAR) MEDIA_MARKER
      (scan_replace (match_literal LIT_AUDIO) MEDIA_MARKER
      (scan_replace (match_literal LIT_IMG_BAR) MEDIA_MARKER
      (scan_replace (match_literal LIT_IMG) MEDIA_MARKER
      (scan_replace (match_literal LIT_IMAGE_BAR) MEDIA_MARKER
      (scan_replace (match_literal LIT_IMG_BRACKET) MEDIA_MARKER
      (scan_replace (match_literal LIT_IMAGE) MEDIA_MARKER p 0) 0) 0) 0) 0) 0) 0) 0) 0 := by
  unfold normalize_replacements regex_replace_indexed
  dsimp only
  have h1 : LIT_IMAGE ≠ [] := by decide
  have h2 : LIT_IMG_BRACKET ≠ [] := by decide
  have h3 : LIT_IMAGE_BAR ≠ [] := by decide
  have h4 : LIT_IMG ≠ [] := by decide
  have h5 : LIT_IMG_BAR ≠ [] := by decide
  have h6 : LIT_AUDIO ≠ [] := by decide
  have h7 : LIT_AUDIO_BAR ≠ [] := by decide
  rw [replace_all_inplace_eq _ _ _ h1]
  rw [replace_all_inplace_eq _ _ _ h2]
  rw [replace_all_inplace_eq _ _ _ h3]
  rw [replace_all_inplace_eq _ _ _ h4]
  rw [replace_all_inplace_eq _ _ _ h5]
  rw [replace_all_inplace_eq _ _ _ h6]
  rw [replace_all_inplace_eq _ _ _ h7]

theorem clean_altWord_iff (l : Str) :
    Clean AltWord l ↔
      Clean (fun w => w = LIT_IMAGE) l ∧ Clean (fun w => w = LIT_IMG_BRACKET) l ∧
      Clean (fun w => w = LIT_IMAGE_BAR) l ∧ Clean (fun w => w = LIT_IMG) l ∧
      Clean (fun w => w = LIT_IMG_BAR) l ∧ Clean (fun w => w = LIT_AUDIO) l ∧
      Clean (fun w => w = LIT_AUDIO_BAR) l ∧ Clean (IndexedWord KIND_IMAGE) l ∧
      Clean (IndexedWord KIND_AUDIO) l := by
  constructor
  · intro h
    refine ⟨?_, ?_, ?_, ?_, ?_, ?_, ?_, ?_, ?_⟩ <;> intro w hw <;> apply h w <;>
      simp only [AltWord, hw, true_or, or_true]
  · rintro ⟨h1, h2, h3, h4, h5, h6, h7, h8, h9⟩ w hw
    rcases hw with h | h | h | h | h | h | h | h | h
    · exact h1 w h
    · exact h2 w h
    · exact h3 w h
    · exact h4 w h
    · exact h5 w h
    · exact h6 w h
    · exact h7 w h
    · exact h8 w h
    · exact h9 w h

/-- One replacement pass keeps a text free of the words of `L'`. -/
theorem pass_clean {L' : Str → Prop} (hL' : ∀ w, L' w → AltShape w) {l : Str}
    (hl : Clean L' l) :
    Clean L' (scan_replace (match_literal LIT_IMAGE) MEDIA_MARKER l 0) ∧
    Clean L' (scan_replace (match_literal LIT_IMG_BRACKET) MEDIA_MARKER l 0) ∧
    Clean L' (scan_replace (match_literal LIT_IMAGE_BAR) MEDIA_MARKER l 0) ∧
    Clean L' (scan_replace (match_literal LIT_IMG) MEDIA_MARKER l 0) ∧
    Clean L' (scan_replace (match_literal LIT_IMG_BAR) MEDIA_MARKER l 0) ∧
    Clean L' (scan_replace (match_literal LIT_AUDIO) MEDIA_MARKER l 0) ∧
    Clean L' (scan_replace (match_literal LIT_AUDIO_BAR) MEDIA_MARKER l 0) ∧
    Clean L' (scan_replace (match_indexed KIND_IMAGE) MEDIA_MARKER l 0) ∧
    Clean L' (scan_replace (match_indexed KIND_AUDIO) MEDIA_MARKER l 0) :=
  ⟨scan_clean_other spec_image hL' hl, scan_clean_other spec_img_bracket hL' hl,
    scan_clean_other spec_image_bar hL' hl, scan_clean_other spec_img hL' hl,
    scan_clean_other spec_img_bar hL' hl, scan_clean_other spec_audio hL' hl,
    scan_clean_other spec_audio_bar hL' hl, scan_clean_other spec_indexed_image hL' hl,
    scan_clean_other spec_indexed_audio hL' hl⟩

/-- After the replacement passes no alternate spelling is left in the text. -/
theorem clean_normalize_replacements (p : Str) :
    Clean AltWord (normalize_replacements MEDIA_MARKER p) := by
  rw [normalize_replacements_eq_scan, clean_altWord_iff]
  have s1 := spec_image.shape
  have s2 := spec_img_bracket.shape
  have s3 := spec_image_bar.shape
  have s4 := spec_img.shape
  have s5 := spec_img_bar.shape
  have s6 := spec_audio.shape
  have s7 := spec_audio_bar.shape
  have s8 := spec_indexed_image.shape
  have s9 := spec_indexed_audio.shape
  refine ⟨?_, ?_, ?_, ?_, ?_, ?_, ?_, ?_, ?_⟩
  · have h := scan_clean_self spec_image p
    have h := (pass_clean s1 h).2.1
    have h := (pass_clean s1 h).2.2.1
    have h := (pass_clean s1 h).2.2.2.1
    have h := (pass_clean s1 h).2.2.2.2.1
    have h := (pass_clean s1 h).2.2.2.2.2.1
    have h := (pass_clean s1 h).2.2.2.2.2.2.1
    have h := (pass_clean s1 h).2.2.2.2.2.2.2.1
    exact (pass_clean s1 h).2.2.2.2.2.2.2.2
  · have h := scan_clean_self spec_img_bracket
      (scan_replace (match_literal LIT_IMAGE) MEDIA_MARKER p 0)
    have h := (pass_clean s2 h).2.2.1
    have h := (pass_clean s2 h).2.2.2.1
    have h := (pass_clean s2 h).2.2.2.2.1
    have h := (pass_clean s2 h).2.2.2.2.2.1
    have h := (pass_clean s2 h).2.2.2.2.2.2.1
    have h := (pass_clean s2 h).2.2.2.2.2.2.2.1
    exact (pass_clean s2 h).2.2.2.2.2.2.2.2
  · have h := scan_clean_self spec_image_bar
      (scan_replace (match_literal LIT_IMG_BRACKET) MEDIA_MARKER
        (scan_replace (match_literal LIT_IMAGE) MEDIA_MARKER p 0) 0)
    have h := (pass_clean s3 h).2.2.2.1
    have h := (pass_clean s3 h).2.2.2.2.1
    have h := (pass_clean s3 h).2.2.2.2.2.1
    have h := (pass_clean s3 h).2.2.2.2.2.2.1
    have h := (pass_clean s3 h).2.2.2.2.2.2.2.1
    exact (pass_clean s3 h).2.2.2.2.2.2.2.2
  · have h := scan_clean_self spec_img
      (scan_replace (match_literal LIT_IMAGE_BAR) MEDIA_MARKER
        (scan_replace (match_literal LIT_IMG_BRACKET) MEDIA_MARKER
          (scan_replace (match_literal LIT_IMAGE) MEDIA_MARKER p 0) 0) 0)
    have h := (pass_clean s4 h).2.2.2.2.1
    have h := (pass_clean s4 h).2.2.2.2.2.1
    have h := (pass_clean s4 h).2.2.2.2.2.2.1
    have h := (pass_clean s4 h).2.2.2.2.2.2.2.1
    exact (pass_clean s4 h).2.2.2.2.2.2.2.2
  · have h := scan_clean_self spec_img_bar
      (scan_replace (match_literal LIT_IMG) MEDIA_MARKER
        (scan_replace (match_literal LIT_IMAGE_BAR) MEDIA_MARKER
          (scan_replace (match_literal LIT_IMG_BRACKET) MEDIA_MARKER
            (scan_replace (match_literal LIT_IMAGE) MEDIA_MARKER p 0) 0) 0) 0)
    have h := (pass_clean s5 h).2.2.2.2.2.1
    have h := (pass_clean s5 h).2.2.2.2.2.2.1
    have h := (pass_clean s5 h).2.2.2.2.2.2.2.1
    exact (pass_clean s5 h).2.2.2.2.2.2.2.2
  · have h := scan_clean_self spec_audio
      (scan_replace (match_literal LIT_IMG_BAR) MEDIA_MARKER
        (scan_replace (match_literal LIT_IMG) MEDIA_MARKER
          (scan_replace (match_literal LIT_IMAGE_BAR) MEDIA_MARKER
            (scan_replace (match_literal LIT_IMG_BRACKET) MEDIA_MARKER
              (scan_replace (match_literal LIT_IMAGE) MEDIA_MARKER p 0) 0) 0) 0) 0)
    have h := (pass_clean s6 h).2.2.2.2.2.2.1
    have h := (pass_clean s6 h).2.2.2.2.2.2.2.1
    exact (pass_clean s6 h).2.2.2.2.2.2.2.2
  · have h := scan_clean_self spec_audio_bar
      (scan_replace (match_literal LIT_AUDIO) MEDIA_MARKER
        (scan_replace (match_literal LIT_IMG_BAR) MEDIA_MARKER
          (scan_replace (match_literal LIT_IMG) MEDIA_MARKER
            (scan_replace (match_literal LIT_IMAGE_BAR) MEDIA_MARKER
              (scan_replace (match_literal LIT_IMG_BRACKET) MEDIA_MARKER
                (scan_replace (match_literal LIT_IMAGE) MEDIA_MARKER p 0) 0) 0) 0) 0) 0)
    have h := (pass_clean s7 h).2.2.2.2.2.2.2.1
    exact (pass_clean s7 h).2.2.2.2.2.2.2.2
  · have h := scan_clean_self spec_indexed_image
      (scan_replace (match_literal LIT_AUDIO_BAR) MEDIA_MARKER
        (scan_replace (match_literal LIT_AUDIO) MEDIA_MARKER
          (scan_replace (match_literal LIT_IMG_BAR) MEDIA_MARKER
            (scan_replace (match_literal LIT_IMG) MEDIA_MARKER
              (scan_replace (match_literal LIT_IMAGE_BAR) MEDIA_MARKER
                (scan_replace (match_literal LIT_IMG_BRACKET) MEDIA_MARKER
                  (scan_replace (match_literal LIT_IMAGE) MEDIA_MARKER p 0) 0) 0) 0) 0) 0) 0)
    exact (pass_clean s8 h).2.2.2.2.2.2.2.2
  · exact scan_clean_self spec_indexed_audio _

/-- The replacement passes leave a text without alternate spellings unchanged. -/
theorem normalize_replacements_of_clean (l : Str) (h : Clean AltWord l) :
    normalize_replacements MEDIA_MARKER l = l := by
  obtain ⟨h1, h2, h3, h4, h5, h6, h7, h8, h9⟩ := (clean_altWord_iff l).mp h
  rw [normalize_replacements_eq_scan,
    scan_eq_self_of_clean spec_image _ l h1,
    scan_eq_self_of_clean spec_img_bracket _ l h2,
    scan_eq_self_of_clean spec_image_bar _ l h3,
    scan_eq_self_of_clean spec_img _ l h4,
    scan_eq_self_of_clean spec_img_bar _ l h5,
    scan_eq_self_of_clean spec_audio _ l h6,
    scan_eq_self_of_clean spec_audio_bar _ l h7,
    scan_eq_self_of_clean spec_indexed_image _ l h8,
    scan_eq_self_of_clean spec_indexed_audio _ l h9]

theorem clean_marker_block : ∀ k, Clean AltWord (marker_block MEDIA_MARKER k)
  | 0 => by simpa [marker_block] using clean_nil (fun w => AltWord.shape)
  | k + 1 => by
    have ih := clean_marker_block k
    have hM : Clean AltWord MEDIA_MARKER := by
      simpa using clean_marker_append (fun w => AltWord.shape) (clean_nil (fun w => AltWord.shape))
    unfold marker_block
    by_cases hb : marker_block MEDIA_MARKER k = []
    · simp only [hb, ne_eq, not_true_eq_false, if_false, List.nil_append]
      exact hM
    · simp only [hb, ne_eq, not_false_eq_true, if_true]
      rw [List.append_assoc, List.singleton_append]
      exact clean_append_cons (fun w hw => (AltWord.shape hw).not_mem_space) ih hM

theorem clean_replace_after (text pat B : Str) (pos : Nat) (h : find text pat 0 = some pos)
    (ht : Clean AltWord text) (hB : Clean AltWord B) :
    Clean AltWord (replace text pos pat.length (pat ++ [' '] ++ B ++ [' '])) := by
  have hs := find_zero_split text pat pos h
  have e1 : replace text pos pat.length (pat ++ [' '] ++ B ++ [' ']) =
      (text.take pos ++ pat) ++ ' ' :: (B ++ ' ' :: text.drop (pos + pat.length)) := by
    simp [replace]
  rw [e1]
  rw [hs] at ht
  have hsp : ∀ w, AltWord w → ' ' ∉ w := fun w hw => (AltWord.shape hw).not_mem_space
  exact clean_append_cons hsp ht.of_append_left (clean_append_cons hsp hB ht.of_append_right)

theorem clean_fill_missing_markers (text : Str) (n : Nat) (ht : Clean AltWord text) :
    Clean AltWord (fill_missing_markers MEDIA_MARKER text n) := by
  unfold fill_missing_markers
  split
  · exact ht
  · dsimp only
    split
    · exact ht
    · split
      · rename_i pos h1
        exact clean_replace_after text LIT_USER_CAP _ pos h1 ht (clean_marker_block _)
      · split
        · rename_i pos h2
          exact clean_replace_after text LIT_USER _ pos h2 ht (clean_marker_block _)
        · rw [List.append_assoc, List.singleton_append]
          exact clean_append_cons (fun w hw => (AltWord.shape hw).not_mem_newline)
            (clean_marker_block _) ht

theorem fill_missing_markers_of_count (text : Str) (n : Nat)
    (h : n ≤ count_scan MEDIA_MARKER text 0) :
    fill_missing_markers MEDIA_MARKER text n = text := by
  unfold fill_missing_markers
  rw [count_occurrences_eq _ MEDIA_MARKER (by decide)]
  split
  · rfl
  · dsimp only
    rw [if_pos h]

/-- Normalizing with the canonical marker is idempotent. -/
theorem normalize_idempotent_canonical (p : Str) (n : Nat) :
    fill_missing_markers MEDIA_MARKER (normalize_replacements MEDIA_MARKER
        (fill_missing_markers MEDIA_MARKER (normalize_replacements MEDIA_MARKER p) n)) n =
      fill_missing_markers MEDIA_MARKER (normalize_replacements MEDIA_MARKER p) n := by
  have hc := clean_fill_missing_markers _ n (clean_normalize_replacements p)
  rw [normalize_replacements_of_clean _ hc]
  rcases count_fill_missing_markers (normalize_replacements MEDIA_MARKER p) n with h | ⟨h0, -⟩
  · exact fill_missing_markers_of_count _ n (by rw [h]; exact Nat.le_max_left _ _)
  · exact fill_missing_markers_of_count _ n (by rw [h0]; exact Nat.zero_le _)

/-! ## Lemmas on the runtime state -/

theorem Frame.refl (g : Globals) : Frame g g := ⟨rfl, rfl, rfl, rfl, rfl⟩

theorem Frame.trans {a b c : Globals} (h1 : Frame a b) (h2 : Frame b c) : Frame a c :=
  ⟨h2.1.trans h1.1, h2.2.1.trans h1.2.1, h2.2.2.1.trans h1.2.2.1,
    h2.2.2.2.1.trans h1.2.2.2.1, h2.2.2.2.2.trans h1.2.2.2.2⟩

theorem Frame.keeps_sessionInv {g g' : Globals} (h : Frame g g') (hi : SessionInv g) :
    SessionInv g' := by
  obtain ⟨h1, h2, h3, -, -⟩ := h
  unfold SessionInv Loaded at *
  rw [h1, h2, h3]
  exact hi

theorem Frame.loaded {g g' : Globals} (h : Frame g g') (hl : Loaded g) : Loaded g' := by
  obtain ⟨-, -, h3, -, -⟩ := h
  unfold Loaded at *
  rw [h3]
  exact hl

theorem frame_set_error (m : Str) (g : Globals) : Frame g (set_error m g) :=
  ⟨rfl, rfl, rfl, rfl, rfl⟩

theorem frame_clear_error (g : Globals) : Frame g (clear_error g) := ⟨rfl, rfl, rfl, rfl, rfl⟩

theorem frame_emit (c : EngineCall) (g : Globals) : Frame g (emit c g) :=
  ⟨rfl, rfl, rfl, rfl, rfl⟩

theorem frame_clear_pending_media (g : Globals) : Frame g (clear_pending_media g) :=
  ⟨rfl, rfl, rfl, rfl, rfl⟩

theorem ensure_loaded_of_loaded {g : Globals} (h : Loaded g) : ensure_loaded g = (true, g) := by
  unfold ensure_loaded
  obtain ⟨h1, h2, h3⟩ := h
  simp [h1, h2, h3]

theorem ensure_loaded_of_not_loaded {g : Globals} (h : ¬ Loaded g) :
    ensure_loaded g = (false, set_error "Model is not loaded".toList g) := by
  unfold ensure_loaded
  have : g.g_state.model = none ∨ g.g_state.ctx = none ∨ g.g_state.vocab = none := by
    unfold Loaded at h
    by_contra hc
    push_neg at hc
    exact h hc
  rw [if_pos this]

theorem ensure_loaded_fst (g : Globals) : (ensure_loaded g).1 = true ↔ Loaded g := by
  by_cases h : Loaded g
  · simp [ensure_loaded_of_loaded h, h]
  · simp [ensure_loaded_of_not_loaded h, h]

theorem frame_ensure_loaded (g : Globals) : Frame g (ensure_loaded g).2 := by
  by_cases h : Loaded g
  · rw [ensure_loaded_of_loaded h]; exact Frame.refl g
  · rw [ensure_loaded_of_not_loaded h]; exact frame_set_error _ g

theorem sessionIdle_end_generation_state (g : Globals) :
    SessionIdle (end_generation_state g) := by
  unfold end_generation_state SessionIdle
  cases h : g.g_active_sampler <;> simp [h]

theorem end_generation_state_g_state (g : Globals) :
    (end_generation_state g).g_state = g.g_state := by
  unfold end_generation_state
  cases h : g.g_active_sampler <;> simp [emit]

theorem SessionIdle.to_sessionInv {g : Globals} (h : SessionIdle g) : SessionInv g := by
  unfold SessionIdle at h
  unfold SessionInv
  simp [h.1, h.2]

/-- Keeping the session Idle across a change that keeps the session fields. -/
theorem SessionIdle.of_frame {g g' : Globals} (h : Frame g g') (hi : SessionIdle g) :
    SessionIdle g' := by
  unfold SessionIdle at *
  rw [h.1, h.2.1]; exact hi

theorem frame_tokenize_text (env : TokenizeEnv) (text : Str) (add_special : Bool)
    (g : Globals) : Frame g (tokenize_text env text add_special g).2.2 := by
  unfold tokenize_text
  by_cases h : Loaded g
  · simp only [ensure_loaded_of_loaded h, Bool.not_true, Bool.false_eq_true, if_false]
    split
    · split
      · exact ⟨rfl, rfl, rfl, rfl, rfl⟩
      · exact ⟨rfl, rfl, rfl, rfl, rfl⟩
    · exact ⟨rfl, rfl, rfl, rfl, rfl⟩
  · simp only [ensure_loaded_of_not_loaded h, Bool.not_false, if_true]
    exact ⟨rfl, rfl, rfl, rfl, rfl⟩

theorem frame_decode_loop (decode_rc : Nat → Int) (tokens : List Int) (max_batch : Nat) :
    ∀ (fuel offset i : Nat) (g : Globals),
      Frame g (decode_loop decode_rc tokens max_batch fuel offset i g).2
  | 0, _, _, g => Frame.refl g
  | fuel + 1, offset, i, g => by
    unfold decode_loop
    split
    · dsimp only
      split
      · exact ⟨rfl, rfl, rfl, rfl, rfl⟩
      · exact (frame_emit _ g).trans (frame_decode_loop decode_rc tokens max_batch fuel _ _ _)
    · exact Frame.refl g

theorem frame_decode_tokens (n_batch : Nat) (decode_rc : Nat → Int) (tokens : List Int)
    (g : Globals) : Frame g (decode_tokens n_batch decode_rc tokens g).2 := by
  unfold decode_tokens
  by_cases h : Loaded g
  · simp only [ensure_loaded_of_loaded h, Bool.not_true, Bool.false_eq_true, if_false]
    split
    · exact ⟨rfl, rfl, rfl, rfl, rfl⟩
    · exact frame_decode_loop _ _ _ _ _ _ _
  · simp only [ensure_loaded_of_not_loaded h, Bool.not_false, if_true]
    exact ⟨rfl, rfl, rfl, rfl, rfl⟩

theorem frame_decode_multimodal_prompt (env : MultimodalEnv) (prompt : Str) (g : Globals) :
    Frame g (decode_multimodal_prompt env prompt g).2 := by
  unfold decode_multimodal_prompt
  split
  · exact (frame_set_error _ g).trans (frame_clear_pending_media _)
  · split
    · exact (frame_set_error _ g).trans (frame_clear_pending_media _)
    · dsimp only
      split
      · refine Frame.trans ?_ (frame_clear_pending_media _)
        refine Frame.trans ?_ (frame_emit _ _)
        split
        · exact (frame_emit _ g).trans (frame_set_error _ _)
        · split
          · exact (frame_emit _ g).trans (frame_set_error _ _)
          · exact (frame_emit _ g).trans (frame_set_error _ _)
      · have h : Frame g (clear_pending_media (emit (.mtmd_input_chunks_free ‹Handle›)
            (emit (.mtmd_helper_eval_chunks (batch_limit env.n_batch))
              (emit (.mtmd_tokenize
                (normalize_media_markers env.default_marker prompt g.g_pending_media.length)
                (decide (env.bos ≠ env.eos ∧ env.bos ≠ -1)) g.g_pending_media) g)))) :=
          (((frame_emit _ g).trans (frame_emit _ _)).trans (frame_emit _ _)).trans
            (frame_clear_pending_media _)
        split
        · exact h.trans (frame_set_error _ _)
        · exact h

theorem frame_create_sampler (env : SamplerEnv) (temp : F32) (top_k : Int)
    (top_p repeat_penalty : F32) (grammar : Option Str) (seed : Nat) (g : Globals) :
    Frame g (create_sampler env temp top_k top_p repeat_penalty grammar seed g).2 := by
  unfold create_sampler
  split
  · exact Frame.refl g
  · dsimp only
    split
    · split
      · exact ⟨rfl, rfl, rfl, rfl, rfl⟩
      · exact Frame.refl g
    · exact Frame.refl g

theorem frame_token_to_piece (env : PieceEnv) (g : Globals) :
    Frame g (token_to_piece env g).2 := by
  unfold token_to_piece
  by_cases h : Loaded g
  · simp only [ensure_loaded_of_loaded h, Bool.not_true, Bool.false_eq_true, if_false]
    split
    · split <;> exact Frame.refl g
    · exact Frame.refl g
  · simp only [ensure_loaded_of_not_loaded h, Bool.not_false, if_true]
    exact ⟨rfl, rfl, rfl, rfl, rfl⟩

theorem Frame.loaded_iff {g g' : Globals} (h : Frame g g') : Loaded g' ↔ Loaded g := by
  unfold Loaded; rw [h.2.2.1]

theorem Frame.sessionActive_iff {g g' : Globals} (h : Frame g g') :
    SessionActive g' ↔ SessionActive g := by
  unfold SessionActive; rw [h.1, h.2.1]

theorem not_sessionActive_of_idle {g : Globals} (h : SessionIdle g) : ¬ SessionActive g := by
  unfold SessionIdle at h
  unfold SessionActive
  simp [h.1]

/-- A cancellation request that arrives during an engine call changes the
cancellation flag only. -/
theorem note_cancel_fields (arrived : Bool) (g : Globals) :
    (note_cancel arrived g).g_generation_active = g.g_generation_active ∧
      (note_cancel arrived g).g_active_sampler = g.g_active_sampler ∧
      (note_cancel arrived g).g_state = g.g_state ∧
      (note_cancel arrived g).g_cancel_requested = (g.g_cancel_requested || arrived) :=
  ⟨rfl, rfl, rfl, rfl⟩

/-- The end of `begin_generation_impl`: either the sampler is built and the
session becomes Active, or the code is -5 and no sampler is held. -/
theorem begin_generation_sampler_spec (env : BeginEnv) (temp : F32) (top_k : Int)
    (top_p repeat_penalty : F32) (grammar : Option Str) (seed : Nat) (g : Globals)
    (hidle : g.g_generation_active = false) (r : Int × Globals)
    (hr : begin_generation_sampler env temp top_k top_p repeat_penalty grammar seed g = r) :
    r.2.g_state = g.g_state ∧ r.2.g_cancel_requested = g.g_cancel_requested ∧
      ((r.1 = 0 ∧ SessionActive r.2) ∨ (r.1 = -5 ∧ SessionIdle r.2)) := by
  have hf := frame_create_sampler env.sampler temp top_k top_p repeat_penalty grammar seed g
  have hc := hf.2.2.2.1
  unfold begin_generation_sampler at hr
  dsimp only at hr
  cases hs : (create_sampler env.sampler temp top_k top_p repeat_penalty grammar seed g).1 with
  | none =>
    rw [hs] at hr
    simp only [if_true] at hr
    split at hr <;> subst hr <;>
      exact ⟨hf.2.2.1, hc, Or.inr ⟨rfl, hf.1.trans hidle, rfl⟩⟩
  | some sampler =>
    rw [hs] at hr
    simp only [reduceCtorEq, if_false] at hr
    subst hr
    exact ⟨hf.2.2.1, hc, Or.inl ⟨rfl, rfl, by simp⟩⟩

theorem end_generation_state_cancel (g : Globals) :
    (end_generation_state g).g_cancel_requested = false := by
  unfold end_generation_state
  cases h : g.g_active_sampler <;> rfl

theorem end_generation_state_last_output (g : Globals) :
    (end_generation_state g).g_last_output = g.g_last_output := by
  unfold end_generation_state
  cases h : g.g_active_sampler <;> rfl

/-- The outcomes of `begin_generation_impl`. -/
theorem begin_generation_cases (env : BeginEnv) (a : GenArgs) (g : Globals)
    (r : Int × Globals) (hr : begin_generation_impl env a g = r) :
    (r.1 = -1 ∧ ¬ Loaded g ∧ r.2.g_generation_active = g.g_generation_active ∧
        r.2.g_active_sampler = g.g_active_sampler ∧ r.2.g_state = g.g_state) ∨
    (r.1 = -2 ∧ Loaded g ∧ a.prompt = none ∧
        r.2.g_generation_active = g.g_generation_active ∧
        r.2.g_active_sampler = g.g_active_sampler ∧ r.2.g_state = g.g_state) ∨
    (Loaded g ∧ a.prompt ≠ none ∧ r.2.g_state = g.g_state ∧
      ((r.1 = 0 ∧ SessionActive r.2 ∧ r.2.g_cancel_requested = env.cancel_during_decode) ∨
        ((r.1 = -3 ∨ r.1 = -4 ∨ r.1 = -5) ∧ SessionIdle r.2))) := by
  unfold begin_generation_impl at hr
  dsimp only at hr
  by_cases hl : Loaded g
  · have hl0 : Loaded { clear_error g with g_last_output := [], g_last_piece := [] } := hl
    rw [ensure_loaded_of_loaded hl0] at hr
    simp only [Bool.not_true, Bool.false_eq_true, if_false] at hr
    cases hp : a.prompt with
    | none =>
      rw [hp] at hr
      subst hr
      exact Or.inr (Or.inl ⟨rfl, hl, rfl, rfl, rfl, rfl⟩)
    | some prompt_text =>
      rw [hp] at hr
      dsimp only at hr
      right; right
      refine ⟨hl, by simp, ?_⟩
      generalize hg1 : emit EngineCall.llama_memory_clear
        { end_generation_state { clear_error g with g_last_output := [], g_last_piece := [] }
            with g_cancel_requested := false } = g1 at hr
      have hidle : SessionIdle g1 := by
        subst hg1
        exact sessionIdle_end_generation_state _
      have hst : g1.g_state = g.g_state := by
        subst hg1
        exact end_generation_state_g_state _
      have hcan : g1.g_cancel_requested = false := by
        subst hg1; rfl
      split at hr
      · have hf := frame_decode_multimodal_prompt env.multimodal prompt_text g1
        have hn := note_cancel_fields env.cancel_during_decode
          (decode_multimodal_prompt env.multimodal prompt_text g1).2
        have hc2 : (note_cancel env.cancel_during_decode
            (decode_multimodal_prompt env.multimodal prompt_text g1).2).g_cancel_requested =
            env.cancel_during_decode := by
          rw [hn.2.2.2, hf.2.2.2.1, hcan, Bool.false_or]
        split at hr
        · subst hr
          exact ⟨hn.2.2.1.trans (hf.2.2.1.trans hst),
            Or.inr ⟨Or.inl rfl, hn.1.trans (hidle.of_frame hf).1,
              hn.2.1.trans (hidle.of_frame hf).2⟩⟩
        · obtain ⟨h1, h2, h3⟩ := begin_generation_sampler_spec _ _ _ _ _ _ _ _
            (hn.1.trans ((hf.1).trans hidle.1)) r hr
          refine ⟨h1.trans (hn.2.2.1.trans (hf.2.2.1.trans hst)), ?_⟩
          rcases h3 with ⟨h0, ha⟩ | ⟨h5, hi⟩
          · exact Or.inl ⟨h0, ha, h2.trans hc2⟩
          · exact Or.inr ⟨Or.inr (Or.inr h5), hi⟩
      · have hf := frame_tokenize_text env.tokenize prompt_text true g1
        split at hr
        · subst hr
          exact ⟨hf.2.2.1.trans hst, Or.inr ⟨Or.inl rfl, hidle.of_frame hf⟩⟩
        · have hf2 := hf.trans (frame_decode_tokens env.n_batch env.decode_rc
            (tokenize_text env.tokenize prompt_text true g1).2.1
            (tokenize_text env.tokenize prompt_text true g1).2.2)
          have hn := note_cancel_fields env.cancel_during_decode
            (decode_tokens env.n_batch env.decode_rc
              (tokenize_text env.tokenize prompt_text true g1).2.1
              (tokenize_text env.tokenize prompt_text true g1).2.2).2
          have hc2 : (note_cancel env.cancel_during_decode
              (decode_tokens env.n_batch env.decode_rc
                (tokenize_text env.tokenize prompt_text true g1).2.1
                (tokenize_text env.tokenize prompt_text true g1).2.2).2).g_cancel_requested =
              env.cancel_during_decode := by
            rw [hn.2.2.2, hf2.2.2.2.1, hcan, Bool.false_or]
          split at hr
          · subst hr
            exact ⟨hn.2.2.1.trans (hf2.2.2.1.trans hst),
              Or.inr ⟨Or.inr (Or.inl rfl), hn.1.trans (hidle.of_frame hf2).1,
                hn.2.1.trans (hidle.of_frame hf2).2⟩⟩
          · obtain ⟨h1, h2, h3⟩ := begin_generation_sampler_spec _ _ _ _ _ _ _ _
              (hn.1.trans ((hf2.1).trans hidle.1)) r hr
            refine ⟨h1.trans (hn.2.2.1.trans (hf2.2.2.1.trans hst)), ?_⟩
            rcases h3 with ⟨h0, ha⟩ | ⟨h5, hi⟩
            · exact Or.inl ⟨h0, ha, h2.trans hc2⟩
            · exact Or.inr ⟨Or.inr (Or.inr h5), hi⟩
  · have hl0 : ¬ Loaded { clear_error g with g_last_output := [], g_last_piece := [] } := hl
    rw [ensure_loaded_of_not_loaded hl0] at hr
    simp only [Bool.not_false, if_true] at hr
    subst hr
    exact Or.inl ⟨rfl, hl, rfl, rfl, rfl⟩

theorem not_active_test_iff (g : Globals) :
    (!g.g_generation_active || g.g_active_sampler.isNone) = true ↔ ¬ SessionActive g := by
  unfold SessionActive
  cases g.g_generation_active <;> cases g.g_active_sampler <;> simp

/-- The outcomes of `next_token_impl`. -/
theorem next_token_cases (env : StepEnv) (g : Globals) (r : Int × Globals)
    (hr : next_token_impl env g = r) :
    (r.1 = -1 ∧ ¬ Loaded g ∧ Frame g r.2) ∨
    (r.1 = -2 ∧ Loaded g ∧ ¬ SessionActive g ∧ Frame g r.2) ∨
    (Loaded g ∧ SessionActive g ∧ r.2.g_state = g.g_state ∧
      ((r.1 = 1 ∧ r.2.g_generation_active = g.g_generation_active ∧
          r.2.g_active_sampler = g.g_active_sampler) ∨
        ((r.1 = 0 ∨ r.1 = -3 ∨ r.1 = -4) ∧ SessionIdle r.2))) := by
  unfold next_token_impl at hr
  dsimp only at hr
  by_cases hl : Loaded g
  · have hl0 : Loaded (clear_error g) := hl
    rw [ensure_loaded_of_loaded hl0] at hr
    simp only [Bool.not_true, Bool.false_eq_true, if_false] at hr
    by_cases ha : SessionActive g
    · have ha0 : ¬ ((!(clear_error g).g_generation_active ||
          (clear_error g).g_active_sampler.isNone) = true) := by
        rw [not_active_test_iff]; exact not_not.mpr ha
      rw [if_neg ha0] at hr
      right; right
      refine ⟨hl, ha, ?_⟩
      split at hr
      · subst hr
        exact ⟨end_generation_state_g_state _, Or.inr ⟨Or.inl rfl,
          sessionIdle_end_generation_state _⟩⟩
      · split at hr
        · subst hr
          exact ⟨end_generation_state_g_state _, Or.inr ⟨Or.inr (Or.inl rfl),
            sessionIdle_end_generation_state _⟩⟩
        · split at hr
          · subst hr
            exact ⟨end_generation_state_g_state _, Or.inr ⟨Or.inl rfl,
              sessionIdle_end_generation_state _⟩⟩
          · have hf := frame_token_to_piece env.piece (emit .llama_sampler_sample (clear_error g))
            split at hr
            · split at hr
              · subst hr
                exact ⟨(end_generation_state_g_state _).trans hf.2.2.1,
                  Or.inr ⟨Or.inl rfl, sessionIdle_end_generation_state _⟩⟩
              · subst hr
                exact ⟨(end_generation_state_g_state _).trans hf.2.2.1,
                  Or.inr ⟨Or.inr (Or.inr rfl), sessionIdle_end_generation_state _⟩⟩
            · subst hr
              exact ⟨hf.2.2.1, Or.inl ⟨rfl, hf.1, hf.2.1⟩⟩
    · have ha0 : (!(clear_error g).g_generation_active ||
          (clear_error g).g_active_sampler.isNone) = true := by
        rw [not_active_test_iff]; exact ha
      rw [if_pos ha0] at hr
      subst hr
      exact Or.inr (Or.inl ⟨rfl, hl, ha, ⟨rfl, rfl, rfl, rfl, rfl⟩⟩)
  · have hl0 : ¬ Loaded (clear_error g) := hl
    rw [ensure_loaded_of_not_loaded hl0] at hr
    simp only [Bool.not_false, if_true] at hr
    subst hr
    exact Or.inl ⟨rfl, hl, ⟨rfl, rfl, rfl, rfl, rfl⟩⟩

theorem next_token_g_state (env : StepEnv) (g : Globals) :
    (next_token_impl env g).2.g_state = g.g_state := by
  rcases next_token_cases env g _ rfl with ⟨-, -, hf⟩ | ⟨-, -, -, hf⟩ | ⟨-, -, h, -⟩
  · exact hf.2.2.1
  · exact hf.2.2.1
  · exact h

/-- The loop of `llamadart_webgpu_generate` always leaves the session Idle. -/
theorem generate_loop_spec (steps : Nat → StepEnv) :
    ∀ (remaining i : Nat) (g : Globals),
      SessionIdle (generate_loop steps remaining i g).2 ∧
        (generate_loop steps remaining i g).2.g_state = g.g_state
  | 0, _, g => ⟨sessionIdle_end_generation_state g, end_generation_state_g_state g⟩
  | remaining + 1, i, g => by
    unfold generate_loop
    dsimp only
    split
    · exact ⟨sessionIdle_end_generation_state _,
        (end_generation_state_g_state _).trans (next_token_g_state _ _)⟩
    · split
      · exact ⟨sessionIdle_end_generation_state _,
          (end_generation_state_g_state _).trans (next_token_g_state _ _)⟩
      · have ih := generate_loop_spec steps remaining (i + 1) (next_token_impl (steps i) g).2
        exact ⟨ih.1, ih.2.trans (next_token_g_state _ _)⟩

theorem frame_detokenize_loop (pieces : Nat → PieceEnv) :
    ∀ (tokens : List Int) (i : Nat) (g : Globals), Frame g (detokenize_loop pieces tokens i g)
  | [], _, g => Frame.refl g
  | _ :: rest, i, g => by
    unfold detokenize_loop
    dsimp only
    refine Frame.trans ?_ (frame_detokenize_loop pieces rest (i + 1) _)
    exact (frame_token_to_piece (pieces i) g).trans ⟨rfl, rfl, rfl, rfl, rfl⟩

theorem frame_refresh_backend_probe (devices : List (Option Device)) (g : Globals) :
    Frame g (refresh_backend_probe devices g) := by
  unfold refresh_backend_probe ensure_backend_initialized
  dsimp only
  split <;> exact ⟨rfl, rfl, rfl, rfl, rfl⟩

theorem frame_rebuild_model_metadata_json (env : MetaEnv) (g : Globals) :
    Frame g (rebuild_model_metadata_json env g) := by
  unfold rebuild_model_metadata_json
  split
  · exact ⟨rfl, rfl, rfl, rfl, rfl⟩
  · split <;> exact ⟨rfl, rfl, rfl, rfl, rfl⟩

theorem sessionIdle_free_runtime (g : Globals) : SessionIdle (free_runtime g) := by
  have h := sessionIdle_end_generation_state g
  unfold free_runtime
  dsimp only
  generalize end_generation_state g = g1 at h
  unfold SessionIdle at *
  unfold clear_pending_media
  dsimp only
  split <;> split <;> split <;> exact h

theorem free_runtime_model (g : Globals) : (free_runtime g).g_state.model = none := by
  unfold free_runtime
  dsimp only
  generalize clear_pending_media (end_generation_state g) = g1
  cases h1 : g1.g_state.mm_ctx <;> cases h2 : g1.g_state.ctx <;> cases h3 : g1.g_state.model <;>
    simp [emit, h1, h2, h3]

theorem sessionInv_of_eq {g g' : Globals}
    (h1 : g'.g_generation_active = g.g_generation_active)
    (h2 : g'.g_active_sampler = g.g_active_sampler)
    (h3 : g'.g_state.model = g.g_state.model) (h4 : g'.g_state.ctx = g.g_state.ctx)
    (h5 : g'.g_state.vocab = g.g_state.vocab) (hi : SessionInv g) : SessionInv g' := by
  unfold SessionInv Loaded at *
  rw [h1, h2, h3, h4, h5]
  exact hi

theorem sessionInv_of_active_loaded {g : Globals} (ha : SessionActive g) (hl : Loaded g) :
    SessionInv g := by
  unfold SessionActive at ha
  unfold SessionInv
  simp [ha.1, ha.2, hl]

theorem sessionInv_begin_generation (env : BeginEnv) (a : GenArgs) (g : Globals)
    (hi : SessionInv g) : SessionInv (begin_generation_impl env a g).2 := by
  rcases begin_generation_cases env a g _ rfl with
    ⟨-, -, h1, h2, h3⟩ | ⟨-, -, -, h1, h2, h3⟩ | ⟨hl, -, hst, h⟩
  · exact sessionInv_of_eq h1 h2 (by rw [h3]) (by rw [h3]) (by rw [h3]) hi
  · exact sessionInv_of_eq h1 h2 (by rw [h3]) (by rw [h3]) (by rw [h3]) hi
  · rcases h with ⟨-, ha, -⟩ | ⟨-, hidle⟩
    · refine sessionInv_of_active_loaded ha ?_
      unfold Loaded at *; rw [hst]; exact hl
    · exact hidle.to_sessionInv

theorem sessionInv_next_token (env : StepEnv) (g : Globals) (hi : SessionInv g) :
    SessionInv (next_token_impl env g).2 := by
  rcases next_token_cases env g _ rfl with ⟨-, -, hf⟩ | ⟨-, -, -, hf⟩ | ⟨hl, ha, hst, h⟩
  · exact hf.keeps_sessionInv hi
  · exact hf.keeps_sessionInv hi
  · rcases h with ⟨-, h1, h2⟩ | ⟨-, hidle⟩
    · exact sessionInv_of_eq h1 h2 (by rw [hst]) (by rw [hst]) (by rw [hst]) hi
    · exact hidle.to_sessionInv

theorem sessionIdle_generate_of_begun (env : BeginEnv) (steps : Nat → StepEnv) (a : GenArgs)
    (n_predict : Int) (g : Globals) (h : (begin_generation_impl env a g).1 = 0) :
    SessionIdle (llamadart_webgpu_generate env steps a n_predict g).2 := by
  unfold llamadart_webgpu_generate
  dsimp only
  rw [if_neg (by simp [h])]
  exact (generate_loop_spec steps _ 0 _).1

theorem generate_of_not_begun (env : BeginEnv) (steps : Nat → StepEnv) (a : GenArgs)
    (n_predict : Int) (g : Globals) (h : (begin_generation_impl env a g).1 ≠ 0) :
    llamadart_webgpu_generate env steps a n_predict g = begin_generation_impl env a g := by
  unfold llamadart_webgpu_generate
  dsimp only
  rw [if_pos h]

theorem sessionInv_generate (env : BeginEnv) (steps : Nat → StepEnv) (a : GenArgs)
    (n_predict : Int) (g : Globals) (hi : SessionInv g) :
    SessionInv (llamadart_webgpu_generate env steps a n_predict g).2 := by
  by_cases h : (begin_generation_impl env a g).1 = 0
  · exact (sessionIdle_generate_of_begun env steps a n_predict g h).to_sessionInv
  · rw [generate_of_not_begun env steps a n_predict g h]
    exact sessionInv_begin_generation env a g hi

theorem sessionInv_load_model (env : LoadEnv) (model_path : Option Str)
    (n_ctx n_threads n_gpu_layers : Int) (g : Globals) (hi : SessionInv g) :
    SessionInv (llamadart_webgpu_load_model env model_path n_ctx n_threads n_gpu_layers g).2 := by
  unfold llamadart_webgpu_load_model
  dsimp only
  have hempty : SessionInv (set_error "Model path is empty".toList
      { clear_error g with g_last_output := [], g_cancel_requested := false }) :=
    sessionInv_of_eq rfl rfl rfl rfl rfl hi
  split
  · exact hempty
  · split
    · exact hempty
    · have hidle := sessionIdle_free_runtime
        { clear_error g with g_last_output := [], g_cancel_requested := false }
      generalize free_runtime
        { clear_error g with g_last_output := [], g_cancel_requested := false } = g1 at hidle
      split
      · exact SessionIdle.to_sessionInv hidle
      · split
        · exact (sessionIdle_free_runtime _).to_sessionInv
        · refine (Frame.keeps_sessionInv (frame_rebuild_model_metadata_json _ _) ?_)
          exact SessionIdle.to_sessionInv hidle

theorem release_projector_fields (g : Globals) :
    (release_projector g).g_generation_active = g.g_generation_active ∧
      (release_projector g).g_active_sampler = g.g_active_sampler ∧
      (release_projector g).g_state.model = g.g_state.model ∧
      (release_projector g).g_state.ctx = g.g_state.ctx ∧
      (release_projector g).g_state.vocab = g.g_state.vocab := by
  unfold release_projector
  dsimp only
  split <;> exact ⟨rfl, rfl, rfl, rfl, rfl⟩

theorem sessionInv_mmproj_load (env : MmprojEnv) (mmproj_path : Option Str) (g : Globals)
    (hi : SessionInv g) : SessionInv (llamadart_webgpu_mmproj_load env mmproj_path g).2 := by
  unfold llamadart_webgpu_mmproj_load
  dsimp only
  have h0 : SessionInv (ensure_loaded (clear_error g)).2 :=
    ((frame_clear_error g).trans (frame_ensure_loaded _)).keeps_sessionInv hi
  split
  · exact h0
  · generalize (ensure_loaded (clear_error g)).2 = g1 at h0
    split
    · exact sessionInv_of_eq rfl rfl rfl rfl rfl h0
    · split
      · exact sessionInv_of_eq rfl rfl rfl rfl rfl h0
      · obtain ⟨h1, h2, h3, h4, h5⟩ := release_projector_fields g1
        split
        · exact sessionInv_of_eq h1 h2 h3 h4 h5 h0
        · exact sessionInv_of_eq h1 h2 h3 h4 h5 h0

theorem frame_media_add_guard (g : Globals) : Frame g (media_add_guard g).2 := by
  unfold media_add_guard
  dsimp only
  have h0 := (frame_clear_error g).trans (frame_ensure_loaded _)
  split
  · exact h0
  · split
    · exact h0.trans (frame_set_error _ _)
    · exact h0

theorem frame_media_add_file (bitmap : Option Handle) (media_path : Option Str) (g : Globals) :
    Frame g (llamadart_webgpu_media_add_file bitmap media_path g).2 := by
  unfold llamadart_webgpu_media_add_file
  dsimp only
  have h0 := frame_media_add_guard g
  split
  · exact h0
  · split
    · exact h0.trans ⟨rfl, rfl, rfl, rfl, rfl⟩
    · split <;> exact h0.trans ⟨rfl, rfl, rfl, rfl, rfl⟩

theorem frame_media_add_encoded (bitmap bytes : Option Handle) (length : Int) (g : Globals) :
    Frame g (llamadart_webgpu_media_add_encoded bitmap bytes length g).2 := by
  unfold llamadart_webgpu_media_add_encoded
  dsimp only
  have h0 := frame_media_add_guard g
  split
  · exact h0
  · split
    · exact h0.trans ⟨rfl, rfl, rfl, rfl, rfl⟩
    · split <;> exact h0.trans ⟨rfl, rfl, rfl, rfl, rfl⟩

theorem frame_media_add_rgb (bitmap : Option Handle) (width height : Nat)
    (bytes : Option Handle) (length : Int) (g : Globals) :
    Frame g (llamadart_webgpu_media_add_rgb bitmap width height bytes length g).2 := by
  unfold llamadart_webgpu_media_add_rgb
  dsimp only
  have h0 := frame_media_add_guard g
  split
  · exact h0
  · split
    · exact h0.trans ⟨rfl, rfl, rfl, rfl, rfl⟩
    · split
      · exact h0.trans ⟨rfl, rfl, rfl, rfl, rfl⟩
      · split <;> exact h0.trans ⟨rfl, rfl, rfl, rfl, rfl⟩

theorem frame_media_add_audio_f32 (bitmap samples : Option Handle) (sample_count : Int)
    (g : Globals) :
    Frame g (llamadart_webgpu_media_add_audio_f32 bitmap samples sample_count g).2 := by
  unfold llamadart_webgpu_media_add_audio_f32
  dsimp only
  have h0 := frame_media_add_guard g
  split
  · exact h0
  · split
    · exact h0.trans ⟨rfl, rfl, rfl, rfl, rfl⟩
    · split <;> exact h0.trans ⟨rfl, rfl, rfl, rfl, rfl⟩

theorem frame_tokenize_to_json (env : TokenizeEnv) (text : Option Str) (add_special : Int)
    (g : Globals) : Frame g (llamadart_webgpu_tokenize_to_json env text add_special g).2 := by
  unfold llamadart_webgpu_tokenize_to_json
  dsimp only
  split
  · exact ⟨rfl, rfl, rfl, rfl, rfl⟩
  · have h0 : Frame g { clear_error g with g_last_tokens_json := ['[', ']'] } :=
      ⟨rfl, rfl, rfl, rfl, rfl⟩
    have h1 := h0.trans (frame_tokenize_text env ‹Str› (decide (add_special ≠ 0)) _)
    split
    · exact h1
    · exact h1.trans ⟨rfl, rfl, rfl, rfl, rfl⟩

theorem frame_detokenize_from_json (pieces : Nat → PieceEnv) (token_text : Option Str)
    (special : Int) (g : Globals) :
    Frame g (llamadart_webgpu_detokenize_from_json pieces token_text special g).2 := by
  unfold llamadart_webgpu_detokenize_from_json
  dsimp only
  have h0 : Frame g { clear_error g with g_last_detokenized := [] } :=
    ⟨rfl, rfl, rfl, rfl, rfl⟩
  have h1 := h0.trans (frame_ensure_loaded _)
  split
  · exact h1
  · split
    · exact h1
    · exact h1.trans (frame_detokenize_loop _ _ _ _)

theorem sessionIdle_shutdown (g : Globals) : SessionIdle (llamadart_webgpu_shutdown g) := by
  have h := sessionIdle_free_runtime g
  unfold llamadart_webgpu_shutdown
  dsimp only
  generalize free_runtime g = g1 at h
  split <;> exact h

/-- Every boundary operation keeps the session invariant. -/
theorem sessionInv_exec (op : Op) (g : Globals) (hi : SessionInv g) : SessionInv (op.exec g) := by
  cases op with
  | probe devices => exact (frame_refresh_backend_probe devices g).keeps_sessionInv hi
  | backends_json devices => exact (frame_refresh_backend_probe devices g).keeps_sessionInv hi
  | load_model env model_path n_ctx n_threads n_gpu_layers =>
    exact sessionInv_load_model env model_path n_ctx n_threads n_gpu_layers g hi
  | mmproj_load env mmproj_path => exact sessionInv_mmproj_load env mmproj_path g hi
  | mmproj_free =>
    obtain ⟨h1, h2, h3, h4, h5⟩ := release_projector_fields g
    exact sessionInv_of_eq h1 h2 h3 h4 h5 hi
  | media_clear_pending =>
    exact ((frame_clear_error g).trans (frame_clear_pending_media _)).keeps_sessionInv hi
  | media_add_file bitmap media_path =>
    exact (frame_media_add_file bitmap media_path g).keeps_sessionInv hi
  | media_add_encoded bitmap bytes length =>
    exact (frame_media_add_encoded bitmap bytes length g).keeps_sessionInv hi
  | media_add_rgb bitmap width height bytes length =>
    exact (frame_media_add_rgb bitmap width height bytes length g).keeps_sessionInv hi
  | media_add_audio_f32 bitmap samples sample_count =>
    exact (frame_media_add_audio_f32 bitmap samples sample_count g).keeps_sessionInv hi
  | tokenize_to_json env text add_special =>
    exact (frame_tokenize_to_json env text add_special g).keeps_sessionInv hi
  | detokenize_from_json pieces token_text special =>
    exact (frame_detokenize_from_json pieces token_text special g).keeps_sessionInv hi
  | generate env steps a n_predict => exact sessionInv_generate env steps a n_predict g hi
  | begin_generation env a => exact sessionInv_begin_generation env a g hi
  | next_token env => exact sessionInv_next_token env g hi
  | end_generation => exact (sessionIdle_end_generation_state g).to_sessionInv
  | request_cancel => exact sessionInv_of_eq rfl rfl rfl rfl rfl hi
  | shutdown => exact (sessionIdle_shutdown g).to_sessionInv

/-- In every reachable state a generation is flagged active exactly when a
sampler chain is held, and only while the model is loaded. -/
theorem Reachable.sessionInv {g : Globals} (h : Reachable g) : SessionInv g := by
  induction h with
  | init => exact SessionIdle.to_sessionInv ⟨rfl, rfl⟩
  | step op _ ih => exact sessionInv_exec op _ ih

theorem next_token_of_not_loaded (env : StepEnv) {g : Globals} (hl : ¬ Loaded g) :
    next_token_impl env g = (-1, set_error "Model is not loaded".toList (clear_error g)) := by
  unfold next_token_impl
  dsimp only
  have hl0 : ¬ Loaded (clear_error g) := hl
  rw [ensure_loaded_of_not_loaded hl0]
  simp only [Bool.not_false, if_true]

theorem next_token_of_not_active (env : StepEnv) {g : Globals} (hl : Loaded g)
    (ha : ¬ SessionActive g) :
    next_token_impl env g =
      (-2, set_error "Generation is not active".toList (clear_error g)) := by
  unfold next_token_impl
  dsimp only
  have hl0 : Loaded (clear_error g) := hl
  have ha0 : (!(clear_error g).g_generation_active ||
      (clear_error g).g_active_sampler.isNone) = true := by
    rw [not_active_test_iff]; exact ha
  rw [ensure_loaded_of_loaded hl0]
  simp only [Bool.not_true, Bool.false_eq_true, if_false]
  rw [if_pos ha0]

theorem next_token_of_cancel (env : StepEnv) {g : Globals} (hl : Loaded g)
    (ha : SessionActive g) (hc : g.g_cancel_requested = true) :
    next_token_impl env g = (0, end_generation_state (clear_error g)) := by
  unfold next_token_impl
  dsimp only
  have hl0 : Loaded (clear_error g) := hl
  have ha0 : ¬ ((!(clear_error g).g_generation_active ||
      (clear_error g).g_active_sampler.isNone) = true) := by
    rw [not_active_test_iff]; exact not_not.mpr ha
  have hc0 : (clear_error g).g_cancel_requested = true := hc
  rw [ensure_loaded_of_loaded hl0]
  simp only [Bool.not_true, Bool.false_eq_true, if_false]
  rw [if_neg ha0, if_pos hc0]

theorem end_generation_state_trace (g : Globals) :
    (end_generation_state g).trace =
      g.trace ++ (match g.g_active_sampler with
        | some sampler => [EngineCall.llama_sampler_free sampler.handle]
        | none => []) := by
  unfold end_generation_state
  cases h : g.g_active_sampler <;> simp [emit]

theorem end_generation_state_last_piece (g : Globals) :
    (end_generation_state g).g_last_piece = [] := by
  unfold end_generation_state
  cases h : g.g_active_sampler <;> rfl

theorem begin_generation_null_prompt (env : BeginEnv) (a : GenArgs) {g : Globals}
    (hl : Loaded g) (hp : a.prompt = none) :
    begin_generation_impl env a g =
      (-2, set_error "Prompt is null".toList
        { clear_error g with g_last_output := [], g_last_piece := [] }) := by
  unfold begin_generation_impl
  dsimp only
  have hl0 : Loaded { clear_error g with g_last_output := [], g_last_piece := [] } := hl
  rw [ensure_loaded_of_loaded hl0]
  simp only [Bool.not_true, Bool.false_eq_true, if_false]
  rw [hp]

/-- With a non-null prompt, every failure of `begin_generation_impl` from a
reachable state leaves the session Idle. -/
theorem begin_generation_failure_idle (env : BeginEnv) (a : GenArgs) {g : Globals}
    (hr : Reachable g) (hp : a.prompt ≠ none)
    (hrc : (begin_generation_impl env a g).1 ≠ 0) :
    SessionIdle (begin_generation_impl env a g).2 := by
  rcases begin_generation_cases env a g _ rfl with
    ⟨-, hl, h1, h2, -⟩ | ⟨-, -, hnone, -⟩ | ⟨-, -, -, h⟩
  · obtain ⟨hiff, himp⟩ := hr.sessionInv
    unfold SessionIdle
    rw [h1, h2]
    cases hflag : g.g_generation_active with
    | false =>
      refine ⟨rfl, ?_⟩
      by_contra hs
      have := hiff.mpr hs
      rw [hflag] at this
      exact absurd this (by decide)
    | true => exact absurd (himp hflag) hl
  · exact absurd hnone hp
  · rcases h with ⟨h0, -⟩ | ⟨-, hidle⟩
    · exact absurd h0 hrc
    · exact hidle

/-- With a non-null prompt, `llamadart_webgpu_generate` from a reachable state
always leaves the session Idle. -/
theorem generate_idle_of_prompt (env : BeginEnv) (steps : Nat → StepEnv) (a : GenArgs)
    (n_predict : Int) {g : Globals} (hr : Reachable g) (hp : a.prompt ≠ none) :
    SessionIdle (llamadart_webgpu_generate env steps a n_predict g).2 := by
  by_cases h : (begin_generation_impl env a g).1 = 0
  · exact sessionIdle_generate_of_begun env steps a n_predict g h
  · rw [generate_of_not_begun env steps a n_predict g h]
    exact begin_generation_failure_idle env a hr hp h

/-! ## Teardown -/

/-- Closed form of `free_runtime`: the resources held are released in order
and every global but the error text, the backend flags and the backend list is
reset. -/
theorem free_runtime_eq (g : Globals) :
    free_runtime g =
      { g with
        g_state := {}
        g_generation_active := false
        g_cancel_requested := false
        g_active_sampler := none
        g_last_output := []
        g_last_piece := []
        g_last_tokens_json := ['[', ']']
        g_last_detokenized := []
        g_model_meta_json := ['{', '}']
        g_pending_media := []
        trace := g.trace ++ held_resources g } := by
  obtain ⟨⟨model, ctx, vocab, mm, n⟩, bi, hw, ga, cr, sampler, le, lo, lp, lt, ld, bj, mj, pm,
    tr⟩ := g
  cases sampler <;> cases mm <;> cases ctx <;> cases model <;>
    simp [free_runtime, end_generation_state, clear_pending_media, emit, held_resources]

theorem held_resources_free_runtime (g : Globals) : held_resources (free_runtime g) = [] := by
  rw [free_runtime_eq]
  simp [held_resources]

theorem free_runtime_idempotent (g : Globals) : free_runtime (free_runtime g) = free_runtime g := by
  have h := held_resources_free_runtime g
  rw [free_runtime_eq (free_runtime g), h]
  rw [free_runtime_eq g]
  simp

theorem free_runtime_g_state (g : Globals) : (free_runtime g).g_state = {} := by
  rw [free_runtime_eq]

theorem shutdown_g_state (g : Globals) : (llamadart_webgpu_shutdown g).g_state = {} := by
  unfold llamadart_webgpu_shutdown
  dsimp only
  split <;> exact free_runtime_g_state g

theorem join_labels_json_eq_nil (labels : List Str) (i : Nat) :
    join_labels_json labels i = [] ↔ labels = [] := by
  cases labels with
  | nil => simp [join_labels_json]
  | cons l rest =>
    unfold join_labels_json
    split <;> simp

/-! ## Where the missing markers are inserted -/

theorem find_of_firstOccurrence (text pat : Str) (hp : pat ≠ []) (i : Nat)
    (h : FirstOccurrence text pat i) : find text pat 0 = some i := by
  cases hf : find text pat 0 with
  | none =>
    have := find_none_spec text pat hp 0 (Nat.zero_le _) hf i
    exact absurd (by simpa using h.1) this
  | some pos =>
    obtain ⟨k, hpos, hpre, hmin⟩ := find_some_spec text pat 0 pos hf
    simp only [List.drop_zero, Nat.zero_add] at hpos hpre hmin
    rw [hpos]
    rcases Nat.lt_trichotomy k i with hlt | heq | hgt
    · exact absurd hpre (h.2 k hlt)
    · rw [heq]
    · exact absurd h.1 (hmin i hgt)

theorem find_of_noOccurrence (text pat : Str) (h : NoOccurrence text pat) :
    find text pat 0 = none := by
  cases hf : find text pat 0 with
  | none => rfl
  | some pos =>
    obtain ⟨k, -, hpre, -⟩ := find_some_spec text pat 0 pos hf
    exact absurd (by simpa using hpre) (h k)

theorem firstOccurrence_split {text pat : Str} {i : Nat} (h : FirstOccurrence text pat i) :
    text = text.take i ++ pat ++ text.drop (i + pat.length) := by
  have h1 := List.prefix_iff_eq_append.mp h.1
  rw [List.drop_drop] at h1
  rw [List.append_assoc, h1, List.take_append_drop]

theorem normalize_media_markers_zero (marker_ptr : Option Str) (prompt : Str) :
    normalize_media_markers marker_ptr prompt 0 =
      normalize_replacements (marker_ptr.getD MEDIA_MARKER) prompt := by
  rw [normalize_media_markers_eq]
  unfold fill_missing_markers
  rw [if_pos rfl]

theorem intercalate_append_singleton (sep x : Str) :
    ∀ l : List Str, l ≠ [] → sep.intercalate (l ++ [x]) = sep.intercalate l ++ sep ++ x
  | [], h => absurd rfl h
  | [a], _ => by simp [List.intercalate, List.intersperse]
  | a :: b :: l, _ => by
    have ih := intercalate_append_singleton sep x (b :: l) (by simp)
    simp only [List.intercalate, List.cons_append, List.intersperse, List.flatten_cons,
      List.append_eq] at ih ⊢
    rw [ih]
    simp

/-- The marker block is the given number of markers joined by single spaces. -/
theorem marker_block_eq_intercalate (marker : Str) (hm : marker ≠ []) :
    ∀ k, marker_block marker k = [' '].intercalate (List.replicate k marker)
  | 0 => by simp [marker_block, List.intercalate]
  | 1 => by simp [marker_block, List.intercalate]
  | k + 2 => by
    have ih := marker_block_eq_intercalate marker hm (k + 1)
    have e : ∀ j, marker_block marker (j + 1) =
        (if marker_block marker j ≠ [] then marker_block marker j ++ [' ']
          else marker_block marker j) ++ marker := fun _ => rfl
    have hne : marker_block marker (k + 1) ≠ [] := by
      rw [e]
      intro h
      exact hm (List.append_eq_nil.mp h).2
    rw [e (k + 1), if_pos hne, ih, List.replicate_succ' (k + 1),
      intercalate_append_singleton _ _ _ (by simp [List.replicate_succ])]

/-- The output of `fill_missing_markers` when markers are missing. -/
theorem fill_missing_markers_of_lt (marker text : Str) (n : Nat)
    (hlt : count_occurrences text marker < n) :
    (∀ i, FirstOccurrence text LIT_USER_CAP i →
      fill_missing_markers marker text n =
        text.take i ++ LIT_USER_CAP ++ [' '] ++
          marker_block marker (n - count_occurrences text marker) ++ [' '] ++
          text.drop (i + 5)) ∧
    (∀ i, NoOccurrence text LIT_USER_CAP → FirstOccurrence text LIT_USER i →
      fill_missing_markers marker text n =
        text.take i ++ LIT_USER ++ [' '] ++
          marker_block marker (n - count_occurrences text marker) ++ [' '] ++
          text.drop (i + 5)) ∧
    (NoOccurrence text LIT_USER_CAP → NoOccurrence text LIT_USER →
      fill_missing_markers marker text n =
        marker_block marker (n - count_occurrences text marker) ++ ['\n'] ++ text) := by
  have hn : n ≠ 0 := by omega
  have hge : ¬ count_occurrences text marker ≥ n := by omega
  refine ⟨?_, ?_, ?_⟩
  · intro i hi
    unfold fill_missing_markers
    rw [if_neg hn]
    dsimp only
    rw [if_neg hge, find_of_firstOccurrence _ _ (by decide) _ hi]
    simp [replace]
  · intro i hno hi
    unfold fill_missing_markers
    rw [if_neg hn]
    dsimp only
    rw [if_neg hge, find_of_noOccurrence _ _ hno, find_of_firstOccurrence _ _ (by decide) _ hi]
    simp [replace]
  · intro hno1 hno2
    unfold fill_missing_markers
    rw [if_neg hn]
    dsimp only
    rw [if_neg hge, find_of_noOccurrence _ _ hno1, find_of_noOccurrence _ _ hno2]

/-! ## The runtime handles -/

theorem begin_generation_g_state (env : BeginEnv) (a : GenArgs) (g : Globals) :
    (begin_generation_impl env a g).2.g_state = g.g_state := by
  rcases begin_generation_cases env a g _ rfl with
    ⟨-, -, -, -, h⟩ | ⟨-, -, -, -, -, h⟩ | ⟨-, -, h, -⟩ <;> exact h

theorem generate_g_state (env : BeginEnv) (steps : Nat → StepEnv) (a : GenArgs)
    (n_predict : Int) (g : Globals) :
    (llamadart_webgpu_generate env steps a n_predict g).2.g_state = g.g_state := by
  by_cases h : (begin_generation_impl env a g).1 = 0
  · unfold llamadart_webgpu_generate
    dsimp only
    rw [if_neg (by simp [h])]
    exact (generate_loop_spec steps _ 0 _).2.trans (begin_generation_g_state env a g)
  · rw [generate_of_not_begun env steps a n_predict g h]
    exact begin_generation_g_state env a g

theorem release_projector_g_state (g : Globals) :
    (release_projector g).g_state = { g.g_state with mm_ctx := none } := by
  unfold release_projector clear_pending_media
  dsimp only
  cases h : g.g_state.mm_ctx with
  | none =>
    dsimp only
    obtain ⟨⟨model, ctx, vocab, mm, n⟩, _⟩ := g
    simp only at h
    subst h
    rfl
  | some mm => rfl

/-- The runtime handles after `llamadart_webgpu_load_model`. -/
theorem load_model_g_state (env : LoadEnv) (model_path : Option Str)
    (n_ctx n_threads n_gpu_layers : Int) (g : Globals) :
    (llamadart_webgpu_load_model env model_path n_ctx n_threads n_gpu_layers g).2.g_state =
        g.g_state ∨
      (llamadart_webgpu_load_model env model_path n_ctx n_threads n_gpu_layers g).2.g_state =
        {} ∨
      ∃ m c, env.model = some m ∧ env.ctx = some c ∧
        (llamadart_webgpu_load_model env model_path n_ctx n_threads n_gpu_layers g).2.g_state =
          { model := some m, ctx := some c, vocab := env.vocab, mm_ctx := none,
            n_ctx := env.n_ctx } := by
  unfold llamadart_webgpu_load_model
  dsimp only
  split
  · exact Or.inl rfl
  · split
    · exact Or.inl rfl
    · have hfree := free_runtime_g_state
        { clear_error g with g_last_output := [], g_cancel_requested := false }
      generalize free_runtime
        { clear_error g with g_last_output := [], g_cancel_requested := false } = g1 at hfree
      split
      · rename_i hmodel
        right; left
        show ({ g1.g_state with model := env.model } : runtime_state) = {}
        rw [hfree, hmodel]
      · rename_i m hmodel
        split
        · right; left
          exact free_runtime_g_state _
        · rename_i c hctx
          right; right
          refine ⟨m, c, hmodel, hctx, ?_⟩
          rw [(frame_rebuild_model_metadata_json _ _).2.2.1]
          show ({ ({ ({ ({ g1.g_state with model := env.model } : runtime_state) with
            ctx := env.ctx } : runtime_state) with vocab := env.vocab } : runtime_state) with
            n_ctx := env.n_ctx } : runtime_state) = _
          rw [hfree, hmodel, hctx]

/-- The runtime handles after `llamadart_webgpu_mmproj_load`. -/
theorem mmproj_load_g_state (env : MmprojEnv) (mmproj_path : Option Str) (g : Globals) :
    (llamadart_webgpu_mmproj_load env mmproj_path g).2.g_state = g.g_state ∨
      (Loaded g ∧ (llamadart_webgpu_mmproj_load env mmproj_path g).2.g_state =
        { g.g_state with mm_ctx := env.mm_ctx }) := by
  unfold llamadart_webgpu_mmproj_load
  dsimp only
  by_cases hl : Loaded g
  · have hl0 : Loaded (clear_error g) := hl
    rw [ensure_loaded_of_loaded hl0]
    simp only [Bool.not_true, Bool.false_eq_true, if_false]
    split
    · exact Or.inl rfl
    · split
      · exact Or.inl rfl
      · right
        refine ⟨hl, ?_⟩
        have hr := release_projector_g_state (clear_error g)
        split
        · show ({ (release_projector (clear_error g)).g_state with mm_ctx := env.mm_ctx } :
            runtime_state) = _
          rw [hr]; rfl
        · show ({ (release_projector (clear_error g)).g_state with mm_ctx := env.mm_ctx } :
            runtime_state) = _
          rw [hr]; rfl
  · have hl0 : ¬ Loaded (clear_error g) := hl
    rw [ensure_loaded_of_not_loaded hl0]
    simp only [Bool.not_false, if_true]
    exact Or.inl rfl

theorem handlesInv_of_g_state {g g' : Globals} (h : g'.g_state = g.g_state)
    (hi : HandlesInv g) : HandlesInv g' := by
  unfold HandlesInv at *
  rw [h]; exact hi

theorem handlesInv_of_default {g : Globals} (h : g.g_state = {}) : HandlesInv g := by
  unfold HandlesInv
  rw [h]
  simp

/-- Every boundary operation keeps the invariant of the runtime handles, as
long as the engine gives a vocabulary for every model it loads. -/
theorem handlesInv_exec (op : Op) (hop : op.vocab_ok) (g : Globals) (hi : HandlesInv g) :
    HandlesInv (op.exec g) := by
  cases op with
  | probe devices => exact handlesInv_of_g_state (frame_refresh_backend_probe devices g).2.2.1 hi
  | backends_json devices =>
    exact handlesInv_of_g_state (frame_refresh_backend_probe devices g).2.2.1 hi
  | load_model env model_path n_ctx n_threads n_gpu_layers =>
    rcases load_model_g_state env model_path n_ctx n_threads n_gpu_layers g with
      h | h | ⟨m, c, hm, hc, h⟩
    · exact handlesInv_of_g_state h hi
    · exact handlesInv_of_default h
    · have hv : env.vocab ≠ none := hop (by rw [hm]; simp)
      show HandlesInv (llamadart_webgpu_load_model env model_path n_ctx n_threads
        n_gpu_layers g).2
      unfold HandlesInv
      rw [h]
      simp [hv]
  | mmproj_load env mmproj_path =>
    rcases mmproj_load_g_state env mmproj_path g with h | ⟨hl, h⟩
    · exact handlesInv_of_g_state h hi
    · show HandlesInv (llamadart_webgpu_mmproj_load env mmproj_path g).2
      obtain ⟨h1, h2, -⟩ := hi
      unfold HandlesInv
      rw [h]
      exact ⟨h1, h2, fun _ => hl.1⟩
  | mmproj_free =>
    show HandlesInv (release_projector g)
    obtain ⟨h1, h2, -⟩ := hi
    unfold HandlesInv
    rw [release_projector_g_state]
    exact ⟨h1, h2, fun h => absurd rfl h⟩
  | media_clear_pending =>
    exact handlesInv_of_g_state
      ((frame_clear_error g).trans (frame_clear_pending_media _)).2.2.1 hi
  | media_add_file bitmap media_path =>
    exact handlesInv_of_g_state (frame_media_add_file bitmap media_path g).2.2.1 hi
  | media_add_encoded bitmap bytes length =>
    exact handlesInv_of_g_state (frame_media_add_encoded bitmap bytes length g).2.2.1 hi
  | media_add_rgb bitmap width height bytes length =>
    exact handlesInv_of_g_state (frame_media_add_rgb bitmap width height bytes length g).2.2.1 hi
  | media_add_audio_f32 bitmap samples sample_count =>
    exact handlesInv_of_g_state
      (frame_media_add_audio_f32 bitmap samples sample_count g).2.2.1 hi
  | tokenize_to_json env text add_special =>
    exact handlesInv_of_g_state (frame_tokenize_to_json env text add_special g).2.2.1 hi
  | detokenize_from_json pieces token_text special =>
    exact handlesInv_of_g_state
      (frame_detokenize_from_json pieces token_text special g).2.2.1 hi
  | generate env steps a n_predict =>
    exact handlesInv_of_g_state (generate_g_state env steps a n_predict g) hi
  | begin_generation env a => exact handlesInv_of_g_state (begin_generation_g_state env a g) hi
  | next_token env => exact handlesInv_of_g_state (next_token_g_state env g) hi
  | end_generation => exact handlesInv_of_g_state (end_generation_state_g_state g) hi
  | request_cancel => exact handlesInv_of_g_state rfl hi
  | shutdown => exact handlesInv_of_default (shutdown_g_state g)

/-! ## Exact results of a generation step -/

theorem token_to_piece_of_loaded (env : PieceEnv) {g : Globals} (hl : Loaded g) :
    token_to_piece env g = (piece_text env, g) := by
  unfold token_to_piece piece_text
  rw [ensure_loaded_of_loaded hl]
  simp only [Bool.not_true, Bool.false_eq_true, if_false]
  split
  · split <;> rfl
  · rfl

theorem next_token_of_null_sample (env : StepEnv) {g : Globals} (hl : Loaded g)
    (ha : SessionActive g) (hc : g.g_cancel_requested = false) (hs : env.sampled = none) :
    next_token_impl env g =
      (-3, end_generation_state (set_error "Sampler returned LLAMA_TOKEN_NULL".toList
        (emit .llama_sampler_sample (clear_error g)))) := by
  unfold next_token_impl
  dsimp only
  have hl0 : Loaded (clear_error g) := hl
  have ha0 : ¬ ((!(clear_error g).g_generation_active ||
      (clear_error g).g_active_sampler.isNone) = true) := by
    rw [not_active_test_iff]; exact not_not.mpr ha
  have hc0 : ¬ (clear_error g).g_cancel_requested = true := by
    show ¬ g.g_cancel_requested = true
    rw [hc]; decide
  rw [ensure_loaded_of_loaded hl0]
  simp only [Bool.not_true, Bool.false_eq_true, if_false]
  rw [if_neg ha0, if_neg hc0, hs]

theorem next_token_of_eog (env : StepEnv) {g : Globals} (hl : Loaded g)
    (ha : SessionActive g) (hc : g.g_cancel_requested = false) (token : Int)
    (hs : env.sampled = some token) (he : env.is_eog = true) :
    next_token_impl env g =
      (0, end_generation_state (emit .llama_sampler_sample (clear_error g))) := by
  unfold next_token_impl
  dsimp only
  have hl0 : Loaded (clear_error g) := hl
  have ha0 : ¬ ((!(clear_error g).g_generation_active ||
      (clear_error g).g_active_sampler.isNone) = true) := by
    rw [not_active_test_iff]; exact not_not.mpr ha
  have hc0 : ¬ (clear_error g).g_cancel_requested = true := by
    show ¬ g.g_cancel_requested = true
    rw [hc]; decide
  rw [ensure_loaded_of_loaded hl0]
  simp only [Bool.not_true, Bool.false_eq_true, if_false]
  rw [if_neg ha0, if_neg hc0, hs]
  dsimp only
  rw [if_pos he]

/-- The step that converts and decodes a sampled token. -/
theorem next_token_of_sampled (env : StepEnv) {g : Globals} (hl : Loaded g)
    (ha : SessionActive g) (hc : g.g_cancel_requested = false) (token : Int)
    (hs : env.sampled = some token) (he : env.is_eog = false) :
    next_token_impl env g =
      if env.decode_rc ≠ 0 then
        if env.cancel_during_decode = true then
          (0, end_generation_state
            { emit (.llama_decode [token]) (emit .llama_sampler_sample (clear_error g)) with
              g_last_piece := piece_text env.piece
              g_last_output := g.g_last_output ++ piece_text env.piece
              g_cancel_requested := env.cancel_during_decode })
        else
          (-4, end_generation_state (set_error
            "llama_decode failed while generating tokens".toList
            { emit (.llama_decode [token]) (emit .llama_sampler_sample (clear_error g)) with
              g_last_piece := piece_text env.piece
              g_last_output := g.g_last_output ++ piece_text env.piece
              g_cancel_requested := env.cancel_during_decode }))
      else
        (1, { emit (.llama_decode [token]) (emit .llama_sampler_sample (clear_error g)) with
          g_last_piece := piece_text env.piece
          g_last_output := g.g_last_output ++ piece_text env.piece
          g_cancel_requested := env.cancel_during_decode }) := by
  unfold next_token_impl
  dsimp only
  have hl0 : Loaded (clear_error g) := hl
  have hl1 : Loaded (emit .llama_sampler_sample (clear_error g)) := hl
  have ha0 : ¬ ((!(clear_error g).g_generation_active ||
      (clear_error g).g_active_sampler.isNone) = true) := by
    rw [not_active_test_iff]; exact not_not.mpr ha
  have hc0 : ¬ (clear_error g).g_cancel_requested = true := by
    show ¬ g.g_cancel_requested = true
    rw [hc]; decide
  have hne : ¬ env.is_eog = true := by rw [he]; decide
  rw [ensure_loaded_of_loaded hl0]
  simp only [Bool.not_true, Bool.false_eq_true, if_false]
  rw [if_neg ha0, if_neg hc0, hs]
  dsimp only
  rw [if_neg hne, token_to_piece_of_loaded env.piece hl1]
  dsimp only [emit, clear_error]
  rw [hc]
  simp only [Bool.false_or]

/-! ## The variable-length adapters -/

theorem read_model_meta_loop_exhausted (call : Nat → Nat → Int × Str)
    (hfail : ∀ attempt cap, (call attempt cap).1 < 0 ∨ cap ≤ (call attempt cap).1.toNat) :
    ∀ remaining attempt buf_size,
      read_model_meta_loop call remaining attempt buf_size = ([], remaining)
  | 0, _, _ => rfl
  | remaining + 1, attempt, buf_size => by
    unfold read_model_meta_loop
    dsimp only
    rcases hfail attempt buf_size with h | h
    · rw [if_pos h, read_model_meta_loop_exhausted call hfail remaining]
    · by_cases hneg : (call attempt buf_size).1 < 0
      · rw [if_pos hneg, read_model_meta_loop_exhausted call hfail remaining]
      · rw [if_neg hneg, if_pos h, read_model_meta_loop_exhausted call hfail remaining]

theorem token_to_piece_exhausted (env : PieceEnv) (g : Globals) (h1 : env.first.rc < 0)
    (h2 : env.second.rc < 0) : (token_to_piece env g).1 = [] := by
  by_cases hl : Loaded g
  · rw [token_to_piece_of_loaded env hl]
    unfold piece_text
    rw [if_pos h1, if_pos h2]
  · unfold token_to_piece
    rw [ensure_loaded_of_not_loaded hl]
    rfl

/-! ## Context parameters -/

theorem rebuild_model_metadata_json_trace (env : MetaEnv) (g : Globals) :
    (rebuild_model_metadata_json env g).trace = g.trace := by
  unfold rebuild_model_metadata_json
  split
  · rfl
  · split <;> rfl

theorem load_model_passes_params (env : LoadEnv) (path : Str) (n_ctx n_threads n_gpu_layers : Int)
    (g : Globals) (hpath : path ≠ []) (m : Handle) (hm : env.model = some m) :
    EngineCall.llama_init_from_model m
        (load_context_params env.default_cparams n_ctx n_threads n_gpu_layers) ∈
      (llamadart_webgpu_load_model env (some path) n_ctx n_threads n_gpu_layers g).2.trace := by
  unfold llamadart_webgpu_load_model
  dsimp only
  have hlen : ¬ path.length = 0 := fun h => hpath (List.length_eq_zero.mp h)
  rw [if_neg hlen, hm]
  dsimp only
  split
  · rw [free_runtime_eq]
    simp [emit, set_error]
  · rw [rebuild_model_metadata_json_trace]
    simp [emit]

theorem load_context_params_bounds (d : context_params) (n_ctx n_threads n_gpu_layers : Int) :
    (load_context_params d n_ctx n_threads n_gpu_layers).n_ctx =
        (if n_ctx > 0 then n_ctx.toNat else d.n_ctx) ∧
      (load_context_params d n_ctx n_threads n_gpu_layers).n_batch =
        (if d.n_batch = 0 ∨
            d.n_batch > (load_context_params d n_ctx n_threads n_gpu_layers).n_ctx then
          min (load_context_params d n_ctx n_threads n_gpu_layers).n_ctx 1024
        else d.n_batch) ∧
      (load_context_params d n_ctx n_threads n_gpu_layers).n_ubatch =
        (if d.n_ubatch = 0 ∨
            d.n_ubatch > (load_context_params d n_ctx n_threads n_gpu_layers).n_batch then
          min (load_context_params d n_ctx n_threads n_gpu_layers).n_batch 512
        else d.n_ubatch) := by
  unfold load_context_params
  dsimp only
  generalize hc2 : (if n_threads > 0 then
      { (if n_ctx > 0 then { d with n_ctx := n_ctx.toNat } else d) with
        n_threads := n_threads, n_threads_batch := n_threads }
    else (if n_ctx > 0 then { d with n_ctx := n_ctx.toNat } else d)) = c2
  have h1 : c2.n_ctx = (if n_ctx > 0 then n_ctx.toNat else d.n_ctx) := by
    subst hc2
    by_cases a : n_ctx > 0 <;> by_cases b : n_threads > 0 <;> simp [a, b]
  have h2 : c2.n_batch = d.n_batch := by
    subst hc2
    by_cases a : n_ctx > 0 <;> by_cases b : n_threads > 0 <;> simp [a, b]
  have h3 : c2.n_ubatch = d.n_ubatch := by
    subst hc2
    by_cases a : n_ctx > 0 <;> by_cases b : n_threads > 0 <;> simp [a, b]
  rw [← h1, ← h2, ← h3]
  by_cases hb : c2.n_batch = 0 ∨ c2.n_batch > c2.n_ctx
  · rw [if_pos hb]
    try dsimp only
    by_cases hu : c2.n_ubatch = 0 ∨ c2.n_ubatch > min c2.n_ctx 1024
    · rw [if_pos hu]
      try dsimp only
      exact ⟨rfl, by rw [if_pos hb], by rw [if_pos hu]⟩
    · rw [if_neg hu]
      try dsimp only
      exact ⟨rfl, by rw [if_pos hb], by rw [if_neg hu]⟩
  · rw [if_neg hb]
    by_cases hu : c2.n_ubatch = 0 ∨ c2.n_ubatch > c2.n_batch
    · rw [if_pos hu]
      try dsimp only
      exact ⟨rfl, by rw [if_neg hb], by rw [if_pos hu]⟩
    · rw [if_neg hu]
      try dsimp only
      exact ⟨rfl, by rw [if_neg hb], by rw [if_neg hu]⟩
/-! ## The error text after each helper -/

theorem ensure_loaded_error (g : Globals) :
    ((ensure_loaded g).1 = true → (ensure_loaded g).2 = g) ∧
      ((ensure_loaded g).1 = false → (ensure_loaded g).2.g_last_error ≠ []) := by
  by_cases h : Loaded g
  · rw [ensure_loaded_of_loaded h]; simp
  · rw [ensure_loaded_of_not_loaded h]; simp [set_error]

theorem end_generation_state_error (g : Globals) :
    (end_generation_state g).g_last_error = g.g_last_error := by
  unfold end_generation_state
  cases h : g.g_active_sampler <;> rfl

theorem free_runtime_error (g : Globals) : (free_runtime g).g_last_error = g.g_last_error := by
  rw [free_runtime_eq]

theorem rebuild_model_metadata_json_error (env : MetaEnv) (g : Globals) :
    (rebuild_model_metadata_json env g).g_last_error = g.g_last_error := by
  unfold rebuild_model_metadata_json
  dsimp only
  split
  · rfl
  · split <;> rfl

theorem release_projector_error (g : Globals) :
    (release_projector g).g_last_error = g.g_last_error := by
  unfold release_projector
  dsimp only
  split <;> rfl

theorem tokenize_text_error (env : TokenizeEnv) (text : Str) (add_special : Bool) (g : Globals) :
    ((tokenize_text env text add_special g).1 = true →
        (tokenize_text env text add_special g).2.2.g_last_error = g.g_last_error) ∧
      ((tokenize_text env text add_special g).1 = false →
        (tokenize_text env text add_special g).2.2.g_last_error ≠ []) := by
  unfold tokenize_text
  dsimp only
  by_cases h : Loaded g
  · rw [ensure_loaded_of_loaded h]
    simp only [Bool.not_true, Bool.false_eq_true, if_false]
    split
    · split <;> simp [set_error, emit]
    · simp [emit]
  · rw [ensure_loaded_of_not_loaded h]
    simp [set_error]

theorem decode_loop_error (decode_rc : Nat → Int) (tokens : List Int) (max_batch : Nat) :
    ∀ (fuel offset i : Nat) (g : Globals),
      ((decode_loop decode_rc tokens max_batch fuel offset i g).1 = true →
          (decode_loop decode_rc tokens max_batch fuel offset i g).2.g_last_error =
            g.g_last_error) ∧
        ((decode_loop decode_rc tokens max_batch fuel offset i g).1 = false →
          (decode_loop decode_rc tokens max_batch fuel offset i g).2.g_last_error ≠ [])
  | 0, _, _, g => by simp [decode_loop]
  | fuel + 1, offset, i, g => by
    unfold decode_loop
    dsimp only
    split
    · split
      · simp [set_error]
      · exact decode_loop_error decode_rc tokens max_batch fuel (offset + max_batch) (i + 1) _
    · simp

theorem decode_tokens_error (n_batch : Nat) (decode_rc : Nat → Int) (tokens : List Int)
    (g : Globals) :
    ((decode_tokens n_batch decode_rc tokens g).1 = true →
        (decode_tokens n_batch decode_rc tokens g).2.g_last_error = g.g_last_error) ∧
      ((decode_tokens n_batch decode_rc tokens g).1 = false →
        (decode_tokens n_batch decode_rc tokens g).2.g_last_error ≠ []) := by
  unfold decode_tokens
  dsimp only
  by_cases h : Loaded g
  · rw [ensure_loaded_of_loaded h]
    simp only [Bool.not_true, Bool.false_eq_true, if_false]
    split
    · simp [set_error]
    · exact decode_loop_error decode_rc tokens _ _ _ _ g
  · rw [ensure_loaded_of_not_loaded h]
    simp [set_error]

theorem decode_multimodal_prompt_error (env : MultimodalEnv) (prompt : Str) (g : Globals) :
    ((decode_multimodal_prompt env prompt g).1 = true →
        (decode_multimodal_prompt env prompt g).2.g_last_error = g.g_last_error) ∧
      ((decode_multimodal_prompt env prompt g).1 = false →
        (decode_multimodal_prompt env prompt g).2.g_last_error ≠ []) := by
  unfold decode_multimodal_prompt
  dsimp only
  split
  · simp [set_error, clear_pending_media]
  · split
    · simp [set_error, clear_pending_media]
    · split
      · split
        · simp [set_error, clear_pending_media, emit]
        · split <;> simp [set_error, clear_pending_media, emit]
      · split <;> simp [set_error, clear_pending_media, emit]

theorem create_sampler_error (env : SamplerEnv) (temp : F32) (top_k : Int)
    (top_p repeat_penalty : F32) (grammar : Option Str) (seed : Nat) (g : Globals) :
    (create_sampler env temp top_k top_p repeat_penalty grammar seed g).2.g_last_error =
      g.g_last_error := by
  unfold create_sampler
  dsimp only
  split
  · rfl
  · split
    · split <;> rfl
    · rfl

theorem begin_generation_sampler_error (env : BeginEnv) (temp : F32) (top_k : Int)
    (top_p repeat_penalty : F32) (grammar : Option Str) (seed : Nat) (g : Globals) :
    ((begin_generation_sampler env temp top_k top_p repeat_penalty grammar seed g).1 = 0 ∧
        (begin_generation_sampler env temp top_k top_p repeat_penalty grammar seed g).2.g_last_error
          = g.g_last_error) ∨
      ((begin_generation_sampler env temp top_k top_p repeat_penalty grammar seed g).1 < 0 ∧
        (begin_generation_sampler env temp top_k top_p repeat_penalty grammar seed g).2.g_last_error
          ≠ []) := by
  have hc := create_sampler_error env.sampler temp top_k top_p repeat_penalty grammar seed g
  unfold begin_generation_sampler
  dsimp only
  split
  · right
    split <;> simp [set_error]
  · left
    exact ⟨rfl, hc⟩

/-! ## The error text after each fallible boundary operation -/

theorem begin_generation_error (env : BeginEnv) (a : GenArgs) (g : Globals) :
    (begin_generation_impl env a g).2.g_last_error ≠ [] ↔ (begin_generation_impl env a g).1 < 0 := by
  unfold begin_generation_impl
  dsimp only
  by_cases hl : Loaded g
  · have hl0 : Loaded { clear_error g with g_last_output := [], g_last_piece := [] } := hl
    rw [ensure_loaded_of_loaded hl0]
    simp only [Bool.not_true, Bool.false_eq_true, if_false]
    cases hp : a.prompt with
    | none => simp [set_error]
    | some prompt_text =>
      dsimp only
      generalize hg1 : emit EngineCall.llama_memory_clear
        { end_generation_state { clear_error g with g_last_output := [], g_last_piece := [] }
            with g_cancel_requested := false } = g1
      have he : g1.g_last_error = [] := by
        subst hg1
        exact end_generation_state_error _
      split
      · obtain ⟨h1, h2⟩ := decode_multimodal_prompt_error env.multimodal prompt_text g1
        split
        · rename_i hd
          simp only [Bool.not_eq_true, Bool.not_eq_eq_eq_not, Bool.not_true] at hd h2
          have h2n : (note_cancel env.cancel_during_decode
              (decode_multimodal_prompt env.multimodal prompt_text g1).2).g_last_error ≠ [] :=
            h2 hd
          simp [h2n]
        · rename_i hd
          simp only [Bool.not_eq_true, Bool.not_eq_eq_eq_not, Bool.not_true,
            Bool.not_eq_false] at hd h1
          have h1n : (note_cancel env.cancel_during_decode
              (decode_multimodal_prompt env.multimodal prompt_text g1).2).g_last_error = [] :=
            (h1 hd).trans he
          rcases begin_generation_sampler_error env
            (if F32.lt a.temp F32.zero then F32.zero else a.temp)
            (if a.top_k < 0 then 0 else a.top_k)
            (if F32.le a.top_p F32.zero || F32.gt a.top_p F32.one then F32.one else a.top_p)
            (if F32.le a.repeat_penalty F32.zero then F32.one else a.repeat_penalty)
            a.grammar a.seed (note_cancel env.cancel_during_decode
              (decode_multimodal_prompt env.multimodal prompt_text g1).2) with
            ⟨h0, h3⟩ | ⟨h0, h3⟩
          · rw [h0, h3, h1n]; simp
          · exact ⟨fun _ => h0, fun _ => h3⟩
      · obtain ⟨h1, h2⟩ := tokenize_text_error env.tokenize prompt_text true g1
        split
        · rename_i hd
          simp only [Bool.not_eq_true, Bool.not_eq_eq_eq_not, Bool.not_true] at hd h2
          simp [h2 hd]
        · rename_i hd
          simp only [Bool.not_eq_true, Bool.not_eq_eq_eq_not, Bool.not_true,
            Bool.not_eq_false] at hd h1
          obtain ⟨h4, h5⟩ := decode_tokens_error env.n_batch env.decode_rc
            (tokenize_text env.tokenize prompt_text true g1).2.1
            (tokenize_text env.tokenize prompt_text true g1).2.2
          split
          · rename_i hd2
            simp only [Bool.not_eq_true, Bool.not_eq_eq_eq_not, Bool.not_true] at hd2 h5
            have h5n : (note_cancel env.cancel_during_decode
                (decode_tokens env.n_batch env.decode_rc
                  (tokenize_text env.tokenize prompt_text true g1).2.1
                  (tokenize_text env.tokenize prompt_text true g1).2.2).2).g_last_error ≠ [] :=
              h5 hd2
            simp [h5n]
          · rename_i hd2
            simp only [Bool.not_eq_true, Bool.not_eq_eq_eq_not, Bool.not_true,
              Bool.not_eq_false] at hd2 h4
            have h4n : (note_cancel env.cancel_during_decode
                (decode_tokens env.n_batch env.decode_rc
                  (tokenize_text env.tokenize prompt_text true g1).2.1
                  (tokenize_text env.tokenize prompt_text true g1).2.2).2).g_last_error = [] :=
              ((h4 hd2).trans (h1 hd)).trans he
            rcases begin_generation_sampler_error env
              (if F32.lt a.temp F32.zero then F32.zero else a.temp)
              (if a.top_k < 0 then 0 else a.top_k)
              (if F32.le a.top_p F32.zero || F32.gt a.top_p F32.one then F32.one else a.top_p)
              (if F32.le a.repeat_penalty F32.zero then F32.one else a.repeat_penalty)
              a.grammar a.seed
              (note_cancel env.cancel_during_decode
                (decode_tokens env.n_batch env.decode_rc
                  (tokenize_text env.tokenize prompt_text true g1).2.1
                  (tokenize_text env.tokenize prompt_text true g1).2.2).2) with
              ⟨h0, h3⟩ | ⟨h0, h3⟩
            · rw [h0, h3, h4n]; simp
            · exact ⟨fun _ => h0, fun _ => h3⟩
  · have hl0 : ¬ Loaded { clear_error g with g_last_output := [], g_last_piece := [] } := hl
    rw [ensure_loaded_of_not_loaded hl0]
    simp [set_error]

theorem next_token_error (env : StepEnv) (g : Globals) :
    (next_token_impl env g).2.g_last_error ≠ [] ↔ (next_token_impl env g).1 < 0 := by
  by_cases hl : Loaded g
  · by_cases ha : SessionActive g
    · cases hc : g.g_cancel_requested
      · cases hs : env.sampled with
        | none =>
          rw [next_token_of_null_sample env hl ha hc hs]
          simp [end_generation_state_error, set_error]
        | some token =>
          cases he : env.is_eog
          · rw [next_token_of_sampled env hl ha hc token hs he]
            split
            · split
              · simp [end_generation_state_error, emit, clear_error]
              · simp [end_generation_state_error, set_error]
            · simp [emit, clear_error]
          · rw [next_token_of_eog env hl ha hc token hs he]
            simp [end_generation_state_error, emit, clear_error]
      · rw [next_token_of_cancel env hl ha hc]
        simp [end_generation_state_error, clear_error]
    · rw [next_token_of_not_active env hl ha]
      simp [set_error]
  · rw [next_token_of_not_loaded env hl]
    simp [set_error]

theorem generate_loop_error (steps : Nat → StepEnv) :
    ∀ (remaining i : Nat) (g : Globals), g.g_last_error = [] →
      ((generate_loop steps remaining i g).2.g_last_error ≠ [] ↔
        (generate_loop steps remaining i g).1 < 0)
  | 0, _, g, h => by
    unfold generate_loop
    simp [end_generation_state_error, h]
  | remaining + 1, i, g, _ => by
    have hn := next_token_error (steps i) g
    unfold generate_loop
    dsimp only
    split
    · rename_i h0
      rw [h0] at hn
      rw [end_generation_state_error]
      simpa using hn
    · split
      · rw [end_generation_state_error]
        exact hn
      · rename_i h0
        have he : (next_token_impl (steps i) g).2.g_last_error = [] := by
          by_contra hc
          exact h0 (hn.mp hc)
        exact generate_loop_error steps remaining (i + 1) _ he

theorem generate_error (env : BeginEnv) (steps : Nat → StepEnv) (a : GenArgs) (n_predict : Int)
    (g : Globals) :
    (llamadart_webgpu_generate env steps a n_predict g).2.g_last_error ≠ [] ↔
      (llamadart_webgpu_generate env steps a n_predict g).1 < 0 := by
  have hb := begin_generation_error env a g
  unfold llamadart_webgpu_generate
  dsimp only
  split
  · exact hb
  · rename_i h0
    have he : (begin_generation_impl env a g).2.g_last_error = [] := by
      by_contra hc
      have := hb.mp hc
      simp only [ne_eq, not_not] at h0
      omega
    exact generate_loop_error steps _ 0 _ he

theorem load_model_error (env : LoadEnv) (model_path : Option Str)
    (n_ctx n_threads n_gpu_layers : Int) (g : Globals) :
    (llamadart_webgpu_load_model env model_path n_ctx n_threads n_gpu_layers g).2.g_last_error ≠ []
      ↔ (llamadart_webgpu_load_model env model_path n_ctx n_threads n_gpu_layers g).1 < 0 := by
  unfold llamadart_webgpu_load_model
  dsimp only
  split
  · simp [set_error]
  · split
    · simp [set_error]
    · split
      · simp [set_error]
      · split
        · simp [set_error, free_runtime_error]
        · simp [rebuild_model_metadata_json_error, emit, free_runtime_error, clear_error]

theorem mmproj_load_error (env : MmprojEnv) (mmproj_path : Option Str) (g : Globals) :
    (llamadart_webgpu_mmproj_load env mmproj_path g).2.g_last_error ≠ [] ↔
      (llamadart_webgpu_mmproj_load env mmproj_path g).1 < 0 := by
  unfold llamadart_webgpu_mmproj_load
  dsimp only
  by_cases hl : Loaded g
  · have hl0 : Loaded (clear_error g) := hl
    rw [ensure_loaded_of_loaded hl0]
    simp only [Bool.not_true, Bool.false_eq_true, if_false]
    split
    · simp [set_error]
    · split
      · simp [set_error]
      · split
        · simp [set_error]
        · simp [emit, release_projector_error, clear_error]
  · have hl0 : ¬ Loaded (clear_error g) := hl
    rw [ensure_loaded_of_not_loaded hl0]
    simp [set_error]

/-- The common start of the media-add operations: not loaded gives -1, no
projector gives -2, both with an error text; otherwise the error text is empty. -/
theorem media_add_guard_cases (g : Globals) :
    (¬ Loaded g ∧ (media_add_guard g).1 = some (-1) ∧ (media_add_guard g).2.g_last_error ≠ []) ∨
      (Loaded g ∧ g.g_state.mm_ctx = none ∧ (media_add_guard g).1 = some (-2) ∧
        (media_add_guard g).2.g_last_error ≠ []) ∨
      (Loaded g ∧ g.g_state.mm_ctx ≠ none ∧ (media_add_guard g).1 = none ∧
        (media_add_guard g).2.g_last_error = []) := by
  unfold media_add_guard
  dsimp only
  by_cases hl : Loaded g
  · have hl0 : Loaded (clear_error g) := hl
    rw [ensure_loaded_of_loaded hl0]
    simp only [Bool.not_true, Bool.false_eq_true, if_false]
    right
    by_cases hm : g.g_state.mm_ctx = none
    · left
      have hm0 : (clear_error g).g_state.mm_ctx = none := hm
      rw [if_pos hm0]
      exact ⟨hl, hm, rfl, by simp [set_error]⟩
    · right
      have hm0 : ¬ (clear_error g).g_state.mm_ctx = none := hm
      rw [if_neg hm0]
      exact ⟨hl, hm, rfl, rfl⟩
  · have hl0 : ¬ Loaded (clear_error g) := hl
    rw [ensure_loaded_of_not_loaded hl0]
    left
    exact ⟨hl, rfl, by simp [set_error]⟩

theorem media_add_file_result (bitmap : Option Handle) (media_path : Option Str) (g : Globals) :
    MediaAddResult g (llamadart_webgpu_media_add_file bitmap media_path g) := by
  unfold MediaAddResult llamadart_webgpu_media_add_file
  dsimp only
  rcases media_add_guard_cases g with ⟨hl, h1, h2⟩ | ⟨hl, hm, h1, h2⟩ | ⟨hl, hm, h1, h2⟩
  · rw [h1]; simp [hl, h2]
  · rw [h1]; simp [hl, hm, h2]
  · rw [h1]
    dsimp only
    split
    · simp [hl, hm, set_error]
    · split <;> simp [hl, hm, set_error, h2]

theorem media_add_encoded_result (bitmap bytes : Option Handle) (length : Int) (g : Globals) :
    MediaAddResult g (llamadart_webgpu_media_add_encoded bitmap bytes length g) := by
  unfold MediaAddResult llamadart_webgpu_media_add_encoded
  dsimp only
  rcases media_add_guard_cases g with ⟨hl, h1, h2⟩ | ⟨hl, hm, h1, h2⟩ | ⟨hl, hm, h1, h2⟩
  · rw [h1]; simp [hl, h2]
  · rw [h1]; simp [hl, hm, h2]
  · rw [h1]
    dsimp only
    split
    · simp [hl, hm, set_error]
    · split <;> simp [hl, hm, set_error, h2]

theorem media_add_rgb_result (bitmap : Option Handle) (width height : Nat)
    (bytes : Option Handle) (length : Int) (g : Globals) :
    MediaAddResult g (llamadart_webgpu_media_add_rgb bitmap width height bytes length g) := by
  unfold MediaAddResult llamadart_webgpu_media_add_rgb
  dsimp only
  rcases media_add_guard_cases g with ⟨hl, h1, h2⟩ | ⟨hl, hm, h1, h2⟩ | ⟨hl, hm, h1, h2⟩
  · rw [h1]; simp [hl, h2]
  · rw [h1]; simp [hl, hm, h2]
  · rw [h1]
    dsimp only
    split
    · simp [hl, hm, set_error]
    · split
      · simp [hl, hm, set_error]
      · split <;> simp [hl, hm, set_error, h2]

theorem media_add_audio_f32_result (bitmap samples : Option Handle) (sample_count : Int)
    (g : Globals) :
    MediaAddResult g (llamadart_webgpu_media_add_audio_f32 bitmap samples sample_count g) := by
  unfold MediaAddResult llamadart_webgpu_media_add_audio_f32
  dsimp only
  rcases media_add_guard_cases g with ⟨hl, h1, h2⟩ | ⟨hl, hm, h1, h2⟩ | ⟨hl, hm, h1, h2⟩
  · rw [h1]; simp [hl, h2]
  · rw [h1]; simp [hl, hm, h2]
  · rw [h1]
    dsimp only
    split
    · simp [hl, hm, set_error]
    · split <;> simp [hl, hm, set_error, h2]

theorem to_int32_of_lt {n : Nat} (h : n < 2 ^ 31) : to_int32 n = (n : Int) := by
  unfold to_int32
  dsimp only
  have h1 : n % 2 ^ 32 = n := Nat.mod_eq_of_lt (by omega)
  rw [h1, if_pos h]

theorem length_resize_tokens (out : List Int) (n : Nat) : (resize_tokens out n).length = n := by
  unfold resize_tokens
  simp

/-- The token count of a successful `tokenize_text` is the return code of the
engine call that succeeded. -/
theorem tokenize_text_length (env : TokenizeEnv) (text : Str) (add_special : Bool) (g : Globals)
    (h : (tokenize_text env text add_special g).1 = true) :
    (tokenize_text env text add_special g).2.1.length = env.first.rc.toNat ∨
      (tokenize_text env text add_special g).2.1.length = env.second.rc.toNat := by
  unfold tokenize_text at h ⊢
  dsimp only at h ⊢
  by_cases hl : Loaded g
  · rw [ensure_loaded_of_loaded hl] at h ⊢
    simp only [Bool.not_true, Bool.false_eq_true, if_false] at h ⊢
    split
    · rename_i h1
      rw [if_pos h1] at h
      split
      · rename_i h2
        rw [if_pos h2] at h
        simp at h
      · right
        exact length_resize_tokens _ _
    · left
      exact length_resize_tokens _ _
  · rw [ensure_loaded_of_not_loaded hl] at h
    simp at h

theorem tokenize_to_json_error (env : TokenizeEnv) (text : Option Str) (add_special : Int)
    (g : Globals) (h1 : env.first.rc < 2 ^ 31) (h2 : env.second.rc < 2 ^ 31) :
    (llamadart_webgpu_tokenize_to_json env text add_special g).2.g_last_error ≠ [] ↔
      (llamadart_webgpu_tokenize_to_json env text add_special g).1 < 0 := by
  unfold llamadart_webgpu_tokenize_to_json
  dsimp only
  cases text with
  | none => simp [set_error]
  | some t =>
    dsimp only
    generalize hg0 : ({ clear_error g with g_last_tokens_json := ['[', ']'] } : Globals) = g0
    have he : g0.g_last_error = [] := by subst hg0; rfl
    generalize decide (add_special ≠ 0) = b
    obtain ⟨e1, e2⟩ := tokenize_text_error env t b g0
    split
    · rename_i hd
      simp only [Bool.not_eq_true, Bool.not_eq_eq_eq_not, Bool.not_true] at hd
      simp [e2 hd]
    · rename_i hd
      simp only [Bool.not_eq_true, Bool.not_eq_eq_eq_not, Bool.not_true,
        Bool.not_eq_false] at hd
      have hlen := tokenize_text_length env t b g0 hd
      have hfit : (tokenize_text env t b g0).2.1.length < 2 ^ 31 := by
        rcases hlen with h | h <;> rw [h] <;> omega
      rw [to_int32_of_lt hfit]
      show ¬ (tokenize_text env t b g0).2.2.g_last_error = [] ↔ _
      rw [e1 hd, he]
      simp

theorem detokenize_loop_error (pieces : Nat → PieceEnv) :
    ∀ (tokens : List Int) (i : Nat) (g : Globals), Loaded g →
      (detokenize_loop pieces tokens i g).g_last_error = g.g_last_error
  | [], _, _, _ => rfl
  | _ :: rest, i, g, hl => by
    unfold detokenize_loop
    dsimp only
    rw [token_to_piece_of_loaded (pieces i) hl]
    exact detokenize_loop_error pieces rest (i + 1) _ hl

theorem detokenize_from_json_error (pieces : Nat → PieceEnv) (token_text : Option Str)
    (special : Int) (g : Globals)
    (hfit : (llamadart_webgpu_detokenize_from_json pieces token_text special
      g).2.g_last_detokenized.length < 2 ^ 31) :
    (llamadart_webgpu_detokenize_from_json pieces token_text special g).2.g_last_error ≠ [] ↔
      (llamadart_webgpu_detokenize_from_json pieces token_text special g).1 < 0 := by
  unfold llamadart_webgpu_detokenize_from_json at hfit ⊢
  dsimp only at hfit ⊢
  by_cases hl : Loaded g
  · have hl0 : Loaded { clear_error g with g_last_detokenized := [] } := hl
    rw [ensure_loaded_of_loaded hl0] at hfit ⊢
    simp only [Bool.not_true, Bool.false_eq_true, if_false] at hfit ⊢
    split
    · simp [clear_error]
    · rename_i ht
      rw [if_neg ht] at hfit
      dsimp only at hfit
      rw [to_int32_of_lt hfit]
      dsimp only
      rw [detokenize_loop_error pieces _ 0 _ hl0]
      simp [clear_error]
  · have hl0 : ¬ Loaded { clear_error g with g_last_detokenized := [] } := hl
    rw [ensure_loaded_of_not_loaded hl0]
    simp [set_error]

theorem load_model_status (env : LoadEnv) (model_path : Option Str)
    (n_ctx n_threads n_gpu_layers : Int) (g : Globals) :
    ((llamadart_webgpu_load_model env model_path n_ctx n_threads n_gpu_layers g).1 = -1 ↔
        (model_path = none ∨ model_path = some [])) ∧
      ((llamadart_webgpu_load_model env model_path n_ctx n_threads n_gpu_layers g).1 = -2 ↔
        (model_path ≠ none ∧ model_path ≠ some [] ∧ env.model = none)) := by
  unfold llamadart_webgpu_load_model
  dsimp only
  cases model_path with
  | none => simp
  | some path =>
    dsimp only
    by_cases hp : path.length = 0
    · rw [if_pos hp]
      have : path = [] := List.length_eq_zero.mp hp
      simp [this]
    · rw [if_neg hp]
      have hne : path ≠ [] := fun h => hp (by rw [h]; rfl)
      cases hm : env.model with
      | none => simp [hne]
      | some m =>
        dsimp only
        cases hc : env.ctx <;> simp [hne]

theorem begin_generation_status (env : BeginEnv) (a : GenArgs) (g : Globals) :
    ((llamadart_webgpu_begin_generation env a g).1 = -1 ↔ ¬ Loaded g) ∧
      ((llamadart_webgpu_begin_generation env a g).1 = -2 ↔ (Loaded g ∧ a.prompt = none)) := by
  unfold llamadart_webgpu_begin_generation
  rcases begin_generation_cases env a g _ rfl with
    ⟨h1, hl, -⟩ | ⟨h1, hl, hp, -⟩ | ⟨hl, hp, -, h⟩
  · rw [h1]; simp [hl]
  · rw [h1]; simp [hl, hp]
  · rcases h with ⟨h1, -⟩ | ⟨h1 | h1 | h1, -⟩ <;> rw [h1] <;> simp [hl, hp]

theorem next_token_status (env : StepEnv) (g : Globals) :
    ((llamadart_webgpu_next_token env g).1 = -1 ↔ ¬ Loaded g) ∧
      ((llamadart_webgpu_next_token env g).1 = -2 ↔ (Loaded g ∧ ¬ SessionActive g)) := by
  unfold llamadart_webgpu_next_token
  rcases next_token_cases env g _ rfl with ⟨h1, hl, -⟩ | ⟨h1, hl, ha, -⟩ | ⟨hl, ha, -, h⟩
  · rw [h1]; simp [hl]
  · rw [h1]; simp [hl, ha]
  · rcases h with ⟨h1, -⟩ | ⟨h1 | h1 | h1, -⟩ <;> rw [h1] <;> simp [hl, ha]

theorem mmproj_load_status (env : MmprojEnv) (mmproj_path : Option Str) (g : Globals) :
    ((llamadart_webgpu_mmproj_load env mmproj_path g).1 = -1 ↔ ¬ Loaded g) ∧
      ((llamadart_webgpu_mmproj_load env mmproj_path g).1 = -2 ↔
        (Loaded g ∧ (mmproj_path = none ∨ mmproj_path = some []))) := by
  unfold llamadart_webgpu_mmproj_load
  dsimp only
  by_cases hl : Loaded g
  · have hl0 : Loaded (clear_error g) := hl
    rw [ensure_loaded_of_loaded hl0]
    simp only [Bool.not_true, Bool.false_eq_true, if_false]
    cases mmproj_path with
    | none => simp [hl]
    | some path =>
      dsimp only
      by_cases hp : path.length = 0
      · rw [if_pos hp]
        have : path = [] := List.length_eq_zero.mp hp
        simp [this, hl]
      · rw [if_neg hp]
        have hne : path ≠ [] := fun h => hp (by rw [h]; rfl)
        split <;> simp [hne, hl]
  · have hl0 : ¬ Loaded (clear_error g) := hl
    rw [ensure_loaded_of_not_loaded hl0]
    simp [hl]

/-! ## The claims -/

/-- C1: with the canonical marker `<__media__>` (returned by the engine, or the
fallback used when the engine returns a null pointer) the output of
`normalize_media_markers(prompt, n)` holds at least `n` markers, counted as
`count_occurrences` counts them, for every prompt and every media count. -/
theorem C1_normalized_prompt_has_enough_markers (prompt : Str) (n : Nat) :
    n ≤ count_occurrences (normalize_media_markers (some MEDIA_MARKER) prompt n) MEDIA_MARKER ∧
      n ≤ count_occurrences (normalize_media_markers none prompt n) MEDIA_MARKER := by
  have key : n ≤ count_scan MEDIA_MARKER
      (fill_missing_markers MEDIA_MARKER (normalize_replacements MEDIA_MARKER prompt) n) 0 := by
    rcases count_fill_missing_markers (normalize_replacements MEDIA_MARKER prompt) n with
      h | ⟨h0, -⟩
    · rw [h]; exact Nat.le_max_left _ _
    · rw [h0]; exact Nat.zero_le _
  constructor
  · rw [normalize_media_markers_eq, count_occurrences_eq _ _ (by decide)]
    exact key
  · rw [normalize_media_markers_eq, count_occurrences_eq _ _ (by decide)]
    exact key

/-- C2: with the canonical marker, `normalize_media_markers` is idempotent for a
fixed media count: normalizing its own output again returns that output. -/
theorem C2_normalize_media_markers_idempotent (prompt : Str) (n : Nat) :
    normalize_media_markers (some MEDIA_MARKER)
        (normalize_media_markers (some MEDIA_MARKER) prompt n) n =
      normalize_media_markers (some MEDIA_MARKER) prompt n ∧
    normalize_media_markers none (normalize_media_markers none prompt n) n =
      normalize_media_markers none prompt n := by
  constructor
  · rw [normalize_media_markers_eq, normalize_media_markers_eq]
    exact normalize_idempotent_canonical prompt n
  · rw [normalize_media_markers_eq, normalize_media_markers_eq]
    exact normalize_idempotent_canonical prompt n

/-- C3: in a state with a loaded model and an active generation, after
`request_cancel()` the next `next_token()` returns 0, leaves the session Idle
and makes no engine call but the release of the sampler chain (so no token is
sampled), whatever the engine would answer; the `next_token()` after that
returns -2. -/
theorem C3_cancel_then_next_token (g : Globals) (hl : Loaded g) (ha : SessionActive g)
    (env1 env2 : StepEnv) :
    (llamadart_webgpu_next_token env1 (llamadart_webgpu_request_cancel g)).1 = 0 ∧
      SessionIdle (llamadart_webgpu_next_token env1 (llamadart_webgpu_request_cancel g)).2 ∧
      (∃ sampler, g.g_active_sampler = some sampler ∧
        (llamadart_webgpu_next_token env1 (llamadart_webgpu_request_cancel g)).2.trace =
          g.trace ++ [EngineCall.llama_sampler_free sampler.handle]) ∧
      (llamadart_webgpu_next_token env2
        (llamadart_webgpu_next_token env1 (llamadart_webgpu_request_cancel g)).2).1 = -2 := by
  have hl1 : Loaded (llamadart_webgpu_request_cancel g) := hl
  have ha1 : SessionActive (llamadart_webgpu_request_cancel g) := ha
  have h1 : llamadart_webgpu_next_token env1 (llamadart_webgpu_request_cancel g) =
      (0, end_generation_state (clear_error (llamadart_webgpu_request_cancel g))) :=
    next_token_of_cancel env1 hl1 ha1 rfl
  rw [h1]
  have hidle := sessionIdle_end_generation_state
    (clear_error (llamadart_webgpu_request_cancel g))
  have hl2 : Loaded (end_generation_state (clear_error (llamadart_webgpu_request_cancel g))) := by
    unfold Loaded
    rw [end_generation_state_g_state]
    exact hl
  refine ⟨rfl, hidle, ?_, ?_⟩
  · obtain ⟨-, hs⟩ := ha
    cases hsm : g.g_active_sampler with
    | none => exact absurd hsm hs
    | some sampler =>
      refine ⟨sampler, rfl, ?_⟩
      rw [end_generation_state_trace]
      show g.trace ++ (match g.g_active_sampler with
        | some sampler => [EngineCall.llama_sampler_free sampler.handle]
        | none => []) = _
      rw [hsm]
  · show (next_token_impl env2 _).1 = -2
    rw [next_token_of_not_active env2 hl2 (not_sessionActive_of_idle hidle)]

/-- Witness of C3 on the state reached by a load and a begin of generation. -/
theorem C3_cancel_then_next_token_witness :
    (llamadart_webgpu_next_token demo_step_env
        (llamadart_webgpu_request_cancel demo_active)).1 = 0 ∧
      SessionIdle (llamadart_webgpu_next_token demo_step_env
        (llamadart_webgpu_request_cancel demo_active)).2 ∧
      (∃ sampler, demo_active.g_active_sampler = some sampler ∧
        (llamadart_webgpu_next_token demo_step_env
            (llamadart_webgpu_request_cancel demo_active)).2.trace =
          demo_active.trace ++ [EngineCall.llama_sampler_free sampler.handle]) ∧
      (llamadart_webgpu_next_token demo_step_env
        (llamadart_webgpu_next_token demo_step_env
          (llamadart_webgpu_request_cancel demo_active)).2).1 = -2 :=
  C3_cancel_then_next_token demo_active (by unfold Loaded; decide)
    (by unfold SessionActive; decide) demo_step_env demo_step_env

/-- C4, as stated, fails: in the initial state no generation is active and no
model is loaded, and `next_token()` returns -1, not -2. -/
theorem C4_counterexample :
    ¬ SessionActive initial_state ∧
      (llamadart_webgpu_next_token demo_step_env initial_state).1 = -1 ∧
      (llamadart_webgpu_next_token demo_step_env initial_state).1 ≠ -2 := by
  refine ⟨?_, ?_, ?_⟩
  · unfold SessionActive; decide
  · decide
  · decide

/-- C4, amended: when no generation is active, `next_token()` returns -2 if a
model is loaded and -1 if none is, and in both cases the accumulated output is
unchanged. -/
theorem C4_next_token_without_session (env : StepEnv) (g : Globals)
    (h : ¬ SessionActive g) :
    (Loaded g → (llamadart_webgpu_next_token env g).1 = -2) ∧
      (¬ Loaded g → (llamadart_webgpu_next_token env g).1 = -1) ∧
      (llamadart_webgpu_next_token env g).2.g_last_output = g.g_last_output := by
  refine ⟨?_, ?_, ?_⟩
  · intro hl
    show (next_token_impl env g).1 = -2
    rw [next_token_of_not_active env hl h]
  · intro hl
    show (next_token_impl env g).1 = -1
    rw [next_token_of_not_loaded env hl]
  · show (next_token_impl env g).2.g_last_output = _
    by_cases hl : Loaded g
    · rw [next_token_of_not_active env hl h]; rfl
    · rw [next_token_of_not_loaded env hl]; rfl

/-- Witness of the amended C4 on a loaded state without a generation. -/
theorem C4_next_token_without_session_witness :
    (Loaded demo_loaded → (llamadart_webgpu_next_token demo_step_env demo_loaded).1 = -2) ∧
      (¬ Loaded demo_loaded →
        (llamadart_webgpu_next_token demo_step_env demo_loaded).1 = -1) ∧
      (llamadart_webgpu_next_token demo_step_env demo_loaded).2.g_last_output =
        demo_loaded.g_last_output :=
  C4_next_token_without_session demo_step_env demo_loaded (by unfold SessionActive; decide)

/-- C5: in every reachable state and for every engine behaviour, after
`next_token()` the session is Active exactly when the call returned 1; any
other return value leaves it Idle with no sampler held; so the session is
always either Active or Idle. -/
theorem C5_session_active_iff_produced (g : Globals) (hr : Reachable g) (env : StepEnv) :
    (SessionActive (llamadart_webgpu_next_token env g).2 ↔
        (llamadart_webgpu_next_token env g).1 = 1) ∧
      ((llamadart_webgpu_next_token env g).1 ≠ 1 →
        SessionIdle (llamadart_webgpu_next_token env g).2) ∧
      (SessionActive (llamadart_webgpu_next_token env g).2 ∨
        SessionIdle (llamadart_webgpu_next_token env g).2) := by
  have hinv := hr.sessionInv
  have idle_of_not : ¬ (Loaded g ∧ SessionActive g) → SessionIdle g := by
    intro hn
    obtain ⟨hiff, himp⟩ := hinv
    unfold SessionIdle
    cases hflag : g.g_generation_active with
    | false =>
      refine ⟨rfl, ?_⟩
      by_contra hs
      have := hiff.mpr hs
      rw [hflag] at this
      exact absurd this (by decide)
    | true => exact absurd ⟨himp hflag, hflag, hiff.mp hflag⟩ hn
  show (SessionActive (next_token_impl env g).2 ↔ (next_token_impl env g).1 = 1) ∧
    ((next_token_impl env g).1 ≠ 1 → SessionIdle (next_token_impl env g).2) ∧
    (SessionActive (next_token_impl env g).2 ∨ SessionIdle (next_token_impl env g).2)
  rcases next_token_cases env g _ rfl with ⟨h1, hl, hf⟩ | ⟨h2, hl, ha, hf⟩ | ⟨hl, ha, -, h⟩
  · have hidle : SessionIdle (next_token_impl env g).2 :=
      (idle_of_not (fun hh => hl hh.1)).of_frame hf
    refine ⟨⟨fun hact => absurd hact (not_sessionActive_of_idle hidle), fun h => ?_⟩,
      fun _ => hidle, Or.inr hidle⟩
    rw [h1] at h; exact absurd h (by decide)
  · have hidle : SessionIdle (next_token_impl env g).2 :=
      (idle_of_not (fun hh => ha hh.2)).of_frame hf
    refine ⟨⟨fun hact => absurd hact (not_sessionActive_of_idle hidle), fun h => ?_⟩,
      fun _ => hidle, Or.inr hidle⟩
    rw [h2] at h; exact absurd h (by decide)
  · rcases h with ⟨h1, hflag, hsm⟩ | ⟨hrc, hidle⟩
    · have hact : SessionActive (next_token_impl env g).2 := by
        unfold SessionActive at *
        rw [hflag, hsm]; exact ha
      exact ⟨⟨fun _ => h1, fun _ => hact⟩, fun hne => absurd h1 hne, Or.inl hact⟩
    · refine ⟨⟨fun hact => absurd hact (not_sessionActive_of_idle hidle), fun h => ?_⟩,
        fun _ => hidle, Or.inr hidle⟩
      rcases hrc with h0 | h3 | h4
      · rw [h0] at h; exact absurd h (by decide)
      · rw [h3] at h; exact absurd h (by decide)
      · rw [h4] at h; exact absurd h (by decide)

/-- Witness of C5 on the state reached by a load and a begin of generation. -/
theorem C5_session_active_iff_produced_witness :
    (SessionActive (llamadart_webgpu_next_token demo_step_env demo_active).2 ↔
        (llamadart_webgpu_next_token demo_step_env demo_active).1 = 1) ∧
      ((llamadart_webgpu_next_token demo_step_env demo_active).1 ≠ 1 →
        SessionIdle (llamadart_webgpu_next_token demo_step_env demo_active).2) ∧
      (SessionActive (llamadart_webgpu_next_token demo_step_env demo_active).2 ∨
        SessionIdle (llamadart_webgpu_next_token demo_step_env demo_active).2) :=
  C5_session_active_iff_produced demo_active
    (Reachable.step _ (Reachable.step _ Reachable.init)) demo_step_env

/-- C6, failing input: in the reachable state `demo_active` (a model is loaded
and a generation is active) `begin_generation` with a null prompt returns -2
and the session is still Active afterwards, with its sampler chain held and its
accumulated output cleared: the early return precedes `end_generation_state`. -/
theorem C6_null_prompt_keeps_session_active :
    Reachable demo_active ∧ SessionActive demo_active ∧
      (llamadart_webgpu_begin_generation demo_begin_env (demo_args none) demo_active).1 = -2 ∧
      SessionActive
        (llamadart_webgpu_begin_generation demo_begin_env (demo_args none) demo_active).2 ∧
      ¬ SessionIdle
        (llamadart_webgpu_begin_generation demo_begin_env (demo_args none) demo_active).2 := by
  refine ⟨Reachable.step _ (Reachable.step _ Reachable.init), ?_, ?_, ?_, ?_⟩
  · unfold SessionActive; decide
  · decide
  · unfold SessionActive; decide
  · unfold SessionIdle; decide

/-- C7, as stated, fails: `end_generation()` on the reachable state
`demo_produced`, whose accumulated output is `Hi`, leaves that output in place. -/
theorem C7_counterexample :
    demo_produced.g_last_output = ['H', 'i'] ∧
      (llamadart_webgpu_end_generation demo_produced).g_last_output = ['H', 'i'] ∧
      (llamadart_webgpu_end_generation demo_produced).g_last_output ≠ [] := by
  refine ⟨?_, ?_, ?_⟩ <;> decide

/-- C7, amended: from every state, `end_generation()` releases the sampler chain
if one is held (and makes no other engine call), clears the last fragment,
resets the cancellation flag and leaves the session Idle; the accumulated
output and the runtime handles are unchanged. -/
theorem C7_end_generation (g : Globals) :
    SessionIdle (llamadart_webgpu_end_generation g) ∧
      (llamadart_webgpu_end_generation g).trace =
        g.trace ++ (match g.g_active_sampler with
          | some sampler => [EngineCall.llama_sampler_free sampler.handle]
          | none => []) ∧
      (llamadart_webgpu_end_generation g).g_last_piece = [] ∧
      (llamadart_webgpu_end_generation g).g_cancel_requested = false ∧
      (llamadart_webgpu_end_generation g).g_last_output = g.g_last_output ∧
      (llamadart_webgpu_end_generation g).g_state = g.g_state :=
  ⟨sessionIdle_end_generation_state g, end_generation_state_trace g,
    end_generation_state_last_piece g, end_generation_state_cancel g,
    end_generation_state_last_output g, end_generation_state_g_state g⟩

/-- C8, failing input: in the reachable state `demo_active` the fused
`generate` with a null prompt returns -2 and the session is still Active with
its sampler chain held: `generate` returns the failure of
`begin_generation_impl` without calling `end_generation_state`. -/
theorem C8_generate_null_prompt_keeps_session_active :
    Reachable demo_active ∧
      (llamadart_webgpu_generate demo_begin_env (fun _ => demo_step_env) (demo_args none) 4
        demo_active).1 = -2 ∧
      SessionActive (llamadart_webgpu_generate demo_begin_env (fun _ => demo_step_env)
        (demo_args none) 4 demo_active).2 ∧
      ¬ SessionIdle (llamadart_webgpu_generate demo_begin_env (fun _ => demo_step_env)
        (demo_args none) 4 demo_active).2 := by
  refine ⟨Reachable.step _ (Reachable.step _ Reachable.init), ?_, ?_, ?_⟩
  · decide
  · unfold SessionActive; decide
  · unfold SessionIdle; decide

/-- C9, failing input: with a model and a projector loaded,
`add_media_rgb(65536, 21846, bytes, 131072)` returns 0 and appends the bitmap,
although `65536 * 21846 * 3` is `2 ^ 32 + 131072`: the product wraps in the
32-bit `size_t`. -/
theorem C9_rgb_size_check_wraps :
    Reachable demo_projector ∧
      (llamadart_webgpu_media_add_rgb (some 9) 65536 21846 (some 10) 131072
        demo_projector).1 = 0 ∧
      (llamadart_webgpu_media_add_rgb (some 9) 65536 21846 (some 10) 131072
        demo_projector).2.g_pending_media = demo_projector.g_pending_media ++ [some 9] ∧
      (131072 : Int) ≠ 65536 * 21846 * 3 := by
  refine ⟨Reachable.step _ (Reachable.step _ Reachable.init), ?_, ?_, ?_⟩ <;> decide

/-- C10, as stated, fails: `load_model` with a null path on the reachable state
`demo_cancelled` (accumulated output `Hi`, cancellation requested) returns -1
but clears the accumulated output and resets the cancellation flag. -/
theorem C10_counterexample :
    (llamadart_webgpu_load_model demo_load_env none 0 0 0 demo_cancelled).1 = -1 ∧
      demo_cancelled.g_last_output = ['H', 'i'] ∧
      (llamadart_webgpu_load_model demo_load_env none 0 0 0 demo_cancelled).2.g_last_output
        = [] ∧
      demo_cancelled.g_cancel_requested = true ∧
      (llamadart_webgpu_load_model demo_load_env none 0 0 0
        demo_cancelled).2.g_cancel_requested = false := by
  refine ⟨?_, ?_, ?_, ?_, ?_⟩ <;> decide

/-- C10, amended: `load_model` with a null or empty path returns -1 and changes
three globals only: the last error is set, the accumulated output is cleared
and the cancellation flag is reset. The model, context, vocabulary, projector,
pending media, active flag and sampler chain, and every other global, are
unchanged, and no engine call is made. -/
theorem C10_load_model_empty_path (env : LoadEnv) (model_path : Option Str)
    (n_ctx n_threads n_gpu_layers : Int) (g : Globals)
    (h : model_path = none ∨ model_path = some []) :
    llamadart_webgpu_load_model env model_path n_ctx n_threads n_gpu_layers g =
      (-1, { g with
        g_last_error := "Model path is empty".toList
        g_last_output := []
        g_cancel_requested := false }) := by
  unfold llamadart_webgpu_load_model
  rcases h with h | h <;> subst h <;> rfl

/-- Witness of the amended C10 on a state with an active generation. -/
theorem C10_load_model_empty_path_witness :
    llamadart_webgpu_load_model demo_load_env (some []) 0 0 0 demo_cancelled =
      (-1, { demo_cancelled with
        g_last_error := "Model path is empty".toList
        g_last_output := []
        g_cancel_requested := false }) :=
  C10_load_model_empty_path demo_load_env (some []) 0 0 0 demo_cancelled (Or.inr rfl)

/-! ## Pending media after prompt ingestion -/

theorem decode_multimodal_prompt_pending (env : MultimodalEnv) (prompt : Str) (g : Globals) :
    (decode_multimodal_prompt env prompt g).2.g_pending_media = [] := by
  unfold decode_multimodal_prompt
  dsimp only
  split
  · rfl
  · split
    · rfl
    · split
      · rfl
      · split <;> rfl

theorem create_sampler_pending (env : SamplerEnv) (temp : F32) (top_k : Int)
    (top_p repeat_penalty : F32) (grammar : Option Str) (seed : Nat) (g : Globals) :
    (create_sampler env temp top_k top_p repeat_penalty grammar seed g).2.g_pending_media =
      g.g_pending_media := by
  unfold create_sampler
  dsimp only
  split
  · rfl
  · split
    · split <;> rfl
    · rfl

theorem begin_generation_sampler_pending (env : BeginEnv) (temp : F32) (top_k : Int)
    (top_p repeat_penalty : F32) (grammar : Option Str) (seed : Nat) (g : Globals) :
    (begin_generation_sampler env temp top_k top_p repeat_penalty grammar seed g).2.g_pending_media
      = g.g_pending_media := by
  have hc := create_sampler_pending env.sampler temp top_k top_p repeat_penalty grammar seed g
  unfold begin_generation_sampler
  dsimp only
  split
  · split <;> exact hc
  · exact hc

theorem end_generation_state_pending (g : Globals) :
    (end_generation_state g).g_pending_media = g.g_pending_media := by
  unfold end_generation_state
  cases h : g.g_active_sampler <;> rfl

/-! ## The metadata adapter under the length-reporting convention -/

theorem c_str_append_nul (x : Str) (h : Char.ofNat 0 ∉ x) : c_str (x ++ [Char.ofNat 0]) = x := by
  unfold c_str
  induction x with
  | nil => simp [List.takeWhile]
  | cons c cs ih =>
    have hc : c ≠ Char.ofNat 0 := fun e => h (by rw [e]; exact List.mem_cons_self _ _)
    have hcs : Char.ofNat 0 ∉ cs := fun e => h (List.mem_cons_of_mem _ e)
    rw [List.cons_append, List.takeWhile_cons_of_pos (by simpa using hc), ih hcs]

theorem not_mem_take {x : Str} {c : Char} (h : c ∉ x) (k : Nat) : c ∉ x.take k :=
  fun e => h (List.mem_of_mem_take e)

/-- Every run of the attempt loop makes at most as many engine calls as it has
attempts left. -/
theorem read_model_meta_loop_calls (call : Nat → Nat → Int × Str) :
    ∀ (remaining attempt buf_size : Nat),
      (read_model_meta_loop call remaining attempt buf_size).2 ≤ remaining
  | 0, _, _ => by simp [read_model_meta_loop]
  | remaining + 1, attempt, buf_size => by
    unfold read_model_meta_loop
    dsimp only
    split
    · have := read_model_meta_loop_calls call remaining (attempt + 1) (buf_size * 2 % SIZE_MOD)
      simp only [ge_iff_le]
      omega
    · split
      · have := read_model_meta_loop_calls call remaining (attempt + 1)
          (((call attempt buf_size).1.toNat + 1) % SIZE_MOD)
        simp only [ge_iff_le]
        omega
      · simp

/-- Under the length-reporting convention the loop returns the stored string
after one call when it fits the buffer, and after two calls otherwise. -/
theorem read_model_meta_loop_reporting (call : Nat → Nat → Int × Str) (s : Str)
    (hconv : LengthReporting call s) (hnul : Char.ofNat 0 ∉ s) (hlen : s.length < 2 ^ 31)
    (remaining attempt buf_size : Nat) :
    read_model_meta_loop call (remaining + 2) attempt buf_size =
      (s, if s.length < buf_size then 1 else 2) := by
  have hcall : ∀ a cap, s.length < cap → call a cap = ((s.length : Int), s) := by
    intro a cap hc
    rw [hconv a cap, c_str_append_nul _ (not_mem_take hnul _)]
    have : min s.length (cap - 1) = s.length := by omega
    rw [this, List.take_length]
  have hfst : ∀ a cap, (call a cap).1 = (s.length : Int) := by
    intro a cap
    rw [hconv a cap]
  have hneg : ∀ a cap, ¬ (call a cap).1 < 0 := by
    intro a cap
    rw [hfst]
    omega
  have htn : ∀ a cap, (call a cap).1.toNat = s.length := by
    intro a cap
    rw [hfst]
    exact Int.toNat_ofNat _
  unfold read_model_meta_loop
  dsimp only
  rw [if_neg (hneg _ _), htn]
  by_cases hfit : s.length < buf_size
  · rw [if_neg (by omega), if_pos hfit, hcall _ _ hfit]
  · rw [if_pos (by omega), if_neg hfit]
    have hmod : (s.length + 1) % SIZE_MOD = s.length + 1 := by
      unfold SIZE_MOD
      exact Nat.mod_eq_of_lt (by omega)
    rw [hmod]
    unfold read_model_meta_loop
    dsimp only
    rw [if_neg (hneg _ _), htn, if_neg (by omega), hcall _ _ (by omega)]

theorem demo_long_key_length : demo_long_key.length = 2000 := by
  unfold demo_long_key
  exact List.length_replicate _ _

theorem demo_long_key_no_nul : Char.ofNat 0 ∉ demo_long_key := by
  unfold demo_long_key
  intro h
  exact absurd (List.eq_of_mem_replicate h) (by decide)
/-! ## The sampler chain -/

theorem top_p_clamp_eq (p : F32) (h : p ≠ F32.nan) :
    (if F32.le p F32.zero || F32.gt p F32.one then F32.one else p) = stated_top_p p := by
  unfold stated_top_p
  cases p with
  | nan => exact absurd rfl h
  | neg_inf => rfl
  | pos_inf => rfl
  | fin m e =>
    have key : (F32.le (F32.fin m e) F32.zero || F32.gt (F32.fin m e) F32.one) =
        !(F32.lt F32.zero (F32.fin m e) && F32.le (F32.fin m e) F32.one) := by
      simp only [F32.le, F32.gt, F32.lt, F32.eq, F32.zero, F32.one, F32.align]
      simp only [min_comm 0 e, zero_mul, one_mul]
      generalize m * 2 ^ (e - min e 0).toNat = A
      generalize (2 : Int) ^ (0 - min e 0).toNat = B
      rw [Bool.eq_iff_iff]
      simp only [Bool.or_eq_true, Bool.and_eq_true, Bool.not_eq_true', decide_eq_true_eq,
        Bool.and_eq_false_imp, Bool.or_eq_false_iff, decide_eq_false_iff_not]
      omega
    rw [key]
    cases hc : (F32.lt F32.zero (F32.fin m e) && F32.le (F32.fin m e) F32.one) <;> simp

/-- The top-p stage built from the value that the code clamps is the stage
built from the value clamped as the specification states, also for NaN. -/
theorem top_p_stage_eq (p : F32) :
    (if F32.lt (if F32.le p F32.zero || F32.gt p F32.one then F32.one else p) F32.one then
        [SamplerStage.top_p (if F32.le p F32.zero || F32.gt p F32.one then F32.one else p) 1]
      else []) =
      (if F32.lt (stated_top_p p) F32.one then [SamplerStage.top_p (stated_top_p p) 1]
        else []) := by
  by_cases h : p = F32.nan
  · subst h
    rfl
  · rw [top_p_clamp_eq p h]

/-- The stages of a chain that `create_sampler` returns. -/
theorem create_sampler_stages (env : SamplerEnv) (temp : F32) (top_k : Int)
    (top_p repeat_penalty : F32) (grammar : Option Str) (seed : Nat) (g : Globals)
    (sampler : Sampler)
    (h : (create_sampler env temp top_k top_p repeat_penalty grammar seed g).1 = some sampler) :
    env.chain = some sampler.handle ∧
      (grammar_given grammar = true → env.grammar_sampler ≠ none) ∧
      sampler.stages =
        (if F32.ne repeat_penalty F32.one then
            [SamplerStage.penalties 64 repeat_penalty F32.zero F32.zero] else []) ++
          (if top_k > 0 then [SamplerStage.top_k top_k] else []) ++
          (if F32.lt top_p F32.one then [SamplerStage.top_p top_p 1] else []) ++
          (match env.grammar_sampler with
            | some h =>
              if grammar_given grammar then [SamplerStage.grammar h (grammar.getD [])] else []
            | none => []) ++
          [SamplerStage.temp temp, SamplerStage.dist seed] := by
  unfold create_sampler at h
  dsimp only at h
  cases hc : env.chain with
  | none =>
    rw [hc] at h
    simp at h
  | some chain =>
    rw [hc] at h
    dsimp only at h
    cases hg : grammar_given grammar with
    | false =>
      rw [hg] at h
      simp only [Bool.false_eq_true, if_false, Option.some.injEq] at h
      subst h
      refine ⟨rfl, by simp, ?_⟩
      cases env.grammar_sampler <;>
        by_cases h1 : F32.ne repeat_penalty F32.one = true <;> by_cases h2 : top_k > 0 <;>
        by_cases h3 : F32.lt top_p F32.one = true <;> simp [h1, h2, h3]
    | true =>
      rw [hg] at h
      simp only [if_true] at h
      cases hs : env.grammar_sampler with
      | none =>
        rw [hs] at h
        simp at h
      | some gs =>
        rw [hs] at h
        simp only [Option.some.injEq] at h
        subst h
        refine ⟨rfl, by simp, ?_⟩
        by_cases h1 : F32.ne repeat_penalty F32.one = true <;> by_cases h2 : top_k > 0 <;>
          by_cases h3 : F32.lt top_p F32.one = true <;> simp [h1, h2, h3]

/-- A grammar that the engine rejects makes `create_sampler` return null. -/
theorem create_sampler_rejected (env : SamplerEnv) (temp : F32) (top_k : Int)
    (top_p repeat_penalty : F32) (grammar : Option Str) (seed : Nat) (g : Globals)
    (hg : grammar_given grammar = true) (hs : env.grammar_sampler = none) :
    (create_sampler env temp top_k top_p repeat_penalty grammar seed g).1 = none := by
  unfold create_sampler
  dsimp only
  cases hc : env.chain with
  | none => rfl
  | some chain =>
    dsimp only
    rw [hg, hs]
    rfl

theorem begin_generation_sampler_result (env : BeginEnv) (temp : F32) (top_k : Int)
    (top_p repeat_penalty : F32) (grammar : Option Str) (seed : Nat) (g : Globals) :
    ((begin_generation_sampler env temp top_k top_p repeat_penalty grammar seed g).1 = 0 ∧
        (create_sampler env.sampler temp top_k top_p repeat_penalty grammar seed g).1 ≠ none ∧
        (begin_generation_sampler env temp top_k top_p repeat_penalty grammar seed
          g).2.g_active_sampler =
          (create_sampler env.sampler temp top_k top_p repeat_penalty grammar seed g).1) ∨
      ((begin_generation_sampler env temp top_k top_p repeat_penalty grammar seed g).1 = -5 ∧
        (create_sampler env.sampler temp top_k top_p repeat_penalty grammar seed g).1 = none) := by
  unfold begin_generation_sampler
  dsimp only
  split
  · rename_i h
    right
    split <;> exact ⟨rfl, h⟩
  · rename_i h
    left
    exact ⟨rfl, h, rfl⟩

/-- The outcomes of `begin_generation_impl`: one of the codes -1 to -4, or the
result of the sampler construction on the clamped parameters. -/
theorem begin_generation_shape (env : BeginEnv) (a : GenArgs) (g : Globals) :
    ((begin_generation_impl env a g).1 = -1 ∨ (begin_generation_impl env a g).1 = -2 ∨
        (begin_generation_impl env a g).1 = -3 ∨ (begin_generation_impl env a g).1 = -4) ∨
      ∃ g2, begin_generation_impl env a g =
        begin_generation_sampler env
          (if F32.lt a.temp F32.zero then F32.zero else a.temp)
          (if a.top_k < 0 then 0 else a.top_k)
          (if F32.le a.top_p F32.zero || F32.gt a.top_p F32.one then F32.one else a.top_p)
          (if F32.le a.repeat_penalty F32.zero then F32.one else a.repeat_penalty)
          a.grammar a.seed g2 := by
  unfold begin_generation_impl
  dsimp only
  split
  · exact Or.inl (Or.inl rfl)
  · cases hp : a.prompt with
    | none => exact Or.inl (Or.inr (Or.inl rfl))
    | some prompt_text =>
      dsimp only
      split
      · split
        · exact Or.inl (Or.inr (Or.inr (Or.inl rfl)))
        · exact Or.inr ⟨_, rfl⟩
      · split
        · exact Or.inl (Or.inr (Or.inr (Or.inl rfl)))
        · split
          · exact Or.inl (Or.inr (Or.inr (Or.inr rfl)))
          · exact Or.inr ⟨_, rfl⟩
/-! ## The batches of `decode_tokens` -/

theorem batch_limit_pos (n_batch : Nat) : 1 ≤ (batch_limit n_batch).toNat := by
  unfold batch_limit
  split
  · decide
  · omega

/-- The slices that the loop of `decode_tokens` passes to `llama_decode` from
`offset` on. -/
theorem decode_loop_slices (decode_rc : Nat → Int) (tokens : List Int) (b : Nat) (hb : 1 ≤ b) :
    ∀ (fuel offset i : Nat) (g : Globals), tokens.length ≤ offset + fuel →
      ∃ slices : List (List Int),
        (decode_loop decode_rc tokens b fuel offset i g).2.trace =
          g.trace ++ slices.map EngineCall.llama_decode ∧
        (∀ s ∈ slices, 1 ≤ s.length ∧ s.length ≤ b) ∧
        (∀ s ∈ slices.dropLast, s.length = b) ∧
        slices.flatten <+: tokens.drop offset ∧
        (∀ j, j + 1 < slices.length → decode_rc (i + j) = 0) ∧
        ((decode_loop decode_rc tokens b fuel offset i g).1 = true →
          slices.flatten = tokens.drop offset ∧
            ∀ j, j < slices.length → decode_rc (i + j) = 0) ∧
        ((decode_loop decode_rc tokens b fuel offset i g).1 = false →
          slices ≠ [] ∧ decode_rc (i + (slices.length - 1)) ≠ 0)
  | 0, offset, i, g, hf => by
    have hd : tokens.drop offset = [] := List.drop_eq_nil_of_le (by omega)
    refine ⟨[], ?_, ?_, ?_, ?_, ?_, ?_, ?_⟩
    · simp [decode_loop]
    · simp
    · simp
    · simp
    · simp
    · intro _
      simp [hd]
    · intro h
      simp [decode_loop] at h
  | fuel + 1, offset, i, g, hf => by
    unfold decode_loop
    dsimp only
    by_cases hlt : offset < tokens.length
    · rw [if_pos hlt]
      have hcount1 : 1 ≤ min (tokens.length - offset) b := by
        rw [Nat.le_min]; omega
      have hcountb : min (tokens.length - offset) b ≤ b := Nat.min_le_right _ _
      have hslen : ((tokens.drop offset).take (min (tokens.length - offset) b)).length =
          min (tokens.length - offset) b := by
        rw [List.length_take, List.length_drop]
        omega
      have hsplit : tokens.drop offset =
          (tokens.drop offset).take (min (tokens.length - offset) b) ++
            tokens.drop (offset + b) := by
        by_cases hc : b ≤ tokens.length - offset
        · rw [Nat.min_eq_right hc]
          have : tokens.drop (offset + b) = (tokens.drop offset).drop b := by
            rw [List.drop_drop, Nat.add_comm]
          rw [this, List.take_append_drop]
        · have h1 : min (tokens.length - offset) b = tokens.length - offset := by omega
          have h2 : tokens.drop (offset + b) = [] := List.drop_eq_nil_of_le (by omega)
          rw [h1, h2, List.append_nil]
          symm
          apply List.take_of_length_le
          rw [List.length_drop]
      by_cases hrc : decode_rc i ≠ 0
      · rw [if_pos hrc]
        refine ⟨[(tokens.drop offset).take (min (tokens.length - offset) b)],
          ?_, ?_, ?_, ?_, ?_, ?_, ?_⟩
        · simp [set_error, emit]
        · intro s hs
          rw [List.mem_singleton] at hs
          rw [hs, hslen]
          exact ⟨hcount1, hcountb⟩
        · simp
        · simp only [List.flatten_cons, List.flatten_nil, List.append_nil]
          exact List.take_prefix _ _
        · intro j hj
          simp at hj
        · intro h
          simp at h
        · intro _
          exact ⟨by simp, by simpa using hrc⟩
      · rw [if_neg hrc]
        have hrc0 : decode_rc i = 0 := by
          by_contra hne
          exact hrc hne
        obtain ⟨slices, htr, hmem, hlast, hpre, hidx, hok, hfail⟩ :=
          decode_loop_slices decode_rc tokens b hb fuel (offset + b) (i + 1)
            (emit (EngineCall.llama_decode
              ((tokens.drop offset).take (min (tokens.length - offset) b))) g) (by omega)
        refine ⟨(tokens.drop offset).take (min (tokens.length - offset) b) :: slices,
          ?_, ?_, ?_, ?_, ?_, ?_, ?_⟩
        · rw [htr]
          simp [emit]
        · intro s hs
          rcases List.mem_cons.mp hs with hs | hs
          · rw [hs, hslen]
            exact ⟨hcount1, hcountb⟩
          · exact hmem s hs
        · intro s hs
          cases hsl : slices with
          | nil =>
            rw [hsl] at hs
            simp at hs
          | cons x xs =>
            rw [hsl, List.dropLast_cons₂] at hs
            rcases List.mem_cons.mp hs with hs | hs
            · have hx : x ∈ slices := by rw [hsl]; exact List.mem_cons_self _ _
              have hx1 := (hmem x hx).1
              have hne : tokens.drop (offset + b) ≠ [] := by
                intro he
                rw [he, hsl, List.flatten_cons] at hpre
                have := List.prefix_nil.mp hpre
                have hxn : x = [] := (List.append_eq_nil.mp this).1
                rw [hxn] at hx1
                simp at hx1
              have hlen : offset + b < tokens.length := by
                by_contra hge
                exact hne (List.drop_eq_nil_of_le (by omega))
              rw [hs, hslen]
              omega
            · apply hlast
              rw [hsl]
              exact hs
        · rw [List.flatten_cons]
          have hp := (List.prefix_append_right_inj
            ((tokens.drop offset).take (min (tokens.length - offset) b))).mpr hpre
          rw [← hsplit] at hp
          exact hp
        · intro j hj
          cases j with
          | zero => exact hrc0
          | succ k =>
            have := hidx k (by simpa using hj)
            rw [← this]
            congr 1
            omega
        · intro h
          obtain ⟨h1, h2⟩ := hok h
          constructor
          · rw [List.flatten_cons, h1]
            exact hsplit.symm
          · intro j hj
            cases j with
            | zero => exact hrc0
            | succ k =>
              have := h2 k (by simpa using hj)
              rw [← this]
              congr 1
              omega
        · intro h
          obtain ⟨h1, h2⟩ := hfail h
          refine ⟨by simp, ?_⟩
          have hpos : 0 < slices.length := List.length_pos.mpr h1
          have e : i + ((((tokens.drop offset).take (min (tokens.length - offset) b)) ::
              slices).length - 1) = i + 1 + (slices.length - 1) := by
            simp only [List.length_cons]
            omega
          rw [e]
          exact h2
    · rw [if_neg hlt]
      have hd : tokens.drop offset = [] := List.drop_eq_nil_of_le (by omega)
      refine ⟨[], ?_, ?_, ?_, ?_, ?_, ?_, ?_⟩
      · simp
      · simp
      · simp
      · simp
      · simp
      · intro _
        simp [hd]
      · intro h
        simp at h
/-! ## Token lists as text -/

theorem digit_char_facts : ∀ k, k < 10 →
    (Char.ofNat (48 + k)).isDigit = true ∧ (Char.ofNat (48 + k)).toNat - 48 = k := by
  decide

/-- The digits that `std::to_string` writes for `n` in front of `acc`: they are
decimal digits and their value is `n`. -/
theorem nat_digits_spec :
    ∀ (fuel n : Nat) (acc : Str), n < fuel →
      ∃ D : Str, nat_digits fuel n acc = D ++ acc ∧ D ≠ [] ∧ (∀ c ∈ D, c.isDigit = true) ∧
        ∀ a : Nat, D.foldl (fun acc d => acc * 10 + (d.toNat - 48)) a = a * 10 ^ D.length + n
  | 0, _, _, h => absurd h (Nat.not_lt_zero _)
  | fuel + 1, n, acc, h => by
    unfold nat_digits
    dsimp only
    have hd := digit_char_facts (n % 10) (Nat.mod_lt _ (by decide))
    by_cases h0 : n / 10 = 0
    · rw [if_pos h0]
      refine ⟨[Char.ofNat (48 + n % 10)], rfl, by simp, ?_, ?_⟩
      · intro c hc
        rw [List.mem_singleton] at hc
        rw [hc]
        exact hd.1
      · intro a
        simp only [List.foldl_cons, List.foldl_nil, List.length_singleton, pow_one]
        rw [hd.2]
        omega
    · rw [if_neg h0]
      obtain ⟨D, hD, hne, hdig, hval⟩ :=
        nat_digits_spec fuel (n / 10) (Char.ofNat (48 + n % 10) :: acc) (by omega)
      refine ⟨D ++ [Char.ofNat (48 + n % 10)], ?_, by simp, ?_, ?_⟩
      · rw [hD]
        simp
      · intro c hc
        rcases List.mem_append.mp hc with hc | hc
        · exact hdig c hc
        · rw [List.mem_singleton] at hc
          rw [hc]
          exact hd.1
      · intro a
        rw [List.foldl_append, hval a]
        simp only [List.foldl_cons, List.foldl_nil, List.length_append, List.length_singleton]
        rw [hd.2, pow_succ]
        have := Nat.div_add_mod n 10
        nlinarith [this]

theorem isDigit_not_sign {c : Char} (h : c.isDigit = true) : c ≠ '-' ∧ c ≠ '+' := by
  refine ⟨?_, ?_⟩ <;> (rintro rfl; revert h; decide)

/-- The text of `std::to_string(v)`: an optional minus sign, then the decimal
digits of the magnitude. -/
theorem int_to_string_spec (v : Int) :
    ∃ D : Str, int_to_string v = (if v < 0 then ['-'] else []) ++ D ∧ D ≠ [] ∧
      (∀ c ∈ D, c.isDigit = true) ∧
      D.foldl (fun acc d => acc * 10 + (d.toNat - 48)) 0 = v.natAbs := by
  obtain ⟨D, hD, hne, hdig, hval⟩ := nat_digits_spec (v.natAbs + 1) v.natAbs [] (by omega)
  rw [List.append_nil] at hD
  refine ⟨D, ?_, hne, hdig, ?_⟩
  · unfold int_to_string
    split
    · rw [hD]; rfl
    · rw [hD]; rfl
  · rw [hval 0]
    omega

/-- On the text of a 32-bit token followed by a character that is not a digit,
`strtol` returns the token and consumes exactly its text. -/
theorem strtol10_int_to_string (v : Int) (hlo : -(2 ^ 31 : Int) ≤ v) (hhi : v < 2 ^ 31)
    (c : Char) (rest : Str) (hc : c.isDigit = false) :
    strtol10 (int_to_string v ++ c :: rest) = (v, (int_to_string v).length) ∧
      (int_to_string v).length ≠ 0 ∧
      ∃ d tail, int_to_string v = d :: tail ∧
        (!d.isDigit && d != '-' && d != '+') = false := by
  obtain ⟨D, hD, hne, hdig, hval⟩ := int_to_string_spec v
  obtain ⟨d0, D0, hD0⟩ := List.exists_cons_of_ne_nil hne
  have hd0 : d0.isDigit = true := hdig d0 (by rw [hD0]; exact List.mem_cons_self _ _)
  have hd0s := isDigit_not_sign hd0
  by_cases hneg : v < 0
  · rw [if_pos hneg] at hD
    rw [hD]
    refine ⟨?_, by simp, '-', D, rfl, by decide⟩
    unfold strtol10
    simp only [List.singleton_append, List.cons_append, List.drop_succ_cons, List.drop_zero,
      decide_True, Bool.or_true, Bool.true_or, eq_self_iff_true, if_true, true_or, or_true,
      List.nil_append]
    rw [takeWhile_append_cons_of_all D c rest hdig hc]
    rw [if_neg hne, hval]
    have hv : -((v.natAbs : Nat) : Int) = v := by omega
    rw [hv]
    rw [if_neg (by omega), if_neg (by omega)]
    simp only [List.length_cons]
    congr 1
    omega
  · rw [if_neg hneg] at hD
    rw [List.nil_append] at hD
    rw [hD]
    refine ⟨?_, by simpa using hne, d0, D0, hD0, by simp [hd0]⟩
    unfold strtol10
    rw [hD0]
    have hs1 : (decide (d0 = '-' ∨ d0 = '+')) = false := by
      simp [hd0s.1, hd0s.2]
    have hs2 : (decide (d0 = '-')) = false := by
      simp [hd0s.1]
    simp only [List.cons_append, hs1, hs2, Bool.false_eq_true, if_false]
    rw [← List.cons_append, ← hD0]
    rw [takeWhile_append_cons_of_all D c rest hdig hc]
    rw [if_neg hne, hval]
    have hv : ((v.natAbs : Nat) : Int) = v := by omega
    rw [hv]
    rw [if_neg (by omega), if_neg (by omega)]
    simp

theorem dropWhile_append_of_all {f : Char → Bool} :
    ∀ (pre q : Str), (∀ c ∈ pre, f c = true) → (pre ++ q).dropWhile f = q.dropWhile f
  | [], _, _ => rfl
  | c :: pre, q, h => by
    rw [List.cons_append, List.dropWhile_cons_of_pos (h c (List.mem_cons_self _ _))]
    exact dropWhile_append_of_all pre q (fun x hx => h x (List.mem_cons_of_mem _ hx))

theorem tail_text_cons (t : Int) (rest : List Int) (i : Nat) :
    tail_text (t :: rest) i =
      (if i > 0 then [','] else []) ++ (int_to_string t ++ tail_text rest (i + 1)) := by
  unfold tail_text
  simp only [join_tokens_json, List.append_assoc]

/-- After the first token the text continues with a comma or the closing bracket. -/
theorem tail_text_head (ts : List Int) (i : Nat) :
    ∃ c r, tail_text ts (i + 1) = c :: r ∧ c.isDigit = false := by
  cases ts with
  | nil => exact ⟨']', [], rfl, by decide⟩
  | cons t rest =>
    refine ⟨',', int_to_string t ++ tail_text rest (i + 1 + 1), ?_, by decide⟩
    rw [tail_text_cons, if_pos (Nat.succ_pos i)]
    rfl

/-- The loop of `parse_token_list` reads back the tokens that
`serialize_tokens_json` wrote. -/
theorem parse_token_loop_tail_text :
    ∀ (ts : List Int) (i fuel : Nat) (pre : Str) (out : List Int),
      (∀ t ∈ ts, -(2 ^ 31 : Int) ≤ t ∧ t < 2 ^ 31) →
      (∀ c ∈ pre, (!c.isDigit && c != '-' && c != '+') = true) →
      ts.length < fuel →
      parse_token_loop fuel (pre ++ tail_text ts i) out = out ++ ts
  | [], _, 0, _, _, _, _, hf => absurd hf (Nat.not_lt_zero _)
  | [], i, fuel + 1, pre, out, _, hpre, _ => by
    unfold parse_token_loop
    have hne : ¬ pre ++ tail_text [] i = [] := by
      unfold tail_text
      simp [join_tokens_json]
    rw [if_neg hne]
    dsimp only
    rw [dropWhile_append_of_all pre _ hpre]
    have : (tail_text [] i).dropWhile (fun c => !c.isDigit && c != '-' && c != '+') = [] := by
      unfold tail_text
      simp only [join_tokens_json, List.nil_append]
      decide
    rw [this, if_pos rfl, List.append_nil]
  | _ :: _, _, 0, _, _, _, _, hf => absurd hf (Nat.not_lt_zero _)
  | t :: rest, i, fuel + 1, pre, out, hr, hpre, hf => by
    have ht := hr t (List.mem_cons_self _ _)
    obtain ⟨c, r, hcr, hc⟩ := tail_text_head rest i
    obtain ⟨hstr, hlen, d, tl, hits, hd⟩ := strtol10_int_to_string t ht.1 ht.2 c r hc
    have hpre2 : ∀ x ∈ pre ++ (if i > 0 then [','] else []),
        (!x.isDigit && x != '-' && x != '+') = true := by
      intro x hx
      rcases List.mem_append.mp hx with hx | hx
      · exact hpre x hx
      · split at hx
        · rw [List.mem_singleton] at hx
          rw [hx]
          decide
        · simp at hx
    have htext : pre ++ tail_text (t :: rest) i =
        (pre ++ (if i > 0 then [','] else [])) ++ (int_to_string t ++ c :: r) := by
      rw [tail_text_cons, hcr, List.append_assoc]
    have hdrop : ((pre ++ (if i > 0 then [','] else [])) ++
        (int_to_string t ++ c :: r)).dropWhile (fun c => !c.isDigit && c != '-' && c != '+') =
        int_to_string t ++ c :: r := by
      rw [dropWhile_append_of_all _ _ hpre2, hits, List.cons_append]
      exact List.dropWhile_cons_of_neg (by simp [hd])
    unfold parse_token_loop
    have hne : ¬ pre ++ tail_text (t :: rest) i = [] := by
      rw [htext, hits]
      simp
    rw [if_neg hne]
    dsimp only
    rw [htext, hdrop]
    have hne2 : ¬ int_to_string t ++ c :: r = [] := by simp
    rw [if_neg hne2, hstr]
    dsimp only
    rw [if_neg hlen, List.drop_left, ← hcr]
    have ih := parse_token_loop_tail_text rest (i + 1) fuel [] (out ++ [t])
      (fun x hx => hr x (List.mem_cons_of_mem _ hx)) (by simp)
      (by simpa using hf)
    rw [List.nil_append] at ih
    rw [ih]
    simp

theorem length_join_tokens_json (ts : List Int) (i : Nat) :
    ts.length ≤ (join_tokens_json ts i).length := by
  induction ts generalizing i with
  | nil => simp [join_tokens_json]
  | cons t rest ih =>
    obtain ⟨D, hD, hne, -, -⟩ := int_to_string_spec t
    have h1 : 1 ≤ (int_to_string t).length := by
      rw [hD, List.length_append]
      have := List.length_pos.mpr hne
      omega
    have h2 := ih (i + 1)
    simp only [join_tokens_json, List.length_append, List.length_cons]
    omega

/-- Every pass of the loop of `parse_token_list` advances the read position. -/
theorem parse_token_step_advances (p q : Str) (tok : Option Int)
    (h : parse_token_step p = some (q, tok)) : q.length < p.length := by
  unfold parse_token_step at h
  split at h
  · simp at h
  · dsimp only at h
    have hle := (List.dropWhile_suffix (fun c => !c.isDigit && c != '-' && c != '+')
      (l := p)).length_le
    split at h
    · simp at h
    · rename_i hq
      have hpos := List.length_pos.mpr hq
      split at h
      · simp only [Option.some.injEq, Prod.mk.injEq] at h
        rw [← h.1, List.length_drop]
        omega
      · rename_i hr
        simp only [Option.some.injEq, Prod.mk.injEq] at h
        rw [← h.1, List.length_drop]
        omega

/-- The loop of `parse_token_list` is its pass repeated. -/
theorem parse_token_loop_step (fuel : Nat) (p : Str) (out : List Int) :
    parse_token_loop (fuel + 1) p out =
      match parse_token_step p with
      | none => out
      | some (q, none) => parse_token_loop fuel q out
      | some (q, some t) => parse_token_loop fuel q (out ++ [t]) := by
  unfold parse_token_step
  rw [parse_token_loop]
  by_cases h1 : p = []
  · rw [if_pos h1, if_pos h1]
  · rw [if_neg h1, if_neg h1]
    dsimp only
    by_cases h2 : p.dropWhile (fun c => !c.isDigit && c != '-' && c != '+') = []
    · rw [if_pos h2, if_pos h2]
    · rw [if_neg h2, if_neg h2]
      by_cases h3 : (strtol10 (p.dropWhile (fun c => !c.isDigit && c != '-' && c != '+'))).2 = 0
      · rw [if_pos h3, if_pos h3]
      · rw [if_neg h3, if_neg h3]

/-- With more fuel than characters left, the loop of `parse_token_list` does
not depend on the fuel: it exits before the fuel runs out. -/
theorem parse_token_loop_fuel :
    ∀ (n : Nat) (p : Str), p.length ≤ n → ∀ (fuel1 fuel2 : Nat), n < fuel1 → n < fuel2 →
      ∀ out, parse_token_loop fuel1 p out = parse_token_loop fuel2 p out
  | n, p, hp, 0, _, h1, _, _ => absurd h1 (Nat.not_lt_zero _)
  | n, p, hp, _ + 1, 0, _, h2, _ => absurd h2 (Nat.not_lt_zero _)
  | n, p, hp, f1 + 1, f2 + 1, h1, h2, out => by
    rw [parse_token_loop_step, parse_token_loop_step]
    cases hs : parse_token_step p with
    | none => rfl
    | some r =>
      obtain ⟨q, tok⟩ := r
      have hadv := parse_token_step_advances p q tok hs
      cases n with
      | zero => omega
      | succ m =>
        cases tok with
        | none => exact parse_token_loop_fuel m q (by omega) f1 f2 (by omega) (by omega) out
        | some t =>
          exact parse_token_loop_fuel m q (by omega) f1 f2 (by omega) (by omega) (out ++ [t])

/-! ## The count returned by `detokenize_from_json` -/

/-- For each fallible boundary operation, every state and every engine answer,
provided the count that `tokenize_to_json` or `detokenize_from_json` returns
fits `int32_t`, the error text is non-empty after the call if and only if the
call returned a negative status. -/
theorem error_slot_agrees_of_count_fits (op : Op) (g : Globals) (rc : Int)
    (hfit : op.count_fits g)
    (hrc : op.status g = some rc) : (op.exec g).g_last_error ≠ [] ↔ rc < 0 := by
  cases op with
  | load_model env model_path n_ctx n_threads n_gpu_layers =>
    simp only [Op.status, Option.some.injEq] at hrc
    subst hrc
    exact load_model_error env model_path n_ctx n_threads n_gpu_layers g
  | mmproj_load env mmproj_path =>
    simp only [Op.status, Option.some.injEq] at hrc
    subst hrc
    exact mmproj_load_error env mmproj_path g
  | media_add_file bitmap media_path =>
    simp only [Op.status, Option.some.injEq] at hrc
    subst hrc
    exact (media_add_file_result bitmap media_path g).2.2
  | media_add_encoded bitmap bytes length =>
    simp only [Op.status, Option.some.injEq] at hrc
    subst hrc
    exact (media_add_encoded_result bitmap bytes length g).2.2
  | media_add_rgb bitmap width height bytes length =>
    simp only [Op.status, Option.some.injEq] at hrc
    subst hrc
    exact (media_add_rgb_result bitmap width height bytes length g).2.2
  | media_add_audio_f32 bitmap samples sample_count =>
    simp only [Op.status, Option.some.injEq] at hrc
    subst hrc
    exact (media_add_audio_f32_result bitmap samples sample_count g).2.2
  | tokenize_to_json env text add_special =>
    simp only [Op.status, Option.some.injEq] at hrc
    subst hrc
    exact tokenize_to_json_error env text add_special g hfit.1 hfit.2
  | detokenize_from_json pieces token_text special =>
    simp only [Op.status, Option.some.injEq] at hrc
    subst hrc
    exact detokenize_from_json_error pieces token_text special g hfit
  | generate env steps a n_predict =>
    simp only [Op.status, Option.some.injEq] at hrc
    subst hrc
    exact generate_error env steps a n_predict g
  | begin_generation env a =>
    simp only [Op.status, Option.some.injEq] at hrc
    subst hrc
    exact begin_generation_error env a g
  | next_token env =>
    simp only [Op.status, Option.some.injEq] at hrc
    subst hrc
    exact next_token_error env g
  | probe devices => simp [Op.status] at hrc
  | backends_json devices => simp [Op.status] at hrc
  | mmproj_free => simp [Op.status] at hrc
  | media_clear_pending => simp [Op.status] at hrc
  | end_generation => simp [Op.status] at hrc
  | request_cancel => simp [Op.status] at hrc
  | shutdown => simp [Op.status] at hrc


/-- C11, as stated, fails: after `shutdown()` on the initial state, with an
engine that enumerates one device named `CPU`, `backends_json()` returns
`["CPU"]`, not `[]`. -/
theorem C11_counterexample :
    (llamadart_webgpu_backends_json demo_devices
        (llamadart_webgpu_shutdown initial_state)).1 = "[\"CPU\"]".toList ∧
      (llamadart_webgpu_backends_json demo_devices
        (llamadart_webgpu_shutdown initial_state)).1 ≠ ['[', ']'] := by
  constructor <;> decide

/-- C11, amended: after `shutdown()` from any state, `get_context_size()` returns
0, `model_meta_json()` returns `{}` and the stored backend list is `[]`;
`backends_json()` enumerates the devices again and returns the list of their
labels, which is `[]` exactly when the engine yields no labelled device. -/
theorem C11_introspection_after_shutdown (g : Globals) (n_ctx : Nat)
    (devices : List (Option Device)) :
    llamadart_webgpu_get_context_size n_ctx (llamadart_webgpu_shutdown g) = 0 ∧
      llamadart_webgpu_model_meta_json (llamadart_webgpu_shutdown g) = ['{', '}'] ∧
      (llamadart_webgpu_shutdown g).g_backend_json = ['[', ']'] ∧
      (llamadart_webgpu_backends_json devices (llamadart_webgpu_shutdown g)).1 =
        ['['] ++ join_labels_json (collect_backend_labels devices) 0 ++ [']'] ∧
      ((llamadart_webgpu_backends_json devices (llamadart_webgpu_shutdown g)).1 = ['[', ']'] ↔
        collect_backend_labels devices = []) := by
  have hjson : (llamadart_webgpu_backends_json devices (llamadart_webgpu_shutdown g)).1 =
      ['['] ++ join_labels_json (collect_backend_labels devices) 0 ++ [']'] := rfl
  refine ⟨?_, ?_, ?_, hjson, ?_⟩
  · unfold llamadart_webgpu_get_context_size
    rw [shutdown_g_state]
    simp
  · have hm : (free_runtime g).g_model_meta_json = ['{', '}'] := by rw [free_runtime_eq]
    unfold llamadart_webgpu_model_meta_json llamadart_webgpu_shutdown
    dsimp only
    split <;> exact hm
  · unfold llamadart_webgpu_shutdown
    dsimp only
  · rw [hjson, ← join_labels_json_eq_nil _ 0]
    constructor
    · intro h
      have h' : '[' :: (join_labels_json (collect_backend_labels devices) 0 ++ [']']) =
          '[' :: ([] ++ [']']) := by simpa using h
      exact List.append_cancel_right (List.cons.inj h').2
    · intro h
      rw [h]; rfl

/-- C15: from every state `free_runtime` releases exactly the resources held,
each once, in the order sampler chain, pending media, multimodal context,
context, model, and nulls every handle; a second `free_runtime` right after
releases nothing and leaves the state unchanged. -/
theorem C15_teardown_ordered_idempotent (g : Globals) :
    (free_runtime g).trace = g.trace ++ held_resources g ∧
      (free_runtime g).g_state.model = none ∧ (free_runtime g).g_state.ctx = none ∧
      (free_runtime g).g_state.vocab = none ∧ (free_runtime g).g_state.mm_ctx = none ∧
      (free_runtime g).g_active_sampler = none ∧ (free_runtime g).g_pending_media = [] ∧
      held_resources (free_runtime g) = [] ∧
      (free_runtime (free_runtime g)).trace = (free_runtime g).trace ∧
      free_runtime (free_runtime g) = free_runtime g := by
  refine ⟨?_, ?_, ?_, ?_, ?_, ?_, ?_, held_resources_free_runtime g, ?_,
    free_runtime_idempotent g⟩
  · rw [free_runtime_eq]
  · rw [free_runtime_eq]
  · rw [free_runtime_eq]
  · rw [free_runtime_eq]
  · rw [free_runtime_eq]
  · rw [free_runtime_eq]
  · rw [free_runtime_eq]
  · rw [free_runtime_idempotent]

/-- C12, as stated, fails: in `user: a User: b` the earliest role prefix is the
lowercase one at index 0, yet with one media item the marker is inserted after
the capitalized prefix at index 8. -/
theorem C12_counterexample :
    FirstOccurrence (normalize_media_markers none "user: a User: b".toList 0) LIT_USER 0 ∧
      FirstOccurrence (normalize_media_markers none "user: a User: b".toList 0)
        LIT_USER_CAP 8 ∧
      normalize_media_markers none "user: a User: b".toList 1 =
        "user: a User: <__media__>  b".toList ∧
      normalize_media_markers none "user: a User: b".toList 1 ≠
        "user: <__media__>  a User: b".toList := by
  refine ⟨?_, ?_, ?_, ?_⟩
  · unfold FirstOccurrence; decide
  · unfold FirstOccurrence; decide
  · decide
  · decide

/-- C12, amended: when the normalized text (the output for media count 0) holds
fewer markers than the media count, the block of missing markers, with one
space before and one after, is inserted directly after the first `User:` if
the text contains `User:`, and otherwise directly after the first `user:` if
the text contains `user:`; the text before and after is unchanged. -/
theorem C12_insertion_point (marker_ptr : Option Str) (prompt : Str) (n : Nat)
    (hlt : count_occurrences (normalize_media_markers marker_ptr prompt 0)
      (marker_ptr.getD MEDIA_MARKER) < n) :
    (∀ i, FirstOccurrence (normalize_media_markers marker_ptr prompt 0) LIT_USER_CAP i →
      normalize_media_markers marker_ptr prompt 0 =
        (normalize_media_markers marker_ptr prompt 0).take i ++ LIT_USER_CAP ++
          (normalize_media_markers marker_ptr prompt 0).drop (i + 5) ∧
      normalize_media_markers marker_ptr prompt n =
        (normalize_media_markers marker_ptr prompt 0).take i ++ LIT_USER_CAP ++ [' '] ++
          marker_block (marker_ptr.getD MEDIA_MARKER)
            (n - count_occurrences (normalize_media_markers marker_ptr prompt 0)
              (marker_ptr.getD MEDIA_MARKER)) ++ [' '] ++
          (normalize_media_markers marker_ptr prompt 0).drop (i + 5)) ∧
    (∀ i, NoOccurrence (normalize_media_markers marker_ptr prompt 0) LIT_USER_CAP →
      FirstOccurrence (normalize_media_markers marker_ptr prompt 0) LIT_USER i →
      normalize_media_markers marker_ptr prompt 0 =
        (normalize_media_markers marker_ptr prompt 0).take i ++ LIT_USER ++
          (normalize_media_markers marker_ptr prompt 0).drop (i + 5) ∧
      normalize_media_markers marker_ptr prompt n =
        (normalize_media_markers marker_ptr prompt 0).take i ++ LIT_USER ++ [' '] ++
          marker_block (marker_ptr.getD MEDIA_MARKER)
            (n - count_occurrences (normalize_media_markers marker_ptr prompt 0)
              (marker_ptr.getD MEDIA_MARKER)) ++ [' '] ++
          (normalize_media_markers marker_ptr prompt 0).drop (i + 5)) := by
  rw [normalize_media_markers_zero] at hlt ⊢
  rw [normalize_media_markers_eq]
  obtain ⟨h1, h2, -⟩ := fill_missing_markers_of_lt _ _ n hlt
  exact ⟨fun i hi => ⟨firstOccurrence_split hi, h1 i hi⟩,
    fun i hno hi => ⟨firstOccurrence_split hi, h2 i hno hi⟩⟩

/-- Witness of the amended C12 on the prompt `user: a User: b` with one media item. -/
theorem C12_insertion_point_witness :
    count_occurrences (normalize_media_markers none "user: a User: b".toList 0)
        ((none : Option Str).getD MEDIA_MARKER) < 1 ∧
      FirstOccurrence (normalize_media_markers none "user: a User: b".toList 0)
        LIT_USER_CAP 8 ∧
      normalize_media_markers none "user: a User: b".toList 1 =
        (normalize_media_markers none "user: a User: b".toList 0).take 8 ++ LIT_USER_CAP ++
          [' '] ++
          marker_block ((none : Option Str).getD MEDIA_MARKER)
            (1 - count_occurrences (normalize_media_markers none "user: a User: b".toList 0)
              ((none : Option Str).getD MEDIA_MARKER)) ++ [' '] ++
          (normalize_media_markers none "user: a User: b".toList 0).drop (8 + 5) :=
  ⟨by decide, by unfold FirstOccurrence; decide,
    ((C12_insertion_point none "user: a User: b".toList 1 (by decide)).1 8
      (by unfold FirstOccurrence; decide)).2⟩

/-- C13: with the canonical marker, when the normalized text `t` (the output for
media count 0) holds `k` markers and `n > k`, and `B` is `n - k` markers joined
by single spaces: the output is `t` with the first `User:` replaced by `User: `,
`B` and a space when `t` contains `User:`, it is `B`, a newline and `t` when `t`
contains neither `User:` nor `user:`, and it holds exactly `n` markers. -/
theorem C13_deficit_filling (marker_ptr : Option Str)
    (hm : marker_ptr.getD MEDIA_MARKER = MEDIA_MARKER) (prompt : Str) (n : Nat)
    (hlt : count_occurrences (normalize_media_markers marker_ptr prompt 0) MEDIA_MARKER < n) :
    (∀ i, FirstOccurrence (normalize_media_markers marker_ptr prompt 0) LIT_USER_CAP i →
      normalize_media_markers marker_ptr prompt n =
        (normalize_media_markers marker_ptr prompt 0).take i ++
          (LIT_USER_CAP ++ [' '] ++
            [' '].intercalate (List.replicate
              (n - count_occurrences (normalize_media_markers marker_ptr prompt 0)
                MEDIA_MARKER) MEDIA_MARKER) ++ [' ']) ++
          (normalize_media_markers marker_ptr prompt 0).drop (i + 5)) ∧
    (NoOccurrence (normalize_media_markers marker_ptr prompt 0) LIT_USER_CAP →
      NoOccurrence (normalize_media_markers marker_ptr prompt 0) LIT_USER →
      normalize_media_markers marker_ptr prompt n =
        [' '].intercalate (List.replicate
          (n - count_occurrences (normalize_media_markers marker_ptr prompt 0) MEDIA_MARKER)
          MEDIA_MARKER) ++ ['\n'] ++ normalize_media_markers marker_ptr prompt 0) ∧
    count_occurrences (normalize_media_markers marker_ptr prompt n) MEDIA_MARKER = n := by
  rw [normalize_media_markers_zero, hm] at hlt ⊢
  rw [normalize_media_markers_eq, hm]
  obtain ⟨h1, -, h3⟩ := fill_missing_markers_of_lt _ _ n hlt
  rw [marker_block_eq_intercalate _ (by decide)] at h1 h3
  refine ⟨fun i hi => ?_, h3, ?_⟩
  · rw [h1 i hi]
    simp only [List.append_assoc]
  · rw [count_occurrences_eq _ _ (by decide)] at hlt ⊢
    rcases count_fill_missing_markers (normalize_replacements MEDIA_MARKER prompt) n with
      h | ⟨h0, -⟩
    · rw [h]; omega
    · omega

/-- Witness of C13: `normalize_media_markers("User: describe", 2)` is
`User: <__media__> <__media__>  describe`, which holds two markers. -/
theorem C13_deficit_filling_witness :
    count_occurrences (normalize_media_markers (some MEDIA_MARKER) "User: describe".toList 0)
        MEDIA_MARKER < 2 ∧
      normalize_media_markers (some MEDIA_MARKER) "User: describe".toList 2 =
        "User: <__media__> <__media__>  describe".toList ∧
      count_occurrences (normalize_media_markers (some MEDIA_MARKER) "User: describe".toList 2)
        MEDIA_MARKER = 2 :=
  ⟨by decide, by decide,
    (C13_deficit_filling (some MEDIA_MARKER) rfl "User: describe".toList 2 (by decide)).2.2⟩

/-- C14: in every state reachable from the initial state by boundary operations,
with an engine that gives a non-null vocabulary for every non-null model, the
context and the vocabulary are non-null exactly when the model is, and the
multimodal context is non-null only when the model is. -/
theorem C14_runtime_handles_invariant (g : Globals) (h : ReachableVocab g) :
    (g.g_state.ctx ≠ none ↔ g.g_state.model ≠ none) ∧
      (g.g_state.vocab ≠ none ↔ g.g_state.model ≠ none) ∧
      (g.g_state.mm_ctx ≠ none → g.g_state.model ≠ none) := by
  induction h with
  | init => exact handlesInv_of_default rfl
  | step op hop _ ih => exact handlesInv_exec op hop _ ih

/-- Witness of C14 on the state reached by a model load and a projector load. -/
theorem C14_runtime_handles_invariant_witness :
    (demo_projector.g_state.ctx ≠ none ↔ demo_projector.g_state.model ≠ none) ∧
      (demo_projector.g_state.vocab ≠ none ↔ demo_projector.g_state.model ≠ none) ∧
      (demo_projector.g_state.mm_ctx ≠ none → demo_projector.g_state.model ≠ none) :=
  C14_runtime_handles_invariant demo_projector
    (ReachableVocab.step (Op.mmproj_load { n_threads := 4, mm_ctx := some 6 } (some ['p']))
      trivial
      (ReachableVocab.step (Op.load_model demo_load_env (some ['m']) 0 0 0)
        (fun _ => by decide) ReachableVocab.init))

/-- C17, as stated, fails: on the reachable state `demo_active` (empty
accumulated output), a step in which `llama_decode` fails while cancellation is
requested returns 0 because of the cancellation, yet the accumulated output has
grown by the fragment `Hi`. -/
theorem C17_counterexample :
    demo_active.g_last_output = [] ∧
      (llamadart_webgpu_next_token demo_race_env demo_active).1 = 0 ∧
      (llamadart_webgpu_next_token demo_race_env demo_active).2.g_last_output = ['H', 'i'] ∧
      (llamadart_webgpu_next_token demo_race_env demo_active).2.g_last_output ≠
        demo_active.g_last_output := by
  refine ⟨?_, ?_, ?_, ?_⟩ <;> decide

/-- C17, amended: whenever `next_token()` returns 1 the accumulated output is
the earlier output followed by the new last fragment; whenever it returns 0
because cancellation was requested before the call or because the sampled
token ends generation, the accumulated output is unchanged; the only other
return of 0 is a failed decode during which cancellation was requested, and
then the output has grown by the converted fragment. -/
theorem C17_accumulated_output (env : StepEnv) (g : Globals) :
    ((llamadart_webgpu_next_token env g).1 = 1 →
        (llamadart_webgpu_next_token env g).2.g_last_output =
          g.g_last_output ++ (llamadart_webgpu_next_token env g).2.g_last_piece) ∧
      ((llamadart_webgpu_next_token env g).1 = 0 →
        (g.g_cancel_requested = true ∨ env.is_eog = true) →
        (llamadart_webgpu_next_token env g).2.g_last_output = g.g_last_output) ∧
      ((llamadart_webgpu_next_token env g).1 = 0 →
        g.g_cancel_requested = false → env.is_eog = false →
        env.decode_rc ≠ 0 ∧ env.cancel_during_decode = true ∧
          (llamadart_webgpu_next_token env g).2.g_last_output =
            g.g_last_output ++ piece_text env.piece) := by
  show ((next_token_impl env g).1 = 1 → (next_token_impl env g).2.g_last_output =
      g.g_last_output ++ (next_token_impl env g).2.g_last_piece) ∧
    ((next_token_impl env g).1 = 0 → (g.g_cancel_requested = true ∨ env.is_eog = true) →
      (next_token_impl env g).2.g_last_output = g.g_last_output) ∧
    ((next_token_impl env g).1 = 0 → g.g_cancel_requested = false → env.is_eog = false →
      env.decode_rc ≠ 0 ∧ env.cancel_during_decode = true ∧
        (next_token_impl env g).2.g_last_output = g.g_last_output ++ piece_text env.piece)
  by_cases hl : Loaded g
  · by_cases ha : SessionActive g
    · cases hc : g.g_cancel_requested with
      | true =>
        rw [next_token_of_cancel env hl ha hc]
        refine ⟨fun h => absurd h (by simp), fun _ _ => ?_, fun _ h => absurd h (by simp)⟩
        exact end_generation_state_last_output _
      | false =>
        cases hs : env.sampled with
        | none =>
          rw [next_token_of_null_sample env hl ha hc hs]
          exact ⟨fun h => absurd h (by simp), fun h => absurd h (by simp),
            fun h => absurd h (by simp)⟩
        | some token =>
          cases he : env.is_eog with
          | true =>
            rw [next_token_of_eog env hl ha hc token hs he]
            refine ⟨fun h => absurd h (by simp), fun _ _ => ?_,
              fun _ _ h => absurd h (by simp)⟩
            exact end_generation_state_last_output _
          | false =>
            rw [next_token_of_sampled env hl ha hc token hs he]
            by_cases hd : env.decode_rc ≠ 0
            · rw [if_pos hd]
              cases hcd : env.cancel_during_decode with
              | true =>
                simp only [if_true]
                refine ⟨fun h => absurd h (by simp), fun _ h => ?_, fun _ _ _ => ?_⟩
                · rcases h with h | h <;> exact absurd h (by simp)
                · exact ⟨hd, trivial, end_generation_state_last_output _⟩
              | false =>
                simp only [Bool.false_eq_true, if_false]
                exact ⟨fun h => absurd h (by simp), fun h => absurd h (by simp),
                  fun h => absurd h (by simp)⟩
            · rw [if_neg hd]
              exact ⟨fun _ => rfl, fun h => absurd h (by simp),
                fun h => absurd h (by simp)⟩
    · rw [next_token_of_not_active env hl ha]
      exact ⟨fun h => absurd h (by simp), fun h => absurd h (by simp),
        fun h => absurd h (by simp)⟩
  · rw [next_token_of_not_loaded env hl]
    exact ⟨fun h => absurd h (by simp), fun h => absurd h (by simp),
      fun h => absurd h (by simp)⟩

/-- C18, as stated, fails: with an engine whose every call reports failure,
`read_model_meta_string` (after six calls) and `token_to_piece` (after two)
return the empty text, the very value they return for an engine that succeeds at
once with the empty text. -/
theorem C18_counterexample :
    read_model_meta_loop (demo_meta_fail.meta_str 0 true) 6 0 1024 = ([], 6) ∧
      read_model_meta_loop (demo_meta_empty.meta_str 0 true) 6 0 1024 = ([], 1) ∧
      read_model_meta_string demo_meta_fail 0 true =
        read_model_meta_string demo_meta_empty 0 true ∧
      (token_to_piece demo_piece_fail demo_loaded).1 = [] ∧
      (token_to_piece demo_piece_fail demo_loaded).1 =
        (token_to_piece demo_piece_empty demo_loaded).1 := by
  refine ⟨?_, ?_, ?_, ?_, ?_⟩ <;> decide

/-- C18, amended: when every permitted attempt reports failure (a negative code,
or a length that does not fit the buffer), `read_model_meta_string` makes six
engine calls and returns the empty text, and `token_to_piece`, whose two calls
return negative codes, returns the empty text: the value of a successful
conversion to the empty text, with no separate signal. -/
theorem C18_exhaustion_returns_empty (env : MetaEnv) (index : Int) (read_key : Bool)
    (hfail : ∀ attempt cap, (env.meta_str index read_key attempt cap).1 < 0 ∨
      cap ≤ (env.meta_str index read_key attempt cap).1.toNat)
    (penv : PieceEnv) (g : Globals) (h1 : penv.first.rc < 0) (h2 : penv.second.rc < 0) :
    read_model_meta_string env index read_key = [] ∧
      (read_model_meta_loop (env.meta_str index read_key) 6 0
        (if read_key then 1024 else 65536)).2 = 6 ∧
      (token_to_piece penv g).1 = [] := by
  refine ⟨?_, ?_, token_to_piece_exhausted penv g h1 h2⟩
  · unfold read_model_meta_string
    rw [read_model_meta_loop_exhausted _ hfail]
  · rw [read_model_meta_loop_exhausted _ hfail]

/-- Witness of the amended C18 on an engine whose every call returns -1. -/
theorem C18_exhaustion_returns_empty_witness :
    read_model_meta_string demo_meta_fail 0 true = [] ∧
      (read_model_meta_loop (demo_meta_fail.meta_str 0 true) 6 0
        (if true then 1024 else 65536)).2 = 6 ∧
      (token_to_piece demo_piece_fail demo_loaded).1 = [] :=
  C18_exhaustion_returns_empty demo_meta_fail 0 true (fun _ _ => Or.inl (by simp [demo_meta_fail]))
    demo_piece_fail demo_loaded (by decide) (by decide)

/-- C20, as stated, fails: with engine defaults of batch 2048 and a requested
context of 4096, `load_model` passes batch 2048 to context construction, which
exceeds `min(4096, 1024)`. -/
theorem C20_counterexample :
    EngineCall.llama_init_from_model 1
        { n_ctx := 4096, n_batch := 2048, n_ubatch := 512, n_threads := 4,
          n_threads_batch := 4, offload_kqv := false, op_offload := false, no_perf := true } ∈
      (llamadart_webgpu_load_model { demo_load_env with default_cparams := demo_cparams_large }
        (some ['m']) 4096 0 0 initial_state).2.trace ∧
      ¬ (2048 ≤ min 4096 1024) := by
  constructor <;> decide

/-- C20, amended: the parameters `load_model` passes to context construction have
the requested context size when positive and the engine default otherwise, batch
at most the context size and micro-batch at most the batch. The batch is
`min(context size, 1024)` when the engine default batch is 0 or exceeds the
context size, and the engine default otherwise; the micro-batch is
`min(batch, 512)` when the engine default micro-batch is 0 or exceeds the batch,
and the engine default otherwise. -/
theorem C20_batch_sizes (env : LoadEnv) (path : Str) (n_ctx n_threads n_gpu_layers : Int)
    (g : Globals) (hpath : path ≠ []) (m : Handle) (hm : env.model = some m) :
    ∃ c : context_params,
      EngineCall.llama_init_from_model m c ∈
        (llamadart_webgpu_load_model env (some path) n_ctx n_threads n_gpu_layers g).2.trace ∧
      c.n_ctx = (if n_ctx > 0 then n_ctx.toNat else env.default_cparams.n_ctx) ∧
      c.n_batch ≤ c.n_ctx ∧ c.n_ubatch ≤ c.n_batch ∧
      c.n_batch =
        (if env.default_cparams.n_batch = 0 ∨ env.default_cparams.n_batch > c.n_ctx then
          min c.n_ctx 1024 else env.default_cparams.n_batch) ∧
      c.n_ubatch =
        (if env.default_cparams.n_ubatch = 0 ∨ env.default_cparams.n_ubatch > c.n_batch then
          min c.n_batch 512 else env.default_cparams.n_ubatch) := by
  obtain ⟨h1, h2, h3⟩ :=
    load_context_params_bounds env.default_cparams n_ctx n_threads n_gpu_layers
  refine ⟨load_context_params env.default_cparams n_ctx n_threads n_gpu_layers,
    load_model_passes_params env path n_ctx n_threads n_gpu_layers g hpath m hm, h1, ?_, ?_,
    h2, h3⟩
  · rw [h2]
    split
    · exact Nat.min_le_left _ _
    · rename_i h
      push_neg at h
      omega
  · rw [h3]
    split
    · exact Nat.min_le_left _ _
    · rename_i h
      push_neg at h
      omega

/-- Witness of the amended C20 on a load with default context size. -/
theorem C20_batch_sizes_witness :
    ∃ c : context_params,
      EngineCall.llama_init_from_model 1 c ∈
        (llamadart_webgpu_load_model demo_load_env (some ['m']) 0 0 0 initial_state).2.trace ∧
      c.n_ctx = (if (0 : Int) > 0 then (0 : Int).toNat else demo_load_env.default_cparams.n_ctx) ∧
      c.n_batch ≤ c.n_ctx ∧ c.n_ubatch ≤ c.n_batch ∧
      c.n_batch =
        (if demo_load_env.default_cparams.n_batch = 0 ∨
            demo_load_env.default_cparams.n_batch > c.n_ctx then
          min c.n_ctx 1024 else demo_load_env.default_cparams.n_batch) ∧
      c.n_ubatch =
        (if demo_load_env.default_cparams.n_ubatch = 0 ∨
            demo_load_env.default_cparams.n_ubatch > c.n_batch then
          min c.n_batch 512 else demo_load_env.default_cparams.n_ubatch) :=
  C20_batch_sizes demo_load_env ['m'] 0 0 0 initial_state (by decide) 1 rfl

/-- C19, as stated, fails: `load_model` returns -1 for a null path while a model
is loaded, and `next_token` returns -1 because no model is loaded;
`begin_generation` returns -2 for a null prompt, and `next_token` returns -2
because no session is active. -/
theorem C19_counterexample :
    (llamadart_webgpu_load_model demo_load_env none 0 0 0 demo_loaded).1 = -1 ∧
      (llamadart_webgpu_load_model demo_load_env none 0 0 0 demo_loaded).2.g_last_error =
        "Model path is empty".toList ∧
      (llamadart_webgpu_load_model demo_load_env none 0 0 0 demo_loaded).2.g_state.model ≠ none ∧
      (llamadart_webgpu_next_token demo_step_env initial_state).1 = -1 ∧
      (llamadart_webgpu_next_token demo_step_env initial_state).2.g_last_error =
        "Model is not loaded".toList ∧
      (llamadart_webgpu_begin_generation demo_begin_env (demo_args none) demo_loaded).1 = -2 ∧
      (llamadart_webgpu_begin_generation demo_begin_env (demo_args none) demo_loaded).2.g_last_error
        = "Prompt is null".toList ∧
      (llamadart_webgpu_next_token demo_step_env demo_loaded).1 = -2 ∧
      (llamadart_webgpu_next_token demo_step_env demo_loaded).2.g_last_error =
        "Generation is not active".toList := by
  refine ⟨?_, ?_, ?_, ?_, ?_, ?_, ?_, ?_, ?_⟩ <;> decide

/-- C19, amended: the meaning of a negative code is fixed per operation, not
across the boundary. The code -1 means an absent or empty model path in
`load_model`, a null text in `tokenize_to_json`, and that no model is loaded in
`begin_generation`, `next_token`, `mmproj_load` and the four media-add
operations. The code -2 means that the model file could not be loaded in
`load_model`, a null prompt in `begin_generation`, no active session in
`next_token`, an absent or empty projector path in `mmproj_load`, and no
projector in the four media-add operations. -/
theorem C19_codes_fixed_per_operation (g : Globals) :
    (∀ (env : LoadEnv) (model_path : Option Str) (n_ctx n_threads n_gpu_layers : Int),
      ((llamadart_webgpu_load_model env model_path n_ctx n_threads n_gpu_layers g).1 = -1 ↔
          (model_path = none ∨ model_path = some [])) ∧
        ((llamadart_webgpu_load_model env model_path n_ctx n_threads n_gpu_layers g).1 = -2 ↔
          (model_path ≠ none ∧ model_path ≠ some [] ∧ env.model = none))) ∧
    (∀ (env : TokenizeEnv) (add_special : Int),
      (llamadart_webgpu_tokenize_to_json env none add_special g).1 = -1) ∧
    (∀ (env : BeginEnv) (a : GenArgs),
      ((llamadart_webgpu_begin_generation env a g).1 = -1 ↔ ¬ Loaded g) ∧
        ((llamadart_webgpu_begin_generation env a g).1 = -2 ↔ (Loaded g ∧ a.prompt = none))) ∧
    (∀ env : StepEnv,
      ((llamadart_webgpu_next_token env g).1 = -1 ↔ ¬ Loaded g) ∧
        ((llamadart_webgpu_next_token env g).1 = -2 ↔ (Loaded g ∧ ¬ SessionActive g))) ∧
    (∀ (env : MmprojEnv) (mmproj_path : Option Str),
      ((llamadart_webgpu_mmproj_load env mmproj_path g).1 = -1 ↔ ¬ Loaded g) ∧
        ((llamadart_webgpu_mmproj_load env mmproj_path g).1 = -2 ↔
          (Loaded g ∧ (mmproj_path = none ∨ mmproj_path = some [])))) ∧
    (∀ (bitmap : Option Handle) (media_path : Option Str),
      ((llamadart_webgpu_media_add_file bitmap media_path g).1 = -1 ↔ ¬ Loaded g) ∧
        ((llamadart_webgpu_media_add_file bitmap media_path g).1 = -2 ↔
          (Loaded g ∧ g.g_state.mm_ctx = none))) ∧
    (∀ (bitmap bytes : Option Handle) (length : Int),
      ((llamadart_webgpu_media_add_encoded bitmap bytes length g).1 = -1 ↔ ¬ Loaded g) ∧
        ((llamadart_webgpu_media_add_encoded bitmap bytes length g).1 = -2 ↔
          (Loaded g ∧ g.g_state.mm_ctx = none))) ∧
    (∀ (bitmap : Option Handle) (width height : Nat) (bytes : Option Handle) (length : Int),
      ((llamadart_webgpu_media_add_rgb bitmap width height bytes length g).1 = -1 ↔ ¬ Loaded g) ∧
        ((llamadart_webgpu_media_add_rgb bitmap width height bytes length g).1 = -2 ↔
          (Loaded g ∧ g.g_state.mm_ctx = none))) ∧
    (∀ (bitmap samples : Option Handle) (sample_count : Int),
      ((llamadart_webgpu_media_add_audio_f32 bitmap samples sample_count g).1 = -1 ↔
          ¬ Loaded g) ∧
        ((llamadart_webgpu_media_add_audio_f32 bitmap samples sample_count g).1 = -2 ↔
          (Loaded g ∧ g.g_state.mm_ctx = none))) := by
  refine ⟨fun env model_path n_ctx n_threads n_gpu_layers =>
      load_model_status env model_path n_ctx n_threads n_gpu_layers g,
    fun env add_special => rfl,
    fun env a => begin_generation_status env a g,
    fun env => next_token_status env g,
    fun env mmproj_path => mmproj_load_status env mmproj_path g,
    fun bitmap media_path => ?_, fun bitmap bytes length => ?_,
    fun bitmap width height bytes length => ?_, fun bitmap samples sample_count => ?_⟩
  · exact ⟨(media_add_file_result bitmap media_path g).1,
      (media_add_file_result bitmap media_path g).2.1⟩
  · exact ⟨(media_add_encoded_result bitmap bytes length g).1,
      (media_add_encoded_result bitmap bytes length g).2.1⟩
  · exact ⟨(media_add_rgb_result bitmap width height bytes length g).1,
      (media_add_rgb_result bitmap width height bytes length g).2.1⟩
  · exact ⟨(media_add_audio_f32_result bitmap samples sample_count g).1,
      (media_add_audio_f32_result bitmap samples sample_count g).2.1⟩

/-- C21: for every state with a loaded model and a non-empty pending-media
sequence and every non-null prompt, the pending-media sequence is empty when
`begin_generation` returns, whatever the status and whatever the engine answers. -/
theorem C21_prompt_drains_pending_media (env : BeginEnv) (a : GenArgs) (g : Globals)
    (hl : Loaded g) (hm : g.g_pending_media ≠ []) (hp : a.prompt ≠ none) :
    (llamadart_webgpu_begin_generation env a g).2.g_pending_media = [] := by
  unfold llamadart_webgpu_begin_generation begin_generation_impl
  dsimp only
  have hl0 : Loaded { clear_error g with g_last_output := [], g_last_piece := [] } := hl
  rw [ensure_loaded_of_loaded hl0]
  simp only [Bool.not_true, Bool.false_eq_true, if_false]
  cases hpr : a.prompt with
  | none => exact absurd hpr hp
  | some prompt_text =>
    dsimp only
    generalize hg1 : emit EngineCall.llama_memory_clear
      { end_generation_state { clear_error g with g_last_output := [], g_last_piece := [] }
          with g_cancel_requested := false } = g1
    have hm1 : g1.g_pending_media ≠ [] := by
      subst hg1
      show (end_generation_state _).g_pending_media ≠ []
      rw [end_generation_state_pending]
      exact hm
    rw [if_pos hm1]
    split
    · exact decode_multimodal_prompt_pending _ _ _
    · rw [begin_generation_sampler_pending]
      exact decode_multimodal_prompt_pending _ _ _

/-- Witness of C21: with one pending media item and no projector loaded,
`begin_generation` leaves the pending-media sequence empty. -/
theorem C21_prompt_drains_pending_media_witness :
    (llamadart_webgpu_begin_generation demo_begin_env (demo_args (some ['h', 'i']))
      { demo_loaded with g_pending_media := [some 9] }).2.g_pending_media = [] :=
  C21_prompt_drains_pending_media demo_begin_env (demo_args (some ['h', 'i']))
    { demo_loaded with g_pending_media := [some 9] } (by unfold Loaded; decide) (by decide)
    (by decide)

/-- C26, as stated, fails: when a cancellation request arrives while the prompt
of `begin_generation` is being decoded and the decode succeeds, the call
returns 0 with the session active and the cancellation flag set, and the first
`next_token` ends the session with 0 and no output. -/
theorem C26_counterexample :
    (llamadart_webgpu_begin_generation demo_begin_race_env (demo_args (some "Hello".toList))
        demo_loaded).1 = 0 ∧
      (llamadart_webgpu_begin_generation demo_begin_race_env (demo_args (some "Hello".toList))
        demo_loaded).2.g_generation_active = true ∧
      (llamadart_webgpu_begin_generation demo_begin_race_env (demo_args (some "Hello".toList))
        demo_loaded).2.g_cancel_requested = true ∧
      (llamadart_webgpu_next_token demo_step_env
        (llamadart_webgpu_begin_generation demo_begin_race_env (demo_args (some "Hello".toList))
          demo_loaded).2).1 = 0 ∧
      (llamadart_webgpu_next_token demo_step_env
        (llamadart_webgpu_begin_generation demo_begin_race_env (demo_args (some "Hello".toList))
          demo_loaded).2).2.g_generation_active = false ∧
      (llamadart_webgpu_next_token demo_step_env
        (llamadart_webgpu_begin_generation demo_begin_race_env (demo_args (some "Hello".toList))
          demo_loaded).2).2.g_last_output = [] := by
  refine ⟨?_, ?_, ?_, ?_, ?_, ?_⟩ <;> decide

/-- C26, amended: in every state reachable from the initial state by boundary
operations, whatever the engine answers, a generation is active if and only if
a sampler chain is held, and an active generation implies that model, context
and vocabulary are loaded; a `begin_generation` that returns 0 yields an active
session whose cancellation flag is set exactly when a cancellation request
arrived while the prompt was being decoded, also directly after
`request_cancel`: a request issued before `begin_generation` never ends the new
session. -/
theorem C26_session_invariant (g : Globals) (h : Reachable g) :
    (g.g_generation_active = true ↔ g.g_active_sampler ≠ none) ∧
      (g.g_generation_active = true → Loaded g) ∧
      (∀ (env : BeginEnv) (a : GenArgs),
        (llamadart_webgpu_begin_generation env a g).1 = 0 →
          SessionActive (llamadart_webgpu_begin_generation env a g).2 ∧
            (llamadart_webgpu_begin_generation env a g).2.g_cancel_requested =
              env.cancel_during_decode) ∧
      (∀ (env : BeginEnv) (a : GenArgs),
        (llamadart_webgpu_begin_generation env a (llamadart_webgpu_request_cancel g)).1 = 0 →
          SessionActive
              (llamadart_webgpu_begin_generation env a (llamadart_webgpu_request_cancel g)).2 ∧
            (llamadart_webgpu_begin_generation env a
              (llamadart_webgpu_request_cancel g)).2.g_cancel_requested =
                env.cancel_during_decode ∧
            (env.cancel_during_decode = false →
              ∀ step : StepEnv,
                (llamadart_webgpu_next_token step
                    (llamadart_webgpu_begin_generation env a
                      (llamadart_webgpu_request_cancel g)).2).1 = 0 →
                  step.is_eog = true ∨
                    (step.decode_rc ≠ 0 ∧ step.cancel_during_decode = true))) := by
  have key : ∀ (env : BeginEnv) (a : GenArgs) (g0 : Globals),
      (llamadart_webgpu_begin_generation env a g0).1 = 0 →
        Loaded g0 ∧ SessionActive (llamadart_webgpu_begin_generation env a g0).2 ∧
          (llamadart_webgpu_begin_generation env a g0).2.g_cancel_requested =
            env.cancel_during_decode ∧
          (llamadart_webgpu_begin_generation env a g0).2.g_state = g0.g_state := by
    intro env a g0 h0
    unfold llamadart_webgpu_begin_generation at h0 ⊢
    rcases begin_generation_cases env a g0 _ rfl with
      ⟨h1, -⟩ | ⟨h1, -⟩ | ⟨hl, -, hst, hc⟩
    · rw [h1] at h0; exact absurd h0 (by decide)
    · rw [h1] at h0; exact absurd h0 (by decide)
    · rcases hc with ⟨-, ha, hcan⟩ | ⟨h1, -⟩
      · exact ⟨hl, ha, hcan, hst⟩
      · rcases h1 with h1 | h1 | h1 <;> rw [h1] at h0 <;> exact absurd h0 (by decide)
  refine ⟨h.sessionInv.1, h.sessionInv.2, fun env a h0 => ?_, fun env a h0 => ?_⟩
  · exact ⟨(key env a g h0).2.1, (key env a g h0).2.2.1⟩
  · obtain ⟨hl, ha, hcan, hst⟩ := key env a _ h0
    refine ⟨ha, hcan, fun hno step hs => ?_⟩
    rw [hno] at hcan
    have hl1 : Loaded (llamadart_webgpu_begin_generation env a
        (llamadart_webgpu_request_cancel g)).2 := by
      unfold Loaded at hl ⊢
      rw [hst]
      exact hl
    unfold llamadart_webgpu_next_token at hs
    cases hsam : step.sampled with
    | none =>
      rw [next_token_of_null_sample step hl1 ha hcan hsam] at hs
      simp at hs
    | some token =>
      cases he : step.is_eog
      · right
        rw [next_token_of_sampled step hl1 ha hcan token hsam he] at hs
        by_cases hd : step.decode_rc ≠ 0
        · rw [if_pos hd] at hs
          by_cases hcd : step.cancel_during_decode = true
          · exact ⟨hd, hcd⟩
          · rw [if_neg hcd] at hs
            simp at hs
        · rw [if_neg hd] at hs
          simp at hs
      · left; rfl

/-- Witness of the amended C26 on the state reached by a model load and a
successful `begin_generation`. -/
theorem C26_session_invariant_witness :
    (demo_active.g_generation_active = true ↔ demo_active.g_active_sampler ≠ none) ∧
      (demo_active.g_generation_active = true → Loaded demo_active) ∧
      (∀ (env : BeginEnv) (a : GenArgs),
        (llamadart_webgpu_begin_generation env a demo_active).1 = 0 →
          SessionActive (llamadart_webgpu_begin_generation env a demo_active).2 ∧
            (llamadart_webgpu_begin_generation env a demo_active).2.g_cancel_requested =
              env.cancel_during_decode) ∧
      (∀ (env : BeginEnv) (a : GenArgs),
        (llamadart_webgpu_begin_generation env a
            (llamadart_webgpu_request_cancel demo_active)).1 = 0 →
          SessionActive
              (llamadart_webgpu_begin_generation env a
                (llamadart_webgpu_request_cancel demo_active)).2 ∧
            (llamadart_webgpu_begin_generation env a
              (llamadart_webgpu_request_cancel demo_active)).2.g_cancel_requested =
                env.cancel_during_decode ∧
            (env.cancel_during_decode = false →
              ∀ step : StepEnv,
                (llamadart_webgpu_next_token step
                    (llamadart_webgpu_begin_generation env a
                      (llamadart_webgpu_request_cancel demo_active)).2).1 = 0 →
                  step.is_eog = true ∨
                    (step.decode_rc ≠ 0 ∧ step.cancel_during_decode = true))) :=
  C26_session_invariant demo_active (Reachable.step _ (Reachable.step _ Reachable.init))

/-- C22: if the engine call, given capacity `c`, returns the full length `L` of
the stored string (a C string of fewer than `2 ^ 31` characters) and leaves its
first `min(L, c - 1)` characters followed by a NUL in the buffer, then
`read_model_meta_string` returns exactly the stored string, for keys (first
capacity 1024) and values (first capacity 65536), after at most 2 engine calls;
for every engine behaviour it makes at most 6 engine calls. -/
theorem C22_read_model_meta_string_recovers (env : MetaEnv) (index : Int) (read_key : Bool)
    (s : Str) (hconv : LengthReporting (env.meta_str index read_key) s)
    (hnul : Char.ofNat 0 ∉ s) (hlen : s.length < 2 ^ 31) :
    read_model_meta_string env index read_key = s ∧
      (read_model_meta_loop (env.meta_str index read_key) 6 0
        (if read_key then 1024 else 65536)).2 ≤ 2 ∧
      ∀ (other : MetaEnv) (i : Int) (k : Bool),
        (read_model_meta_loop (other.meta_str i k) 6 0 (if k then 1024 else 65536)).2 ≤ 6 := by
  refine ⟨?_, ?_, fun other i k => read_model_meta_loop_calls _ 6 0 _⟩
  · unfold read_model_meta_string
    rw [read_model_meta_loop_reporting _ s hconv hnul hlen 4 0]
  · rw [read_model_meta_loop_reporting _ s hconv hnul hlen 4 0]
    dsimp only
    split_ifs <;> omega

/-- Witness of C22 on a stored key of 2000 characters, which does not fit the
first buffer of 1024. -/
theorem C22_read_model_meta_string_recovers_witness :
    read_model_meta_string demo_meta_long 0 true = demo_long_key ∧
      (read_model_meta_loop (demo_meta_long.meta_str 0 true) 6 0
        (if true then 1024 else 65536)).2 ≤ 2 ∧
      ∀ (other : MetaEnv) (i : Int) (k : Bool),
        (read_model_meta_loop (other.meta_str i k) 6 0 (if k then 1024 else 65536)).2 ≤ 6 :=
  C22_read_model_meta_string_recovers demo_meta_long 0 true demo_long_key (fun _ _ => rfl)
    demo_long_key_no_nul (by rw [demo_long_key_length]; decide)

/-- C24: whenever `begin_generation` returns 0, the sampler chain held
afterwards has exactly the stages that the specification states for the
clamped parameters (temperature below 0 becomes 0, `top_k` below 0 becomes 0,
`top_p` outside `(0, 1]` becomes 1, repeat penalty at most 0 becomes 1):
penalties if the repeat penalty is not 1, top-k if `top_k > 0`, top-p if
`top_p < 1`, grammar if the grammar text is non-empty, then temperature and the
final distribution sample. With a non-empty grammar that the engine rejects,
the sampler construction returns -5, so `begin_generation` returns -5 unless
an earlier step failed with -1 to -4. -/
theorem C24_sampler_chain_composition (env : BeginEnv) (a : GenArgs) (g : Globals) :
    ((llamadart_webgpu_begin_generation env a g).1 = 0 →
        ∃ chain, env.sampler.chain = some chain ∧
          (grammar_given a.grammar = true → env.sampler.grammar_sampler ≠ none) ∧
          (llamadart_webgpu_begin_generation env a g).2.g_active_sampler =
            some
              { handle := chain
                stages := stated_stages (stated_temp a.temp) (stated_top_k a.top_k)
                  (stated_top_p a.top_p) (stated_repeat_penalty a.repeat_penalty) a.grammar
                  env.sampler.grammar_sampler a.seed }) ∧
      (grammar_given a.grammar = true → env.sampler.grammar_sampler = none →
        (∀ g2, (begin_generation_sampler env (stated_temp a.temp) (stated_top_k a.top_k)
            (stated_top_p a.top_p) (stated_repeat_penalty a.repeat_penalty) a.grammar a.seed
            g2).1 = -5) ∧
          ((llamadart_webgpu_begin_generation env a g).1 = -1 ∨
            (llamadart_webgpu_begin_generation env a g).1 = -2 ∨
            (llamadart_webgpu_begin_generation env a g).1 = -3 ∨
            (llamadart_webgpu_begin_generation env a g).1 = -4 ∨
            (llamadart_webgpu_begin_generation env a g).1 = -5)) := by
  unfold llamadart_webgpu_begin_generation
  constructor
  · intro h0
    rcases begin_generation_shape env a g with h | ⟨g2, hg2⟩
    · rcases h with h | h | h | h <;> rw [h] at h0 <;> exact absurd h0 (by decide)
    · rw [hg2] at h0 ⊢
      rcases begin_generation_sampler_result env
        (if F32.lt a.temp F32.zero then F32.zero else a.temp)
        (if a.top_k < 0 then 0 else a.top_k)
        (if F32.le a.top_p F32.zero || F32.gt a.top_p F32.one then F32.one else a.top_p)
        (if F32.le a.repeat_penalty F32.zero then F32.one else a.repeat_penalty)
        a.grammar a.seed g2 with ⟨-, hne, hact⟩ | ⟨h5, -⟩
      · obtain ⟨sampler, hs⟩ := Option.ne_none_iff_exists'.mp hne
        obtain ⟨hchain, hgram, hstages⟩ := create_sampler_stages _ _ _ _ _ _ _ _ sampler hs
        refine ⟨sampler.handle, hchain, hgram, ?_⟩
        rw [hact, hs]
        congr 1
        obtain ⟨handle, stages⟩ := sampler
        dsimp only at hstages ⊢
        rw [hstages]
        unfold stated_stages
        rw [top_p_stage_eq]
        rfl
      · rw [h5] at h0
        exact absurd h0 (by decide)
  · intro hg hs
    have hrej : ∀ (t : F32) (k : Int) (p r : F32) (g2 : Globals),
        (begin_generation_sampler env t k p r a.grammar a.seed g2).1 = -5 := by
      intro t k p r g2
      rcases begin_generation_sampler_result env t k p r a.grammar a.seed g2 with
        ⟨-, hne, -⟩ | ⟨h5, -⟩
      · exact absurd (create_sampler_rejected env.sampler t k p r a.grammar a.seed g2 hg hs) hne
      · exact h5
    refine ⟨fun g2 => hrej _ _ _ _ g2, ?_⟩
    rcases begin_generation_shape env a g with h | ⟨g2, hg2⟩
    · rcases h with h | h | h | h
      · exact Or.inl h
      · exact Or.inr (Or.inl h)
      · exact Or.inr (Or.inr (Or.inl h))
      · exact Or.inr (Or.inr (Or.inr (Or.inl h)))
    · rw [hg2]
      exact Or.inr (Or.inr (Or.inr (Or.inr (hrej _ _ _ _ g2))))

/-- Witness of C24 on a request with temperature 1, `top_k` 40, `top_p` 1,
repeat penalty 1 and no grammar: the chain is top-k, temperature, final sample. -/
theorem C24_sampler_chain_composition_witness :
    ∃ chain, demo_begin_env.sampler.chain = some chain ∧
      (grammar_given (demo_args (some "Hello".toList)).grammar = true →
        demo_begin_env.sampler.grammar_sampler ≠ none) ∧
      (llamadart_webgpu_begin_generation demo_begin_env (demo_args (some "Hello".toList))
        demo_loaded).2.g_active_sampler =
        some
          { handle := chain
            stages := stated_stages (stated_temp (demo_args (some "Hello".toList)).temp)
              (stated_top_k (demo_args (some "Hello".toList)).top_k)
              (stated_top_p (demo_args (some "Hello".toList)).top_p)
              (stated_repeat_penalty (demo_args (some "Hello".toList)).repeat_penalty)
              (demo_args (some "Hello".toList)).grammar
              demo_begin_env.sampler.grammar_sampler (demo_args (some "Hello".toList)).seed } :=
  (C24_sampler_chain_composition demo_begin_env (demo_args (some "Hello".toList))
    demo_loaded).1 (by decide)

/-- C23: with a loaded model, `decode_tokens` uses the batch limit `b` (the
engine limit, or 512 when that is not positive); for a non-empty token list the
slices passed to `llama_decode`, in order, are consecutive from the start of the
list, each has between 1 and `b` tokens, all but the last have exactly `b`
tokens, every slice before the last was decoded with success, the call succeeds
exactly when the last slice is decoded with success, and then the slices
concatenate to the whole list; an empty token list fails without any engine
call. -/
theorem C23_decode_tokens_batches (n_batch : Nat) (decode_rc : Nat → Int) (tokens : List Int)
    (g : Globals) (hl : Loaded g) :
    1 ≤ (batch_limit n_batch).toNat ∧
      (to_int32 n_batch ≤ 0 → batch_limit n_batch = 512) ∧
      (0 < to_int32 n_batch → batch_limit n_batch = to_int32 n_batch) ∧
      (tokens = [] →
        (decode_tokens n_batch decode_rc tokens g).1 = false ∧
          (decode_tokens n_batch decode_rc tokens g).2.trace = g.trace) ∧
      (tokens ≠ [] →
        ∃ slices : List (List Int),
          slices ≠ [] ∧
          (decode_tokens n_batch decode_rc tokens g).2.trace =
            g.trace ++ slices.map EngineCall.llama_decode ∧
          (∀ s ∈ slices, 1 ≤ s.length ∧ s.length ≤ (batch_limit n_batch).toNat) ∧
          (∀ s ∈ slices.dropLast, s.length = (batch_limit n_batch).toNat) ∧
          slices.flatten <+: tokens ∧
          (∀ j, j + 1 < slices.length → decode_rc j = 0) ∧
          ((decode_tokens n_batch decode_rc tokens g).1 = true ↔
            decode_rc (slices.length - 1) = 0) ∧
          ((decode_tokens n_batch decode_rc tokens g).1 = true → slices.flatten = tokens)) := by
  refine ⟨batch_limit_pos n_batch, ?_, ?_, ?_, ?_⟩
  · intro h
    unfold batch_limit
    rw [if_pos h]
  · intro h
    unfold batch_limit
    rw [if_neg (by omega)]
  · intro ht
    unfold decode_tokens
    dsimp only
    rw [ensure_loaded_of_loaded hl]
    simp only [Bool.not_true, Bool.false_eq_true, if_false]
    rw [if_pos ht]
    exact ⟨rfl, rfl⟩
  · intro ht
    unfold decode_tokens
    dsimp only
    rw [ensure_loaded_of_loaded hl]
    simp only [Bool.not_true, Bool.false_eq_true, if_false]
    rw [if_neg ht]
    obtain ⟨slices, htr, hmem, hlast, hpre, hidx, hok, hfail⟩ :=
      decode_loop_slices decode_rc tokens (batch_limit n_batch).toNat (batch_limit_pos n_batch)
        tokens.length 0 0 g (by omega)
    simp only [List.drop_zero, Nat.zero_add] at hpre hidx hok hfail
    have hne : slices ≠ [] := by
      cases hr : (decode_loop decode_rc tokens (batch_limit n_batch).toNat tokens.length 0 0 g).1
      · exact (hfail hr).1
      · intro he
        have := (hok hr).1
        rw [he] at this
        exact ht this.symm
    refine ⟨slices, hne, htr, hmem, hlast, hpre, hidx, ?_, fun h => (hok h).1⟩
    constructor
    · intro h
      exact (hok h).2 _ (Nat.sub_lt (List.length_pos.mpr hne) (by decide))
    · intro h
      by_contra hc
      have hf : (decode_loop decode_rc tokens (batch_limit n_batch).toNat tokens.length 0 0
          g).1 = false := by
        simpa using hc
      exact (hfail hf).2 h

/-- Witness of C23: three tokens with batch limit 2 on a loaded model. -/
theorem C23_decode_tokens_batches_witness :
    1 ≤ (batch_limit 2).toNat ∧
      (to_int32 2 ≤ 0 → batch_limit 2 = 512) ∧
      (0 < to_int32 2 → batch_limit 2 = to_int32 2) ∧
      (([1, 2, 3] : List Int) = [] →
        (decode_tokens 2 (fun _ => 0) [1, 2, 3] demo_loaded).1 = false ∧
          (decode_tokens 2 (fun _ => 0) [1, 2, 3] demo_loaded).2.trace = demo_loaded.trace) ∧
      (([1, 2, 3] : List Int) ≠ [] →
        ∃ slices : List (List Int),
          slices ≠ [] ∧
          (decode_tokens 2 (fun _ => 0) [1, 2, 3] demo_loaded).2.trace =
            demo_loaded.trace ++ slices.map EngineCall.llama_decode ∧
          (∀ s ∈ slices, 1 ≤ s.length ∧ s.length ≤ (batch_limit 2).toNat) ∧
          (∀ s ∈ slices.dropLast, s.length = (batch_limit 2).toNat) ∧
          slices.flatten <+: [1, 2, 3] ∧
          (∀ j, j + 1 < slices.length → (fun _ => (0 : Int)) j = 0) ∧
          ((decode_tokens 2 (fun _ => 0) [1, 2, 3] demo_loaded).1 = true ↔
            (fun _ => (0 : Int)) (slices.length - 1) = 0) ∧
          ((decode_tokens 2 (fun _ => 0) [1, 2, 3] demo_loaded).1 = true →
            slices.flatten = [1, 2, 3])) :=
  C23_decode_tokens_batches 2 (fun _ => 0) [1, 2, 3] demo_loaded (by unfold Loaded; decide)

/-- C25: for every list `ts` of signed 32-bit token ids (negative ids and the
empty list included), `parse_token_list(serialize_tokens_json(ts)) = ts`; and the
loop of `parse_token_list` terminates on every text: every pass moves the read
position forward, the loop is that pass repeated, and with more passes allowed
than the text has characters its result does not depend on the allowance. -/
theorem C25_token_list_round_trip (ts : List Int)
    (hr : ∀ t ∈ ts, -(2 ^ 31 : Int) ≤ t ∧ t < 2 ^ 31) :
    parse_token_list (some (serialize_tokens_json ts)) = ts ∧
      (∀ (p q : Str) (tok : Option Int),
        parse_token_step p = some (q, tok) → q.length < p.length) ∧
      (∀ (fuel : Nat) (p : Str) (out : List Int),
        parse_token_loop (fuel + 1) p out =
          match parse_token_step p with
          | none => out
          | some (q, none) => parse_token_loop fuel q out
          | some (q, some t) => parse_token_loop fuel q (out ++ [t])) ∧
      (∀ (text : Str) (fuel : Nat), text.length + 1 ≤ fuel →
        parse_token_loop fuel text [] = parse_token_list (some text)) := by
  refine ⟨?_, parse_token_step_advances, parse_token_loop_step, ?_⟩
  · unfold parse_token_list serialize_tokens_json
    dsimp only
    have htext : ['['] ++ join_tokens_json ts 0 ++ [']'] = ['['] ++ tail_text ts 0 := by
      unfold tail_text
      rw [List.append_assoc]
    have hlen := length_join_tokens_json ts 0
    rw [htext]
    have h := parse_token_loop_tail_text ts 0 ((['['] ++ tail_text ts 0).length + 1) ['['] [] hr
      (by decide) (by
        unfold tail_text
        simp only [List.length_append, List.length_cons, List.length_nil]
        omega)
    rw [h, List.nil_append]
  · intro text fuel hf
    unfold parse_token_list
    exact parse_token_loop_fuel text.length text (Nat.le_refl _) fuel (text.length + 1)
      (by omega) (by omega) []

/-- Witness of C25 on the list `[5, -12, 0]`. -/
theorem C25_token_list_round_trip_witness :
    parse_token_list (some (serialize_tokens_json [5, -12, 0])) = [5, -12, 0] ∧
      (∀ (p q : Str) (tok : Option Int),
        parse_token_step p = some (q, tok) → q.length < p.length) ∧
      (∀ (fuel : Nat) (p : Str) (out : List Int),
        parse_token_loop (fuel + 1) p out =
          match parse_token_step p with
          | none => out
          | some (q, none) => parse_token_loop fuel q out
          | some (q, some t) => parse_token_loop fuel q (out ++ [t])) ∧
      (∀ (text : Str) (fuel : Nat), text.length + 1 ≤ fuel →
        parse_token_loop fuel text [] = parse_token_list (some text)) :=
  C25_token_list_round_trip [5, -12, 0] (by decide)

end LlamaWebgpu
